import Mathlib

/-!
# kiwix-desktop content manager: book states, directory monitoring, filters,
downloads and book attributes

A shallow embedding of `src/contentmanager.cpp`.

* Strings (`QString`, `std::string`) are Lean `String`s.
* `kiwix::Book` is a record of the attributes that the source reads through
  its getters and writes through its setters.
* A library (`kiwix::Library`, keyed by book id) is a list of books.
* Lookups that throw `std::out_of_range` in the source return `Except`.
* The object state of `ContentManager` is an explicit record; signals that
  are emitted, library saves, writes of the settings and timers that are armed
  are appended to a log. A signal is logged when it is emitted; the slots that
  are connected to it are not run. Calls that only update the view model
  (`managerModel`) are left out.
* An index operator of Qt whose index is out of range is an error (`Except`).
* The scheduled rechecks that are outstanding are kept next to the state
  (`Monitor`): arming a timer adds one, the firing of a timer removes it.
* The listing of a directory, the match of a name against one wildcard filter
  and the path functions of libkiwix are fields of `Env`.
* What the code reads from outside the object (the clock, the file system,
  the open tabs) is collected in a record `Env`. One call reads one clock value.
* A set of file names (`QStringSet`) is the list of its elements in the order in
  which the code iterates over it; the theorems hold for every order.
* A `QMap` keyed by file name is an association list without duplicate keys.
* Functions of libkiwix and of source files that are not at hand are modelled
  from the specification; their doc comments say so.
* The calls of `manager.addBookFromPath` are recorded in the state
  (`ingestionAttempts`), in the order in which they are made.
* The methods are embedded as compiled with `QT_NO_DEBUG`; those that reach the
  `Q_ASSERT` of `updateStatus` are embedded a second time as compiled without it
  (`Debug`), where a failed assertion ends the program.
-/

namespace ContentManager

/-! ## Books and libraries -/

/-- A `kiwix::Book::Illustration`: its URL and what `getData()` returns, `none`
when `getData()` throws. -/
structure Illustration where
  url : String := ""
  data : Option (List Nat) := none
  deriving DecidableEq, Repr

/-- A `kiwix::Book`, reduced to the attributes used by `contentmanager.cpp`. The
field `illustration` is what `getIllustration(48)` returns, `none` when it
throws. -/
structure Book where
  id : String := ""
  path : String := ""
  pathValid : Bool := false
  downloadId : String := ""
  url : String := ""
  title : String := ""
  description : String := ""
  date : String := ""
  name : String := ""
  tags : String := ""
  size : Nat := 0
  illustration : Option Illustration := none
  deriving DecidableEq, Repr

/-- The exception thrown by `kiwix::Library::getBookById` and
`kiwix::Library::getBookByPath` when no book matches. -/
inductive LookupError where
  | out_of_range
  deriving DecidableEq, Repr

deriving instance DecidableEq for Except

/-- The books of a `kiwix::Library`. The library is keyed by book id. -/
abbrev BookList := List Book

/-- Modelled from the spec: `kiwix::Library::getBookById` belongs to libkiwix and
is not part of the sources. The catalog is "a record set keyed by book id";
the lookup of an unknown id throws (`std::out_of_range`), which the callers
catch. -/
def getBookById (lib : BookList) (id : String) : Except LookupError Book :=
  match lib.find? (fun b => b.id == id) with
  | some b => .ok b
  | none => .error .out_of_range

/-- Modelled from the spec: `kiwix::Library::getBookByPath` belongs to libkiwix.
It "looks up the corresponding Local Catalog entry by resolved path" and
throws when there is none. -/
def getBookByPath (lib : BookList) (path : String) : Except LookupError Book :=
  match lib.find? (fun b => b.path == path) with
  | some b => .ok b
  | none => .error .out_of_range

/-- Modelled from the spec: `Library::removeBookFromLibraryById` is defined in
`library.cpp`, which is not part of the sources. It removes the record with
the given id from the Local Catalog. -/
def removeBookFromLibraryById (lib : BookList) (id : String) : BookList :=
  lib.filter (fun b => !(b.id == id))

/-- Modelled from the spec: `kiwix::Library::addOrUpdateBook` belongs to
libkiwix. The catalog is keyed by book id, so a book whose id is already
present replaces the stored record and a new id adds a record. -/
def addOrUpdateBook (lib : BookList) (book : Book) : BookList :=
  if lib.any (fun b => b.id == book.id) then
    lib.map (fun b => if b.id == book.id then book else b)
  else
    lib ++ [book]

/-- The representation invariant of a library: it is a map from ids to books, so
no two of its records have the same id. -/
abbrev KeyedById (lib : BookList) : Prop :=
  (lib.map Book.id).Nodup

/-! ## Downloads -/

/-- Modelled from the spec: `DownloadState::Status` is declared in
`downloadmanagement.h`, which is not part of the sources. The spec lists the
statuses of a download entry as
`Queued|Downloading|Paused|Cancelled|Completed|Error`; `contentmanager.cpp`
names `PAUSED` and `DOWNLOADING`. -/
inductive DownloadStatus where
  | QUEUED
  | DOWNLOADING
  | PAUSED
  | CANCELLED
  | COMPLETED
  | ERROR
  deriving DecidableEq, Repr

/-- One entry of the download ledger (`DownloadState`): its status and the
destination path of the download. -/
structure DownloadState where
  status : DownloadStatus := .QUEUED
  path : String := ""
  deriving DecidableEq, Repr

/-- The download ledger of `DownloadManager`, keyed by book id. -/
abbrev Downloads := List (String × DownloadState)

/-- The function `DownloadManager::getDownloadState`: the ledger entry of a book,
a null pointer (`none`) when the book has no download. -/
def getDownloadState (downloads : Downloads) (bookId : String) : Option DownloadState :=
  (downloads.find? (fun e => e.1 == bookId)).map (fun e => e.2)

/-! ## Book states -/

/-- The enumeration `ContentManager::BookState`. -/
inductive BookState where
  | INVALID
  | AVAILABLE_LOCALLY_AND_HEALTHY
  | ERROR_MISSING_ZIM_FILE
  | ERROR_CORRUPTED_ZIM_FILE
  | AVAILABLE_ONLINE
  | DOWNLOADING
  | DOWNLOAD_PAUSED
  | METADATA_ONLY
  deriving DecidableEq, Repr

/-- The function `getStateOfLocalBook` of the unnamed namespace. -/
def getStateOfLocalBook (book : Book) : BookState :=
  if !book.pathValid then
    .ERROR_MISSING_ZIM_FILE
  else
    .AVAILABLE_LOCALLY_AND_HEALTHY

/-! ## The manager and its surroundings -/

/-- A `QDateTime`: milliseconds since the epoch, or `none` for a null date-time
(a default-constructed `QDateTime`, or the modification time that `QFileInfo`
reports for a file that does not exist). -/
abbrev QDateTime := Option Int

/-- The enumeration `MonitoredZimFileInfo::ZimFileStatus`. It is declared in
`contentmanager.h`; the order of the enumerators is the one by which
`monitoredDirZimFileHandlingMsgs` is indexed. -/
inductive ZimFileStatus where
  | PROCESS_NOW
  | BEING_DOWNLOADED_BY_US
  | ADDED_TO_THE_LIBRARY
  | COULD_NOT_BE_ADDED_TO_THE_LIBRARY
  | UNCHANGED_KNOWN_BAD_ZIM_FILE
  | PROCESS_LATER
  | DEFERRED_PROCESSING_ALREADY_PENDING
  deriving DecidableEq, Repr

/-- Modelled from the spec: the struct `ContentManager::MonitoredZimFileInfo` is
declared in `contentmanager.h`, which is not part of the sources. A watch entry
has a last-modified timestamp and a status. A freshly constructed info has the
status `PROCESS_NOW` (the enumerator of value 0, the only status without a
message in `monitoredDirZimFileHandlingMsgs`) and a null timestamp. -/
structure MonitoredZimFileInfo where
  status : ZimFileStatus := .PROCESS_NOW
  lastModified : QDateTime := none
  deriving DecidableEq, Repr

/-- The watch entries of one monitored directory
(`QMap<QString, MonitoredZimFileInfo>`), keyed by file name. -/
abbrev ZimsInDir := AList (fun _ : String => MonitoredZimFileInfo)

/-- What the manager does to the outside, in the order in which it happens. -/
inductive Effect where
  /-- The call `mp_library->save()`. -/
  | librarySaved
  /-- The signal `booksChanged()`. -/
  | booksChanged
  /-- The call `QTimer::singleShot(msec, ...)` that will run
  `handleZimFileInMonitoredDirDeferred(dir, fname)`. -/
  | singleShot (msec : Nat) (dir fname : String)
  /-- The signal `filterParamsChanged()`. -/
  | filterParamsChanged
  /-- The signal `currentLangChanged()`. -/
  | currentLangChanged
  /-- The signal `categoriesLoaded(categories)`. -/
  | categoriesLoaded (categories : List String)
  /-- The signal `languagesLoaded(languages)`. -/
  | languagesLoaded (languages : List (String × String))
  /-- The request `m_remoteLibraryManager.getCategoriesFromOpds()`. -/
  | getCategoriesFromOpds
  /-- The request `m_remoteLibraryManager.getLanguagesFromOpds()`. -/
  | getLanguagesFromOpds
  /-- The call `getSettingsManager()->setLanguage(langPairList)`. -/
  | settingsSetLanguage (langPairList : List (String × String))
  /-- The call `getSettingsManager()->setCategory(categoryList)`. -/
  | settingsSetCategory (categoryList : List String)
  /-- The call `getSettingsManager()->setContentType(contentTypeFiltersPairList)`. -/
  | settingsSetContentType (contentTypeFiltersPairList : List (String × String))
  /-- The signal `booksChanged()` of the library object `mp_library`. -/
  | libraryBooksChanged
  /-- The signal `bookmarksChanged()` of the library object `mp_library`. -/
  | bookmarksChanged
  /-- The signal `oneBookChanged(id)`. -/
  | oneBookChanged (id : String)
  /-- The call `showErrorBox(err, mp_view)`. -/
  | showErrorBox (summary details : String)
  /-- The signal `error(summary, details)`. -/
  | error (summary details : String)
  /-- The call `DownloadManager::startDownload(book, downloadPath)` that returned
  the given download id. -/
  | downloadStarted (bookId downloadPath downloadId : String)
  /-- The call `asyncUpdateLibraryFromDir(dir)`, which queues a run of
  `updateLibraryFromDir(dir)` in another thread. -/
  | asyncUpdateLibraryFromDir (dir : String)
  /-- The call `dir.remove(file)` of `eraseBookFilesFromComputer` on the `QDir` of
  the given directory. -/
  | fileRemoved (dir file : String)
  /-- The call `QFile::moveToTrash(dir.filePath(file))` of
  `eraseBookFilesFromComputer` on the `QDir` of the given directory. -/
  | fileMovedToTrash (dir file : String)
  deriving DecidableEq, Repr

/-- The sort keys `kiwix::supportedListSortBy` that `setSortBy` names. -/
inductive SortBy where
  | UNSORTED
  | TITLE
  | SIZE
  | DATE
  deriving DecidableEq, Repr

/-- The requests `DownloadState::Action` that `contentmanager.cpp` queues. -/
inductive DownloadAction where
  | START
  | PAUSE
  | RESUME
  | CANCEL
  deriving DecidableEq, Repr

/-- A `KiwixAppError`: its summary and its details. -/
structure KiwixAppError where
  summary : String := ""
  details : String := ""
  deriving DecidableEq, Repr

/-- The type `FilterList` of the filter setters: pairs whose second component is
the value of the filter. -/
abbrev FilterList := List (String × String)

/-- The entries `"status"` and `"path"` of a `DownloadInfo` map, the two that
`updateDownload` reads. -/
structure DownloadInfo where
  status : String := ""
  path : String := ""
  deriving DecidableEq, Repr

/-- The part of the `ContentManager` object that the embedded functions read
and write. -/
structure State where
  /-- The Local Catalog `mp_library`. -/
  library : BookList := []
  /-- The Remote Catalog `mp_remoteLibrary`. -/
  remoteLibrary : BookList := []
  /-- The download ledger of the base class `DownloadManager`. -/
  downloads : Downloads := []
  /-- The watch state `m_knownZimsInDir`. -/
  knownZimsInDir : String → ZimsInDir := fun _ => ∅
  /-- The effects so far, oldest first. -/
  log : List Effect := []
  /-- The request queue of the base class `DownloadManager`. -/
  requests : List (DownloadAction × String) := []
  /-- The member `m_local`: whether the Local Catalog is shown. -/
  m_local : Bool := true
  /-- The member `m_currentLanguage`. -/
  m_currentLanguage : String := ""
  /-- The member `m_categoryFilter`. -/
  m_categoryFilter : String := ""
  /-- The member `m_contentTypeFilters`. -/
  m_contentTypeFilters : List String := []
  /-- The member `m_searchQuery`. -/
  m_searchQuery : String := ""
  /-- The member `m_sortBy`. -/
  m_sortBy : SortBy := .UNSORTED
  /-- The member `m_sortOrderAsc`. -/
  m_sortOrderAsc : Bool := true
  /-- The member `m_categories`. -/
  m_categories : List String := []
  /-- The member `m_languages`: pairs of a self name and a language code. -/
  m_languages : List (String × String) := []
  /-- The directories of the member `m_watcher`. -/
  watcherDirectories : List String := []
  /-- The ingestion attempts so far, oldest first: the directory `dir` and the
  file name `fileName` of each call `manager.addBookFromPath(bookPath)` of
  `handleZimFileInMonitoredDir(dir, fileName)`. -/
  ingestionAttempts : List (String × String) := []

/-- What the code takes from outside the manager: what it reads from the world,
and the functions of libkiwix and of absent source files whose results it
uses. -/
structure Env where
  /-- The clock `QDateTime::currentDateTime()`, in milliseconds, as read during
  one call. -/
  now : Int := 0
  /-- The modification time `QFileInfo(path).lastModified()`. -/
  lastModified : String → QDateTime := fun _ => none
  /-- The listing `QDir(dirPath).entryList({"*.zim"})`. -/
  entryList : String → List String := fun _ => []
  /-- The ids `KiwixApp::instance()->getTabWidget()->getTabZimIds()`. -/
  tabZimIds : List String := []
  /-- The book that libkiwix reads from the archive at a path, `none` when
  the file cannot be read as an archive. -/
  readBookFromPath : String → Option Book := fun _ => none
  /-- The function `kiwix::converta2toa3`, `none` when it throws
  `std::out_of_range`. -/
  converta2toa3 : String → Option String := fun _ => none
  /-- The function `kiwix::getLanguageSelfName`. -/
  getLanguageSelfName : String → String := fun code => code
  /-- The method `kiwix::Library::getBooksCategories` of the Local Catalog. -/
  getBooksCategories : BookList → List String := fun _ => []
  /-- The method `kiwix::Library::getBooksLanguages` of the Local Catalog. -/
  getBooksLanguages : BookList → List String := fun _ => []
  /-- The directory `getSettingsManager()->getDownloadDir()`. -/
  downloadDir : String := ""
  /-- The precheck `DownloadManager::checkThatBookCanBeDownloaded(book, path)`:
  the `KiwixAppError` that it throws, `none` when it returns. -/
  checkThatBookCanBeDownloaded : Book → String → Option KiwixAppError := fun _ _ => none
  /-- The call `DownloadManager::startDownload(book, path)`: the download id that
  it returns, or the `KiwixAppError` that it throws. -/
  startDownload : Book → String → Except KiwixAppError String := fun _ _ => .ok ""
  /-- The method `Library::addBookBeingDownloaded(book, downloadDir)` of
  `library.cpp`: the Local Catalog that it leaves. -/
  addBookBeingDownloaded : BookList → Book → String → BookList := fun lib _ _ => lib
  /-- The method `Library::updateBookBeingDownloaded(bookId, path)` of
  `library.cpp`: the Local Catalog that it leaves. -/
  updateBookBeingDownloaded : BookList → String → String → BookList := fun lib _ _ => lib
  /-- The method `DownloadState::update(downloadInfo)`: the ledger entry that it
  leaves. -/
  updateDownloadState : DownloadState → DownloadInfo → DownloadState := fun ds _ => ds
  /-- What `DownloadManager::addRequest(action, bookId)` does to the ledger. -/
  addRequestToLedger : Downloads → DownloadAction → String → Downloads := fun ds _ _ => ds
  /-- The method `Library::getLibraryZimsFromDir(dir)` of `library.cpp`: the names
  of the files of a directory that the Local Catalog records. -/
  getLibraryZimsFromDir : BookList → String → List String := fun _ _ => []
  /-- The function `kiwix::removeLastPathElement` of libkiwix. -/
  removeLastPathElement : String → String := fun path => path
  /-- The function `kiwix::getLastPathElement` of libkiwix. -/
  getLastPathElement : String → String := fun _ => ""
  /-- The names that `QDir::entryList()` lists for a directory when no name
  filter excludes them. -/
  dirEntries : String → List String := fun _ => []
  /-- Whether a name matches one wildcard filter of a `QDir`; the first argument
  is the filter. -/
  wildcardMatch : String → String → Bool := fun _ _ => false

/-- The path `QDir::toNativeSeparators(dir + "/" + fileName)`, on a platform
whose native separator is the slash. -/
def bookPathOf (dir fileName : String) : String :=
  dir ++ "/" ++ fileName

/-- Appends effects to the log. -/
def State.emit (st : State) (es : List Effect) : State :=
  { st with log := st.log ++ es }

/-- Replaces the watch entries of one directory. -/
def State.setZimsInDir (st : State) (dir : String) (zims : ZimsInDir) : State :=
  { st with knownZimsInDir := Function.update st.knownZimsInDir dir zims }

/-- The assignment `m_knownZimsInDir[dir][fname].status = status`: the index
operator creates a freshly constructed entry when there is none. -/
def State.setStatus (st : State) (dir fname : String) (status : ZimFileStatus) : State :=
  let zimsInDir := st.knownZimsInDir dir
  let info : MonitoredZimFileInfo := (zimsInDir.lookup fname).getD {}
  st.setZimsInDir dir (zimsInDir.insert fname { info with status := status })

/-! ## Book state resolution -/

/-- The method `ContentManager::getBookState`. Each `try { ... } catch (...) {}`
block falls through to the next statement when the lookup in it throws. -/
def getBookState (st : State) (bookId : String) : Except LookupError BookState :=
  match getDownloadState st.downloads bookId with
  | some downloadState =>
    .ok (if downloadState.status = .PAUSED then .DOWNLOAD_PAUSED else .DOWNLOADING)
  | none =>
    match getBookById st.library bookId with
    | .ok b => .ok (if b.downloadId = "" then getStateOfLocalBook b else .DOWNLOADING)
    | .error _ =>
      match getBookById st.remoteLibrary bookId with
      | .ok b => .ok (if b.url ≠ "" then .AVAILABLE_ONLINE else .METADATA_ONLY)
      | .error _ => .ok .INVALID

/-! ## Directory monitoring -/

/-- Modelled from the spec: `Library::isBeingDownloadedByUs` is defined in
`library.cpp`, which is not part of the sources. A file is being downloaded by
us when "the book is already owned by an active download into that same
path": the Local Catalog has a record with this path whose download-id is not
empty ("empty unless a download owns this record"). -/
def isBeingDownloadedByUs (lib : BookList) (path : String) : Bool :=
  match getBookByPath lib path with
  | .ok book => book.downloadId != ""
  | .error _ => false

/-- Modelled from the spec: `kiwix::Manager::addBookFromPath` belongs to
libkiwix. It "parses the file as an archive and attempts to add it to the Local
Catalog": when the file reads as an archive, the book read from it, located at
that path and owned by no download, is added to the catalog (or replaces the
record of the same id) and the result is `true`; otherwise the catalog is left
alone and the result is `false`. -/
def addBookFromPath (env : Env) (lib : BookList) (path : String) : Bool × BookList :=
  match env.readBookFromPath path with
  | some book =>
    (true, addOrUpdateBook lib { book with path := path, pathValid := true, downloadId := "" })
  | none => (false, lib)

/-- The method `MonitoredZimFileInfo::fileKeepsBeingModified`, with
`FILE_STABILITY_DURATION_MS = 1000`. A null date-time is not later than any
date-time. -/
def MonitoredZimFileInfo.fileKeepsBeingModified (this : MonitoredZimFileInfo) (now : Int) : Bool :=
  match this.lastModified with
  | some t => decide (t > now + (-1000))
  | none => false

/-- The method `MonitoredZimFileInfo::updateStatus` as compiled with
`QT_NO_DEBUG`, where the `Q_ASSERT` on the previous status expands to nothing;
`Debug.updateStatus` is the method with the assertion. -/
def MonitoredZimFileInfo.updateStatus (this prevInfo : MonitoredZimFileInfo) (now : Int) :
    MonitoredZimFileInfo :=
  if this.lastModified = prevInfo.lastModified then
    { this with status := .UNCHANGED_KNOWN_BAD_ZIM_FILE }
  else if prevInfo.status = .PROCESS_LATER then
    { this with status := .DEFERRED_PROCESSING_ALREADY_PENDING }
  else if this.fileKeepsBeingModified now then
    { this with status := .PROCESS_LATER }
  else
    { this with status := .PROCESS_NOW }

/-- The method `ContentManager::getMonitoredZimFileInfo`. -/
def getMonitoredZimFileInfo (env : Env) (st : State) (dir fileName : String) :
    MonitoredZimFileInfo :=
  let bookPath := bookPathOf dir fileName
  let zimFileInfo : MonitoredZimFileInfo := { lastModified := env.lastModified bookPath }
  match (st.knownZimsInDir dir).lookup fileName with
  | some prevInfo => zimFileInfo.updateStatus prevInfo env.now
  | none => zimFileInfo

/-- The method `ContentManager::deferHandlingOfZimFileInMonitoredDir`, with
`DEBOUNCING_DELAY_MILLISECONDS = 1000`. -/
def deferHandlingOfZimFileInMonitoredDir (st : State) (dir fname : String) : State :=
  (st.setStatus dir fname .PROCESS_LATER).emit [.singleShot 1000 dir fname]

/-- The method `ContentManager::handleZimFileInMonitoredDir`: the status that is
returned and the state that is left. -/
def handleZimFileInMonitoredDir (env : Env) (st : State) (dir fileName : String) :
    ZimFileStatus × State :=
  let bookPath := bookPathOf dir fileName
  if isBeingDownloadedByUs st.library bookPath then
    (.BEING_DOWNLOADED_BY_US, st)
  else
    let zfi := getMonitoredZimFileInfo env st dir fileName
    if zfi.status = .PROCESS_LATER then
      (zfi.status, deferHandlingOfZimFileInMonitoredDir st dir fileName)
    else if zfi.status = .PROCESS_NOW then
      let added := addBookFromPath env st.library bookPath
      let zfi : MonitoredZimFileInfo :=
        { zfi with status := if added.1 then .ADDED_TO_THE_LIBRARY
                             else .COULD_NOT_BE_ADDED_TO_THE_LIBRARY }
      (zfi.status,
        { st with
          library := added.2
          ingestionAttempts := st.ingestionAttempts ++ [(dir, fileName)] }.setZimsInDir dir
          ((st.knownZimsInDir dir).insert fileName zfi))
    else
      (zfi.status, st)

/-- The method `ContentManager::handleZimFileInMonitoredDirLogged`: whether the
file was added to the library. -/
def handleZimFileInMonitoredDirLogged (env : Env) (st : State) (dir fileName : String) :
    Bool × State :=
  let handled := handleZimFileInMonitoredDir env st dir fileName
  (decide (handled.1 = .ADDED_TO_THE_LIBRARY), handled.2)

/-- The method `ContentManager::handleZimFileInMonitoredDirDeferred`, which the
timer armed by `deferHandlingOfZimFileInMonitoredDir` runs. -/
def handleZimFileInMonitoredDirDeferred (env : Env) (st : State) (dir fileName : String) :
    State :=
  let handled :=
    handleZimFileInMonitoredDirLogged env (st.setStatus dir fileName .PROCESS_NOW) dir fileName
  if handled.1 then handled.2.emit [.librarySaved, .booksChanged] else handled.2

/-- The method `ContentManager::handleDisappearedBook`. -/
def handleDisappearedBook (env : Env) (st : State) (bookId : String) : Bool × State :=
  if env.tabZimIds.contains bookId then
    (false, st)
  else
    (true, { st with library := removeBookFromLibraryById st.library bookId })

/-- The body of the loop of `ContentManager::handleDisappearedZimFiles` for one
file. The `catch` clause runs when `getBookByPath` throws. -/
def handleDisappearedZimFile (env : Env) (dirPath : String) (st : State) (file : String) :
    State :=
  let bookPath := bookPathOf dirPath file
  match getBookByPath st.library bookPath with
  | .ok book =>
    let handled := handleDisappearedBook env st book.id
    if handled.1 then
      handled.2.setZimsInDir dirPath ((handled.2.knownZimsInDir dirPath).erase file)
    else
      handled.2
  | .error _ => st.setZimsInDir dirPath ((st.knownZimsInDir dirPath).erase file)

/-- The method `ContentManager::handleDisappearedZimFiles`. The set of file names
is given as the list of its elements in iteration order. -/
def handleDisappearedZimFiles (env : Env) (st : State) (dirPath : String)
    (fileNames : List String) : State :=
  fileNames.foldl (handleDisappearedZimFile env dirPath) st

/-- The method `ContentManager::handleNewZimFiles`: the count of the files that
were added to the library and the state that is left. -/
def handleNewZimFiles (env : Env) (st : State) (dirPath : String) (fileNames : List String) :
    Nat × State :=
  fileNames.foldl
    (fun acc file =>
      let handled := handleZimFileInMonitoredDirLogged env acc.2 dirPath file
      (acc.1 + (if handled.1 then 1 else 0), handled.2))
    (0, st)

/-- The method `ContentManager::getLibraryZims`: the names of the files of a
directory whose watch entry says `ADDED_TO_THE_LIBRARY`. -/
def getLibraryZims (st : State) (dirPath : String) : List String :=
  ((st.knownZimsInDir dirPath).entries.filter
    (fun e => decide (e.2.status = .ADDED_TO_THE_LIBRARY))).map (fun e => e.1)

/-- The files of the listing that are not in the library
(`zimsInDir - zimsPresentInLib` in `updateLibraryFromDir`). -/
def zimsNotInLib (env : Env) (st : State) (dirPath : String) : List String :=
  (env.entryList dirPath).dedup.filter (fun f => decide (f ∉ getLibraryZims st dirPath))

/-- The files of the library that are not in the listing
(`zimsPresentInLib - zimsInDir` in `updateLibraryFromDir`). -/
def removedZims (env : Env) (st : State) (dirPath : String) : List String :=
  (getLibraryZims st dirPath).filter (fun f => decide (f ∉ (env.entryList dirPath).dedup))

/-- The value of the local variable `countOfAddedZims` of
`ContentManager::updateLibraryFromDir`. -/
def countOfAddedZims (env : Env) (st : State) (dirPath : String) : Nat :=
  (handleNewZimFiles env
    (handleDisappearedZimFiles env st dirPath (removedZims env st dirPath)) dirPath
    (zimsNotInLib env st dirPath)).1

/-- The method `ContentManager::updateLibraryFromDir`. The two sets are computed
from the state at entry, before any file is handled. -/
def updateLibraryFromDir (env : Env) (st : State) (dirPath : String) : State :=
  let notInLib := zimsNotInLib env st dirPath
  let removed := removedZims env st dirPath
  let handled :=
    handleNewZimFiles env (handleDisappearedZimFiles env st dirPath removed) dirPath notInLib
  if !removed.isEmpty || handled.1 != 0 then
    handled.2.emit [.librarySaved, .booksChanged]
  else
    handled.2

/-! ## Ingestion attempts

An ingestion attempt is a call of `manager.addBookFromPath(...)`;
`handleZimFileInMonitoredDir` records each in the field `ingestionAttempts` of
the state. -/

/-- Whether `handleZimFileInMonitoredDir` reaches the call
`manager.addBookFromPath(...)`: the file is not being downloaded by us and the
status that `getMonitoredZimFileInfo` computes is `PROCESS_NOW`. -/
def attemptsIngestion (env : Env) (st : State) (dir fileName : String) : Bool :=
  !isBeingDownloadedByUs st.library (bookPathOf dir fileName) &&
    decide ((getMonitoredZimFileInfo env st dir fileName).status = .PROCESS_NOW)

/-- One step of the monitoring of directories: a reconciliation pass over a
directory, or the deferred recheck of a file, each in its own surroundings. -/
inductive MonitoringStep where
  | pass (env : Env) (dir : String)
  | recheck (env : Env) (dir fileName : String)

/-- The surroundings in which a step runs. -/
def MonitoringStep.env : MonitoringStep → Env
  | .pass env _ => env
  | .recheck env _ _ => env

/-- The state that a step leaves: `updateLibraryFromDir` for a pass,
`handleZimFileInMonitoredDirDeferred` for a recheck. -/
def MonitoringStep.run : MonitoringStep → State → State
  | .pass env dir, st => updateLibraryFromDir env st dir
  | .recheck env dir fileName, st => handleZimFileInMonitoredDirDeferred env st dir fileName

/-- The state that the steps leave, run one after the other. -/
def runSteps : List MonitoringStep → State → State
  | [], st => st
  | step :: steps, st => runSteps steps (step.run st)

/-! ## Filters, search text and sort order -/

/-- The order of `QString::operator<` on the characters of two strings: whether
the first is less than or equal to the second, comparing character codes from
the left. -/
def leChars : List Char → List Char → Bool
  | [], _ => true
  | _ :: _, [] => false
  | a :: as, b :: bs =>
    if a.toNat < b.toNat then true
    else if b.toNat < a.toNat then false
    else leChars as bs

/-- The method `QStringList::sort()`: ascending, case sensitive. -/
def QStringList.sort (list : List String) : List String :=
  list.insertionSort (fun a b => leChars a.data b.data = true)

/-- The method `QStringList::join(",")`. -/
def QStringList.join (list : List String) (separator : String) : String :=
  separator.intercalate list

/-- The method `ContentManager::setCategories`. -/
def setCategories (env : Env) (st : State) : State :=
  if st.m_local then
    let categories := env.getBooksCategories st.library
    { st with m_categories := categories }.emit [.categoriesLoaded categories]
  else
    st.emit [.getCategoriesFromOpds]

/-- The method `ContentManager::setLanguages`. -/
def setLanguages (env : Env) (st : State) : State :=
  if st.m_local then
    let languages := (env.getBooksLanguages st.library).map
      (fun language => (env.getLanguageSelfName language, language))
    { st with m_languages := languages }.emit [.languagesLoaded languages]
  else
    st.emit [.getLanguagesFromOpds]

/-- The method `ContentManager::setLocal`. -/
def setLocal (env : Env) (st : State) (newLocal : Bool) : State :=
  if newLocal = st.m_local then
    st
  else
    setLanguages env (setCategories env ({ st with m_local := newLocal }.emit [.filterParamsChanged]))

/-- The local variable `newLanguage` of `setCurrentLanguage`: the second
components of the pairs, sorted, each code of length 2 replaced by what
`kiwix::converta2toa3` returns (kept when it throws), joined with commas. -/
def newLanguageOf (env : Env) (langPairList : FilterList) : String :=
  let languageList := QStringList.sort (langPairList.map (fun langPair => langPair.2))
  let languageList := languageList.map (fun language =>
    if language.length = 2 then (env.converta2toa3 language).getD language else language)
  QStringList.join languageList ","

/-- The method `ContentManager::setCurrentLanguage`. -/
def setCurrentLanguage (env : Env) (st : State) (langPairList : FilterList) : State :=
  let newLanguage := newLanguageOf env langPairList
  if st.m_currentLanguage = newLanguage then
    st
  else
    { st with m_currentLanguage := newLanguage }.emit
      [.settingsSetLanguage langPairList, .currentLangChanged, .filterParamsChanged]

/-- The method `ContentManager::setCurrentCategoryFilter`. -/
def setCurrentCategoryFilter (st : State) (categoryList : List String) : State :=
  let categoryList := QStringList.sort categoryList
  if st.m_categoryFilter = QStringList.join categoryList "," then
    st
  else
    { st with m_categoryFilter := QStringList.join categoryList "," }.emit
      [.settingsSetCategory categoryList, .filterParamsChanged]

/-- The method `ContentManager::setCurrentContentTypeFilter`. -/
def setCurrentContentTypeFilter (st : State) (contentTypeFiltersPairList : FilterList) : State :=
  let contentTypeFilters := contentTypeFiltersPairList.map (fun ctfPair => ctfPair.2)
  { st with m_contentTypeFilters := contentTypeFilters }.emit
    [.settingsSetContentType contentTypeFiltersPairList, .filterParamsChanged]

/-- The method `ContentManager::setSearch`. -/
def setSearch (st : State) (search : String) : State :=
  { st with m_searchQuery := search }.emit [.booksChanged]

/-- The method `ContentManager::setSortBy`. -/
def setSortBy (st : State) (sortBy : String) (sortOrderAsc : Bool) : State :=
  let m_sortBy :=
    if sortBy = "unsorted" then SortBy.UNSORTED
    else if sortBy = "title" then SortBy.TITLE
    else if sortBy = "size" then SortBy.SIZE
    else if sortBy = "date" then SortBy.DATE
    else st.m_sortBy
  { st with m_sortBy := m_sortBy, m_sortOrderAsc := sortOrderAsc }.emit [.booksChanged]

/-! ## Downloads of books -/

/-- Modelled from the spec: `DownloadManager::removeDownload` is defined in
`downloadmanagement.cpp`, which is not part of the sources. It removes the
entry of the book from the download ledger ("after `Completed`, no ledger
entry exists"). -/
def DownloadManager.removeDownload (downloads : Downloads) (bookId : String) : Downloads :=
  downloads.filter (fun e => !(e.1 == bookId))

/-- The method `ContentManager::removeDownload`. The call
`managerModel->setDownloadState` updates the view model, which is not part of
the state. -/
def removeDownload (st : State) (bookId : String) : State :=
  { st with downloads := DownloadManager.removeDownload st.downloads bookId }

/-- The method `ContentManager::downloadCompleted`. The lookup of the book is not
in a `try` block: when it throws, the exception leaves the method in the state
reached so far, which the error carries. As in `bookPathOf`, the native
separator is the slash, so `QDir::toNativeSeparators(path)` is `path`. -/
def downloadCompleted (st : State) (bookId path : String) :
    Except (LookupError × State) State :=
  let st := removeDownload st bookId
  match getBookById st.library bookId with
  | .error e => .error (e, st)
  | .ok b =>
    let bCopy : Book := { b with path := path, downloadId := "", pathValid := true, url := "" }
    .ok ({ st with library := addOrUpdateBook st.library bCopy }.emit
      [.librarySaved, .bookmarksChanged,
        if !st.m_local then .oneBookChanged bookId else .libraryBooksChanged])

/-- The method `ContentManager::updateDownload`. The call
`managerModel->updateDownload` updates the view model, which is not part of the
state. -/
def updateDownload (env : Env) (st : State) (bookId : String) (downloadInfo : DownloadInfo) :
    Except (LookupError × State) State :=
  match getDownloadState st.downloads bookId with
  | none => .ok st
  | some downloadState =>
    let downloadPath := downloadInfo.path
    if downloadInfo.status = "completed" then
      downloadCompleted st bookId downloadPath
    else
      .ok { st with
        library := env.updateBookBeingDownloaded st.library bookId downloadPath
        downloads := st.downloads.map (fun e =>
          if e.1 == bookId then (e.1, env.updateDownloadState downloadState downloadInfo)
          else e) }

/-- The method `ContentManager::getRemoteOrLocalBook`. -/
def getRemoteOrLocalBook (st : State) (id : String) : Except LookupError Book :=
  match getBookById st.remoteLibrary id with
  | .ok book => .ok book
  | .error _ => getBookById st.library id

/-- Modelled from the spec: `DownloadManager::addRequest` is defined in
`downloadmanagement.cpp`, which is not part of the sources. It queues the
request for the thread that processes the download operations; what it does
to the ledger is a parameter. -/
def addRequest (env : Env) (st : State) (action : DownloadAction) (bookId : String) : State :=
  { st with
    downloads := env.addRequestToLedger st.downloads action bookId
    requests := st.requests ++ [(action, bookId)] }

/-- The method `ContentManager::downloadBook`. The lookup of the book is not in a
`try` block and throws before anything is changed. The call
`managerModel->setDownloadState` updates the view model, which is not part of
the state. -/
def downloadBook (env : Env) (st : State) (id : String) : Except LookupError State :=
  match getRemoteOrLocalBook st id with
  | .error e => .error e
  | .ok book =>
    let downloadPath := env.downloadDir
    match env.checkThatBookCanBeDownloaded book downloadPath with
    | some err => .ok (st.emit [.showErrorBox err.summary err.details])
    | none =>
      let st := { st with
        library := env.addBookBeingDownloaded st.library book downloadPath }.emit [.librarySaved]
      .ok (addRequest env st .START id)

/-- The method `ContentManager::startDownload`. The lookup of the book is not in
a `try` block and throws before anything is changed. -/
def startDownload (env : Env) (st : State) (id : String) : Except LookupError State :=
  match getRemoteOrLocalBook st id with
  | .error e => .error e
  | .ok book =>
    let downloadPath := env.downloadDir
    match env.checkThatBookCanBeDownloaded book downloadPath with
    | some err => .ok (st.emit [.error err.summary err.details])
    | none =>
      match env.startDownload book downloadPath with
      | .error err => .ok (st.emit [.error err.summary err.details])
      | .ok downloadId =>
        .ok ({ st with
          library := env.addBookBeingDownloaded st.library
            { book with downloadId := downloadId } downloadPath }.emit
          [.downloadStarted book.id downloadPath downloadId, .librarySaved, .oneBookChanged id])

/-! ## Attributes of a book -/

/-- The failure of an index operator of Qt, which requires a valid index
position: `QString::operator[]` and `QList::operator[]`. -/
inductive IndexError where
  | stringIndexOutOfRange
  | listIndexOutOfRange
  deriving DecidableEq, Repr

/-- A `QVariant`, reduced to the values that `getBookAttribute` returns. -/
inductive QVariant where
  | invalid
  | string (value : String)
  | byteArray (value : List Nat)
  deriving DecidableEq, Repr

/-- The type `ContentManager::BookInfo`, a `QMap<QString, QVariant>`. -/
abbrev BookInfo := AList (fun _ : String => QVariant)

/-- Splits a list of characters at every occurrence of the separator, keeping
empty parts. -/
def splitChars (sep : Char) : List Char → List (List Char)
  | [] => [[]]
  | c :: cs =>
    if c = sep then [] :: splitChars sep cs
    else
      match splitChars sep cs with
      | [] => [[c]]
      | part :: parts => (c :: part) :: parts

/-- The method `QString::split` with a separator of one character and the default
behaviour, which keeps empty parts. -/
def QString.split (s : String) (sep : Char) : List String :=
  (splitChars sep s.data).map String.mk

/-- The body of the loop of `getBookTags` over the tags: `tag[0]` needs a tag
that is not empty and `splitTag[1]` needs a second part. -/
def getBookTagsStep (displayTagMap : AList (fun _ : String => Bool)) (tag : String) :
    Except IndexError (AList (fun _ : String => Bool)) :=
  match tag.data[0]? with
  | none => .error .stringIndexOutOfRange
  | some c =>
    if c = '_' then
      let splitTag := QString.split tag ':'
      match splitTag[1]?, splitTag[0]? with
      | some value, some key => .ok (displayTagMap.insert key (decide (value = "yes")))
      | _, _ => .error .listIndexOutOfRange
    else
      .ok displayTagMap

/-- The function `getBookTags` of the unnamed namespace. Reading a key of the
`QMap` that is absent gives `false`. -/
def getBookTags (b : Book) : Except IndexError String :=
  match (QString.split b.tags ';').foldlM getBookTagsStep ∅ with
  | .error e => .error e
  | .ok displayTagMap =>
    let displayTagList :=
      (if (displayTagMap.lookup "_videos").getD false then ["Videos"] else []) ++
      (if (displayTagMap.lookup "_pictures").getD false then ["Pictures"] else []) ++
      (if !(displayTagMap.lookup "_details").getD false then ["Introduction only"] else [])
    .ok (QStringList.join displayTagList ", ")

/-- The function `getFaviconUrl` of the unnamed namespace. -/
def getFaviconUrl (b : Book) : String :=
  match b.illustration with
  | some item => item.url
  | none => ""

/-- The function `getFaviconData` of the unnamed namespace; `none` is the null
`QByteArray`. -/
def getFaviconData (b : Book) : Option (List Nat) :=
  if b.pathValid then
    match b.illustration with
    | some illustration => illustration.data
    | none => none
  else
    none

/-- The function `getFaviconDataOrUrl` of the unnamed namespace. -/
def getFaviconDataOrUrl (b : Book) : QVariant :=
  match getFaviconData b with
  | some data => .byteArray data
  | none => .string (getFaviconUrl b)

/-- The function `getBookAttribute` of the unnamed namespace. -/
def getBookAttribute (b : Book) (a : String) : Except IndexError QVariant :=
  if a = "id" then .ok (.string b.id)
  else if a = "path" then .ok (.string b.path)
  else if a = "title" then .ok (.string b.title)
  else if a = "description" then .ok (.string b.description)
  else if a = "date" then .ok (.string b.date)
  else if a = "url" then .ok (.string b.url)
  else if a = "name" then .ok (.string b.name)
  else if a = "favicon" then .ok (getFaviconDataOrUrl b)
  else if a = "size" then .ok (.string (toString b.size))
  else if a = "tags" then (getBookTags b).map QVariant.string
  else .ok .invalid

/-- The book that `getBookInfos` reads the attributes from: the Local Catalog
record when it has an empty download id, otherwise the Remote Catalog record,
and a null pointer (`none`) when that lookup throws too. -/
def bookOfInfos (st : State) (id : String) : Option Book :=
  let b : Option Book :=
    match getBookById st.library id with
    | .ok b => if b.downloadId ≠ "" then none else some b
    | .error _ => none
  match b with
  | some b => some b
  | none =>
    match getBookById st.remoteLibrary id with
    | .ok b => some b
    | .error _ => none

/-- The value `b ? getBookAttribute(*b, key) : ""` that `getBookInfos` inserts for
a key. -/
def attributeOrEmpty (b : Option Book) (key : String) : Except IndexError QVariant :=
  match b with
  | some b => getBookAttribute b key
  | none => .ok (.string "")

/-- The loop of `getBookInfos` over the keys, from the map `values` built so
far. -/
def insertBookAttributes (b : Option Book) (values : BookInfo) :
    List String → Except IndexError BookInfo
  | [] => .ok values
  | key :: keys =>
    match attributeOrEmpty b key with
    | .error e => .error e
    | .ok value => insertBookAttributes b (values.insert key value) keys

/-- The method `ContentManager::getBookInfos`. -/
def getBookInfos (st : State) (id : String) (keys : List String) : Except IndexError BookInfo :=
  insertBookAttributes (bookOfInfos st id) ∅ keys

/-! ## The methods with the assertion of `updateStatus`

Without `QT_NO_DEBUG`, a `Q_ASSERT` whose condition is false ends the program.
The definitions of this section are `MonitoredZimFileInfo::updateStatus` and the
methods that reach it, as compiled without `QT_NO_DEBUG`: each returns the
failure of the assertion where the program ends, and its result otherwise. What
`DBGOUT` prints is no part of the state. -/

/-- The end of the program at a `Q_ASSERT` whose condition `cond` is false. -/
inductive AssertionFailure where
  | Q_ASSERT (cond : String)
  deriving DecidableEq, Repr

/-- The method `MonitoredZimFileInfo::updateStatus` with its
`Q_ASSERT(prevInfo.status != ADDED_TO_THE_LIBRARY)`. -/
def Debug.updateStatus (this prevInfo : MonitoredZimFileInfo) (now : Int) :
    Except AssertionFailure MonitoredZimFileInfo :=
  if prevInfo.status ≠ .ADDED_TO_THE_LIBRARY then
    if this.lastModified = prevInfo.lastModified then
      .ok { this with status := .UNCHANGED_KNOWN_BAD_ZIM_FILE }
    else if prevInfo.status = .PROCESS_LATER then
      .ok { this with status := .DEFERRED_PROCESSING_ALREADY_PENDING }
    else if this.fileKeepsBeingModified now then
      .ok { this with status := .PROCESS_LATER }
    else
      .ok { this with status := .PROCESS_NOW }
  else
    .error (.Q_ASSERT "prevInfo.status != ADDED_TO_THE_LIBRARY")

/-- The method `ContentManager::getMonitoredZimFileInfo`, which calls
`updateStatus` with the watch entry of the file when there is one. -/
def Debug.getMonitoredZimFileInfo (env : Env) (st : State) (dir fileName : String) :
    Except AssertionFailure MonitoredZimFileInfo :=
  let bookPath := bookPathOf dir fileName
  let zimFileInfo : MonitoredZimFileInfo := { lastModified := env.lastModified bookPath }
  match (st.knownZimsInDir dir).lookup fileName with
  | some prevInfo => Debug.updateStatus zimFileInfo prevInfo env.now
  | none => .ok zimFileInfo

/-- The method `ContentManager::handleZimFileInMonitoredDir`, which calls
`getMonitoredZimFileInfo` unless the file is being downloaded by us. -/
def Debug.handleZimFileInMonitoredDir (env : Env) (st : State) (dir fileName : String) :
    Except AssertionFailure (ZimFileStatus × State) :=
  let bookPath := bookPathOf dir fileName
  if isBeingDownloadedByUs st.library bookPath then
    .ok (.BEING_DOWNLOADED_BY_US, st)
  else
    match Debug.getMonitoredZimFileInfo env st dir fileName with
    | .error failure => .error failure
    | .ok zfi =>
      if zfi.status = .PROCESS_LATER then
        .ok (zfi.status, deferHandlingOfZimFileInMonitoredDir st dir fileName)
      else if zfi.status = .PROCESS_NOW then
        let added := addBookFromPath env st.library bookPath
        let zfi : MonitoredZimFileInfo :=
          { zfi with status := if added.1 then .ADDED_TO_THE_LIBRARY
                               else .COULD_NOT_BE_ADDED_TO_THE_LIBRARY }
        .ok (zfi.status,
          { st with
            library := added.2
            ingestionAttempts := st.ingestionAttempts ++ [(dir, fileName)] }.setZimsInDir dir
            ((st.knownZimsInDir dir).insert fileName zfi))
      else
        .ok (zfi.status, st)

/-- The method `ContentManager::handleZimFileInMonitoredDirLogged`. -/
def Debug.handleZimFileInMonitoredDirLogged (env : Env) (st : State)
    (dir fileName : String) : Except AssertionFailure (Bool × State) :=
  match Debug.handleZimFileInMonitoredDir env st dir fileName with
  | .error failure => .error failure
  | .ok handled => .ok (decide (handled.1 = .ADDED_TO_THE_LIBRARY), handled.2)

/-- The method `ContentManager::handleNewZimFiles`: after a failed assertion no
further file is handled. -/
def Debug.handleNewZimFiles (env : Env) (st : State) (dirPath : String)
    (fileNames : List String) : Except AssertionFailure (Nat × State) :=
  fileNames.foldl
    (fun acc file =>
      match acc with
      | .error failure => .error failure
      | .ok acc =>
        match Debug.handleZimFileInMonitoredDirLogged env acc.2 dirPath file with
        | .error failure => .error failure
        | .ok handled => .ok (acc.1 + (if handled.1 then 1 else 0), handled.2))
    (.ok (0, st))

/-- The method `ContentManager::updateLibraryFromDir`. -/
def Debug.updateLibraryFromDir (env : Env) (st : State) (dirPath : String) :
    Except AssertionFailure State :=
  let notInLib := zimsNotInLib env st dirPath
  let removed := removedZims env st dirPath
  match Debug.handleNewZimFiles env (handleDisappearedZimFiles env st dirPath removed)
      dirPath notInLib with
  | .error failure => .error failure
  | .ok handled =>
    if !removed.isEmpty || handled.1 != 0 then
      .ok (handled.2.emit [.librarySaved, .booksChanged])
    else
      .ok handled.2

/-- The method `ContentManager::handleZimFileInMonitoredDirDeferred`. -/
def Debug.handleZimFileInMonitoredDirDeferred (env : Env) (st : State)
    (dir fileName : String) : Except AssertionFailure State :=
  match Debug.handleZimFileInMonitoredDirLogged env
      (st.setStatus dir fileName .PROCESS_NOW) dir fileName with
  | .error failure => .error failure
  | .ok handled =>
    if handled.1 then .ok (handled.2.emit [.librarySaved, .booksChanged]) else .ok handled.2

/-! ## Choosing the monitored directories, and the rechecks that are scheduled -/

/-- The body of the loop of `setMonitoredDirectories` for one directory.
`QFileSystemWatcher::addPath` does not add a path that is watched already. -/
def setMonitoredDirectory (env : Env) (st : State) (dir : String) : State :=
  if dir ≠ "" then
    let libraryZimFileInfo : MonitoredZimFileInfo := { status := .ADDED_TO_THE_LIBRARY }
    let zimsInDir := (env.getLibraryZimsFromDir st.library dir).foldl
      (fun zimsInDir fname => zimsInDir.insert fname libraryZimFileInfo) (st.knownZimsInDir dir)
    ({ st with
      watcherDirectories :=
        if dir ∈ st.watcherDirectories then st.watcherDirectories
        else st.watcherDirectories ++ [dir] }.setZimsInDir dir zimsInDir).emit
      [.asyncUpdateLibraryFromDir dir]
  else
    st

/-- The method `ContentManager::setMonitoredDirectories`. The set of directories
is given as the list of its elements in iteration order. The runs of
`updateLibraryFromDir` that it queues are not part of the call. -/
def setMonitoredDirectories (env : Env) (st : State) (dirList : List String) : State :=
  dirList.foldl (setMonitoredDirectory env)
    { st with watcherDirectories := [], knownZimsInDir := fun _ => ∅ }

/-- The rechecks that a list of effects schedules: the directory and the file name
of each `QTimer::singleShot`. -/
def scheduledRechecks : List Effect → List (String × String)
  | [] => []
  | .singleShot _ dir fname :: effects => (dir, fname) :: scheduledRechecks effects
  | _ :: effects => scheduledRechecks effects

/-- The manager together with the scheduled rechecks that are outstanding: the
timers that have been armed and have not fired. -/
structure Monitor where
  state : State
  outstanding : List (String × String)

/-- What happens to a monitor: a reconciliation pass over a directory, the firing
of the timer of a file, or a call of `setMonitoredDirectories`, each in its own
surroundings. -/
inductive MonitorEvent where
  | pass (env : Env) (dir : String)
  | fire (env : Env) (dir fileName : String)
  | setMonitoredDirectories (env : Env) (dirList : List String)

/-- How many scheduled rechecks of a file of a directory are outstanding. -/
def Monitor.outstandingCount (m : Monitor) (dir fileName : String) : Nat :=
  (m.outstanding.filter (fun p => decide (p = (dir, fileName)))).length

/-- Whether the event is a call of `setMonitoredDirectories`. -/
def MonitorEvent.isSetMonitoredDirectories : MonitorEvent → Bool
  | .setMonitoredDirectories _ _ => true
  | _ => false

/-- The monitor after the manager has gone from the state of `m` to `st`, with
`outstanding` the rechecks of `m` that are still outstanding: the rechecks that
were scheduled on the way are outstanding too. -/
def Monitor.advance (m : Monitor) (outstanding : List (String × String)) (st : State) :
    Monitor :=
  { state := st
    outstanding := outstanding ++ scheduledRechecks (st.log.drop m.state.log.length) }

/-- The monitor after an event; a timer fires only when the recheck is
outstanding, and the recheck is no longer outstanding once it runs. -/
def MonitorEvent.run : MonitorEvent → Monitor → Option Monitor
  | .pass env dir, m => some (m.advance m.outstanding (updateLibraryFromDir env m.state dir))
  | .fire env dir fileName, m =>
    if (dir, fileName) ∈ m.outstanding then
      some (m.advance (m.outstanding.erase (dir, fileName))
        (handleZimFileInMonitoredDirDeferred env m.state dir fileName))
    else
      none
  | .setMonitoredDirectories env dirList, m =>
    some (m.advance m.outstanding (ContentManager.setMonitoredDirectories env m.state dirList))

/-- The monitor after the events, one after the other. -/
def runEvents : List MonitorEvent → Monitor → Option Monitor
  | [], m => some m
  | event :: events, m =>
    match event.run m with
    | some m2 => runEvents events m2
    | none => none

/-- Whether every call of `setMonitoredDirectories` among the events is made
while no recheck is outstanding. -/
def resetsWhileIdle : List MonitorEvent → Monitor → Bool
  | [], _ => true
  | event :: events, m =>
    (!event.isSetMonitoredDirectories || m.outstanding.isEmpty) &&
      match event.run m with
      | some m2 => resetsWhileIdle events m2
      | none => true

/-! ## Erasing the files of a book -/

/-- The method `QChar::isSpace`. -/
def QChar.isSpace (c : Char) : Bool :=
  c.toNat = 0x20 || (0x09 ≤ c.toNat && c.toNat ≤ 0x0d) || c.toNat = 0x85 ||
    c.toNat = 0xa0 || c.toNat = 0x1680 || (0x2000 ≤ c.toNat && c.toNat ≤ 0x200a) ||
    c.toNat = 0x2028 || c.toNat = 0x2029 || c.toNat = 0x202f || c.toNat = 0x205f ||
    c.toNat = 0x3000

/-- The method `QString::trimmed`: without the white space at the start and at
the end. -/
def QString.trimmed (s : String) : String :=
  String.mk ((s.data.dropWhile QChar.isSpace).reverse.dropWhile QChar.isSpace).reverse

/-- The function `QDir::nameFiltersFromString`, which the constructor
`QDir(path, nameFilter)` applies to its name filter: the filters are separated
by semicolons or, when the string has no semicolon, by spaces, and each is
trimmed. -/
def QDir.nameFiltersFromString (nameFilter : String) : List String :=
  let sep : Char :=
    if ';' ∈ nameFilter.data then ';' else if ' ' ∈ nameFilter.data then ' ' else ';'
  (QString.split nameFilter sep).map QString.trimmed

/-- The list `dir.entryList()` of a `QDir(path, nameFilter)`: the entries of the
directory that match one of the name filters. -/
def QDir.entryList (env : Env) (path nameFilter : String) : List String :=
  (env.dirEntries path).filter (fun file =>
    (QDir.nameFiltersFromString nameFilter).any (fun filter => env.wildcardMatch filter file))

/-- The method `ContentManager::eraseBookFilesFromComputer`, built with a Qt that
has `QFile::moveToTrash` (5.15 or later). The message that is written to
`std::cerr` is not an effect. -/
def eraseBookFilesFromComputer (env : Env) (st : State) (bookPath : String)
    (moveToTrash : Bool) : State :=
  let dirPath := env.removeLastPathElement bookPath
  let fileGlob := env.getLastPathElement bookPath ++ "*"
  if fileGlob = "*" then
    st
  else
    st.emit ((QDir.entryList env dirPath fileGlob).map (fun file =>
      if moveToTrash then .fileMovedToTrash dirPath file else .fileRemoved dirPath file))

/-- A wildcard match that knows `*` (any characters) and `?` (one character) and
takes every other character of the filter literally. -/
def globMatch : List Char → List Char → Bool
  | [], name => name.isEmpty
  | p :: ps, name =>
    if p = '*' then
      name.tails.any (fun rest => globMatch ps rest)
    else
      match name with
      | [] => false
      | n :: ns => (p = '?' || p = n) && globMatch ps ns

/-! ## Predicates on states

The conditions under which a reconciliation pass leaves the Local Catalog as it
is. They are used to state and prove the idempotence of a pass. -/

/-- The book that the library has at the path of a file, if any, is open in a
tab: a pass that finds the file gone keeps the book. -/
def KeepsBookOf (env : Env) (dir : String) (st : State) (a : String) : Prop :=
  ∀ book, getBookByPath st.library (bookPathOf dir a) = .ok book → book.id ∈ env.tabZimIds

/-- A pass does not ingest the file: the file is being downloaded by us, or its
watch entry records the current modification time, or its watch entry says
`PROCESS_LATER`. -/
def Blocked (env : Env) (dir : String) (st : State) (f : String) : Prop :=
  isBeingDownloadedByUs st.library (bookPathOf dir f) = true ∨
  ∃ prevInfo, (st.knownZimsInDir dir).lookup f = some prevInfo ∧
    (env.lastModified (bookPathOf dir f) = prevInfo.lastModified ∨
      prevInfo.status = .PROCESS_LATER)

/-- Nothing is left to do for a pass: the books of the disappeared files of the
library are open in tabs, and the files of the listing that are not in the
library are blocked. -/
def Settled (env : Env) (dir : String) (st : State) : Prop :=
  (∀ a ∈ getLibraryZims st dir, a ∉ env.entryList dir → KeepsBookOf env dir st a) ∧
  (∀ f ∈ env.entryList dir, f ∉ getLibraryZims st dir → Blocked env dir st f)

/-- Every record of the library `lib` is a record of `lib0`, or is owned by no
download and located at a file of the listing (where a pass has ingested it). -/
def RecordsFrom (env : Env) (dir : String) (lib0 lib : BookList) : Prop :=
  ∀ b ∈ lib, b ∈ lib0 ∨
    (b.downloadId = "" ∧ ∃ g ∈ env.entryList dir, b.path = bookPathOf dir g)

/-- The outstanding rechecks are recorded in the watch state: no recheck is
outstanding twice, and the watch entry of every file with an outstanding recheck
says `PROCESS_LATER`. -/
def RechecksRecorded (st : State) (outstanding : List (String × String)) : Prop :=
  outstanding.Nodup ∧
    ∀ p ∈ outstanding, ∃ info, (st.knownZimsInDir p.1).lookup p.2 = some info ∧
      info.status = .PROCESS_LATER

/-! ## Example states

Concrete states and surroundings at which the theorems below are evaluated. -/

/-- A paused download of book `X`, whose placeholder in the Local Catalog has an
empty path; the Remote Catalog offers the book too. -/
def pausedDownloadState : State :=
  { library := [{ id := "X", path := "", downloadId := "gid-1" }]
    remoteLibrary := [{ id := "X", url := "http://example.org/x.zim" }]
    downloads := [("X", { status := .PAUSED, path := "" })] }

/-- A book `X` that is in the Local Catalog with a valid path and in the Remote
Catalog, and that has no download. -/
def localBookState : State :=
  { library := [{ id := "X", path := "/zims/x.zim", pathValid := true }]
    remoteLibrary := [{ id := "X", url := "http://example.org/x.zim" }] }

/-- A book `X` that only the Remote Catalog knows, with a download URL. -/
def remoteBookState : State :=
  { remoteLibrary := [{ id := "X", url := "http://example.org/x.zim" }] }

/-- A placeholder of book `X` in the Local Catalog (non-empty download-id) whose
download is not in the ledger; the Remote Catalog offers the book with a URL. -/
def placeholderState : State :=
  { library := [{ id := "X", path := "/zims/x.zim", downloadId := "gid-1" }]
    remoteLibrary := [{ id := "X", url := "http://example.org/x.zim" }] }

/-- A watch entry of a file that could not be added when its modification time
was 5000. -/
def knownBadInfo : MonitoredZimFileInfo :=
  { status := .COULD_NOT_BE_ADDED_TO_THE_LIBRARY, lastModified := some 5000 }

/-- The archive `b.zim` has just been written into the directory `d` (100 ms
before now) and reads as the book `B`. -/
def freshFileEnv : Env :=
  { now := 10000
    lastModified := fun p => if p = "d/b.zim" then some 9900 else none
    entryList := fun dir => if dir = "d" then ["b.zim"] else []
    readBookFromPath := fun p => if p = "d/b.zim" then some { id := "B", title := "Book B" } else none }

/-- The book that is stored when `b.zim` of `freshFileEnv` is added. -/
def freshFileBook : Book :=
  { id := "B", title := "Book B", path := "d/b.zim", pathValid := true }

/-- The file `b.zim` of directory `d` is waiting for a deferred recheck; the
modification time recorded in its watch entry is 9900. -/
def pendingRecheckState : State :=
  { knownZimsInDir := fun dir =>
      if dir = "d" then
        (∅ : ZimsInDir).insert "b.zim" { status := .PROCESS_LATER, lastModified := some 9900 }
      else ∅ }

/-- The file `b.zim` of directory `d` is waiting for a deferred recheck; the
modification time recorded in its watch entry is 5000. -/
def pendingRecheckOfChangedFileState : State :=
  { knownZimsInDir := fun dir =>
      if dir = "d" then
        (∅ : ZimsInDir).insert "b.zim" { status := .PROCESS_LATER, lastModified := some 5000 }
      else ∅ }

/-- The surroundings of `freshFileEnv` two seconds later: `b.zim` has not been
written again. -/
def settledFileEnv : Env :=
  { freshFileEnv with now := 12000 }

/-- The archive `a.zim` of directory `d` has been added to the library as the
book `A`. -/
def addedFileState : State :=
  { library := [{ id := "A", title := "Book A", path := "d/a.zim", pathValid := true }]
    knownZimsInDir := fun dir =>
      if dir = "d" then
        (∅ : ZimsInDir).insert "a.zim"
          { status := .ADDED_TO_THE_LIBRARY, lastModified := some 5000 }
      else ∅ }

/-- The file `a.zim` has been deleted from the directory `d`, which is empty now;
no tab is open. -/
def deletedFileEnv : Env :=
  { now := 10000 }

/-- The file `a.zim` has been deleted from the directory `d`, which is empty now;
the book `A` is open in a tab. -/
def deletedFileOpenInTabEnv : Env :=
  { now := 10000, tabZimIds := ["A"] }

/-- The file `a.zim` of directory `d` has been renamed to `a2.zim`: the directory
holds `a2.zim` only, which reads as the book `A`; no tab is open. -/
def renamedFileEnv : Env :=
  { now := 10000
    lastModified := fun p => if p = "d/a2.zim" then some 5000 else none
    entryList := fun dir => if dir = "d" then ["a2.zim"] else []
    readBookFromPath := fun p =>
      if p = "d/a2.zim" then some { id := "A", title := "Book A" } else none }

/-- The surroundings of `renamedFileEnv` with the book `A` open in a tab. -/
def renamedOpenFileEnv : Env :=
  { renamedFileEnv with tabZimIds := ["A"] }

/-- The book `X` is being downloaded by us into `d/x.zim`: the Local Catalog has
its placeholder and the ledger has its download. -/
def downloadInProgressState : State :=
  { library := [{ id := "X", title := "Book X", path := "d/x.zim", downloadId := "gid-1" }]
    downloads := [("X", { status := .DOWNLOADING, path := "d/x.zim" })] }

/-- The directory `d` holds the file `x.zim` that is being downloaded and a copy
`copy.zim` of the same archive; both read as the book `X`. -/
def copyOfDownloadEnv : Env :=
  { now := 10000
    lastModified := fun p =>
      if p = "d/x.zim" then some 9900 else if p = "d/copy.zim" then some 5000 else none
    entryList := fun dir => if dir = "d" then ["x.zim", "copy.zim"] else []
    readBookFromPath := fun p =>
      if p = "d/x.zim" ∨ p = "d/copy.zim" then some { id := "X", title := "Book X" } else none }

/-- The Local Catalog has two records that are located at `d/a.zim`, of the books
`X` and `Z`; the watch entry of `a.zim` says `ADDED_TO_THE_LIBRARY`. -/
def twoBooksAtOnePathState : State :=
  { library := [{ id := "X", title := "Book X", path := "d/a.zim", pathValid := true },
                { id := "Z", title := "Book Z", path := "d/a.zim", pathValid := true }]
    knownZimsInDir := fun dir =>
      if dir = "d" then
        (∅ : ZimsInDir).insert "a.zim"
          { status := .ADDED_TO_THE_LIBRARY, lastModified := some 5000 }
      else ∅ }

/-- The directory `d` holds the archive `g.zim` only, which reads as the book `X`;
the book `X` is open in a tab. -/
def movedOpenBookEnv : Env :=
  { now := 10000
    lastModified := fun p => if p = "d/g.zim" then some 5000 else none
    entryList := fun dir => if dir = "d" then ["g.zim"] else []
    tabZimIds := ["X"]
    readBookFromPath := fun p =>
      if p = "d/g.zim" then some { id := "X", title := "Book X" } else none }

/-- The directory `d` holds the archive `a.zim` of book `A` and a new archive
`b.zim` of book `B`. -/
def twoFilesEnv : Env :=
  { now := 10000
    lastModified := fun p =>
      if p = "d/a.zim" then some 5000 else if p = "d/b.zim" then some 9900 else none
    entryList := fun dir => if dir = "d" then ["a.zim", "b.zim"] else []
    readBookFromPath := fun p =>
      if p = "d/a.zim" then some { id := "A", title := "Book A" }
      else if p = "d/b.zim" then some { id := "B", title := "Book B" }
      else none }

/-- The archive `b.zim` of directory `d` could not be added to the library when its
modification time was 9900. -/
def knownBadFileState : State :=
  { knownZimsInDir := fun dir =>
      if dir = "d" then
        (∅ : ZimsInDir).insert "b.zim"
          { status := .COULD_NOT_BE_ADDED_TO_THE_LIBRARY, lastModified := some 9900 }
      else ∅ }

/-- The two-letter codes `en` and `fr` have the three-letter codes `eng` and
`fra`; `kiwix::converta2toa3` throws for every other string. -/
def twoLanguagesEnv : Env :=
  { converta2toa3 := fun code =>
      if code = "en" then some "eng" else if code = "fr" then some "fra" else none }

/-- The Local Catalog is shown, filtered by the languages `eng` and `fra`, the
categories `wikipedia` and `wiktionary` and the content type `_videos:yes`,
searched for `wiki` and sorted by title in ascending order. -/
def filteredState : State :=
  { m_local := true
    m_currentLanguage := "eng,fra"
    m_categoryFilter := "wikipedia,wiktionary"
    m_contentTypeFilters := ["_videos:yes"]
    m_searchQuery := "wiki"
    m_sortBy := .TITLE
    m_sortOrderAsc := true }

/-- The download directory is `/downloads` and the precheck of a download
refuses every book for lack of space. -/
def fullDiskEnv : Env :=
  { downloadDir := "/downloads"
    checkThatBookCanBeDownloaded := fun _ _ =>
      some { summary := "Not enough storage", details := "The disk is full." } }

/-- The book `X` is being downloaded: the Local Catalog has its placeholder, with
a title of its own. The Remote Catalog describes the book with the tags
`wikipedia` and `_ftindex`, the latter a flag without a value. -/
def placeholderOfFlaggedBookState : State :=
  { library := [{ id := "X", title := "Placeholder", path := "d/x.zim", downloadId := "gid-1" }]
    remoteLibrary := [{ id := "X", title := "Book X", url := "http://example.org/x.zim",
                        tags := "wikipedia;_ftindex" }] }

/-- The directory `d` holds the file `b.zim`, which does not read as an archive,
at the given time; the file was last modified at the given time. -/
def badFileEnv (now lastModified : Int) : Env :=
  { now := now
    lastModified := fun p => if p = "d/b.zim" then some lastModified else none
    entryList := fun dir => if dir = "d" then ["b.zim"] else [] }

/-- The bad file `b.zim` is found and rejected; it is written again and a pass
defers it; the monitored directories are chosen again; the pass that this
queues rejects the file; the file is written once more and a pass defers it
again, half a second after the first deferral. -/
def resetWhileRecheckIsOutstanding : List MonitorEvent :=
  [.pass (badFileEnv 6000 5000) "d",
   .pass (badFileEnv 10000 9900) "d",
   .setMonitoredDirectories (badFileEnv 10100 9900) ["d"],
   .pass (badFileEnv 10200 9900) "d",
   .pass (badFileEnv 10500 10400) "d"]

/-- The bad file `b.zim` is found and rejected; it is written again and a pass
defers it; it is written once more and a pass finds the recheck pending; the
timer fires while the file is still fresh and the file is deferred again. -/
def recheckOfFileThatIsWritten : List MonitorEvent :=
  [.pass (badFileEnv 6000 5000) "d",
   .pass (badFileEnv 10000 9900) "d",
   .pass (badFileEnv 10500 10400) "d",
   .fire (badFileEnv 11000 10400) "d" "b.zim"]

/-- The directory `/zims` holds the archives `my book.zim` and `what?.zim` together
with the files `book.zim`, `my` and `whats.zim`; wildcard filters are matched
by `globMatch`. -/
def zimsDirEnv : Env :=
  { removeLastPathElement := fun path =>
      if path = "/zims/my book.zim" ∨ path = "/zims/what?.zim" then "/zims" else path
    getLastPathElement := fun path =>
      if path = "/zims/my book.zim" then "my book.zim"
      else if path = "/zims/what?.zim" then "what?.zim"
      else ""
    dirEntries := fun dir =>
      if dir = "/zims" then ["book.zim", "my", "my book.zim", "what?.zim", "whats.zim"] else []
    wildcardMatch := fun filter name => globMatch filter.data name.data }

/-! # Theorems -/

/-! ## Book state resolution -/

/-- C1: a book that has an entry in the download ledger is `DOWNLOAD_PAUSED` when
the entry's status is `PAUSED` and `DOWNLOADING` for every other status, whatever
the Local Catalog and the Remote Catalog contain. -/
theorem getBookState_of_download (st : State) (bookId : String) (downloadState : DownloadState)
    (h : getDownloadState st.downloads bookId = some downloadState) :
    ∀ lib remote : BookList,
      getBookState { st with library := lib, remoteLibrary := remote } bookId =
        .ok (if downloadState.status = .PAUSED then .DOWNLOAD_PAUSED else .DOWNLOADING) := by
  intro lib remote
  simp only [getBookState, h]

/-- Witness of C1: the paused download of `pausedDownloadState`, whose local
placeholder has an empty path, resolves to `DOWNLOAD_PAUSED`. -/
theorem getBookState_of_download_witness :
    getDownloadState pausedDownloadState.downloads "X" = some { status := .PAUSED, path := "" } ∧
    getBookById pausedDownloadState.library "X" =
      .ok { id := "X", path := "", downloadId := "gid-1" } ∧
    getBookState pausedDownloadState "X" = .ok .DOWNLOAD_PAUSED :=
  ⟨by decide, by decide,
    getBookState_of_download pausedDownloadState "X" { status := .PAUSED, path := "" }
      (by decide) pausedDownloadState.library pausedDownloadState.remoteLibrary⟩

/-- C2: a book without ledger entry that the Local Catalog has with an empty
download-id is `AVAILABLE_LOCALLY_AND_HEALTHY` when its path is valid and
`ERROR_MISSING_ZIM_FILE` otherwise, whatever the Remote Catalog contains; it is
never `ERROR_CORRUPTED_ZIM_FILE`. -/
theorem getBookState_of_local_book (st : State) (bookId : String) (b : Book)
    (hd : getDownloadState st.downloads bookId = none)
    (hb : getBookById st.library bookId = .ok b)
    (he : b.downloadId = "") :
    ∀ remote : BookList,
      getBookState { st with remoteLibrary := remote } bookId =
        .ok (if b.pathValid then .AVAILABLE_LOCALLY_AND_HEALTHY else .ERROR_MISSING_ZIM_FILE) ∧
      getBookState { st with remoteLibrary := remote } bookId ≠ .ok .ERROR_CORRUPTED_ZIM_FILE := by
  intro remote
  have h : getBookState { st with remoteLibrary := remote } bookId =
      .ok (if b.pathValid then .AVAILABLE_LOCALLY_AND_HEALTHY else .ERROR_MISSING_ZIM_FILE) := by
    simp only [getBookState, hd, hb, he, getStateOfLocalBook]
    cases b.pathValid <;> simp
  refine ⟨h, ?_⟩
  rw [h]
  cases b.pathValid <;> simp

/-- Witness of C2: the local book of `localBookState` is healthy although the
Remote Catalog offers it too. -/
theorem getBookState_of_local_book_witness :
    getBookState localBookState "X" = .ok .AVAILABLE_LOCALLY_AND_HEALTHY :=
  (getBookState_of_local_book localBookState "X"
    { id := "X", path := "/zims/x.zim", pathValid := true }
    (by decide) (by decide) (by decide) localBookState.remoteLibrary).1

/-- C3: for a book without ledger entry and without Local Catalog entry the
resolver returns a state (no lookup failure leaves it): `AVAILABLE_ONLINE` when
the Remote Catalog has the book with a non-empty URL, `METADATA_ONLY` when it has
the book with an empty URL, `INVALID` when it does not have the book. -/
theorem getBookState_of_remote_lookup (st : State) (bookId : String)
    (hd : getDownloadState st.downloads bookId = none)
    (hb : getBookById st.library bookId = .error .out_of_range) :
    (∃ s, getBookState st bookId = .ok s) ∧
    (∀ b, getBookById st.remoteLibrary bookId = .ok b → b.url ≠ "" →
      getBookState st bookId = .ok .AVAILABLE_ONLINE) ∧
    (∀ b, getBookById st.remoteLibrary bookId = .ok b → b.url = "" →
      getBookState st bookId = .ok .METADATA_ONLY) ∧
    (getBookById st.remoteLibrary bookId = .error .out_of_range →
      getBookState st bookId = .ok .INVALID) := by
  refine ⟨?_, ?_, ?_, ?_⟩
  · simp only [getBookState, hd, hb]
    cases getBookById st.remoteLibrary bookId <;> simp
  · intro b hr hu
    simp [getBookState, hd, hb, hr, hu]
  · intro b hr hu
    simp [getBookState, hd, hb, hr, hu]
  · intro hr
    simp [getBookState, hd, hb, hr]

/-- Witness of C3: the book of `remoteBookState` is `AVAILABLE_ONLINE`, and an id
that no source knows is `INVALID`. -/
theorem getBookState_of_remote_lookup_witness :
    getBookState remoteBookState "X" = .ok .AVAILABLE_ONLINE ∧
    getBookState remoteBookState "Y" = .ok .INVALID :=
  ⟨(getBookState_of_remote_lookup remoteBookState "X" (by decide) (by decide)).2.1
      { id := "X", url := "http://example.org/x.zim" } (by decide) (by decide),
   (getBookState_of_remote_lookup remoteBookState "Y" (by decide) (by decide)).2.2.2
      (by decide)⟩

/-- C4, as stated, fails: a book without ledger entry whose Local Catalog entry
has a non-empty download-id is not resolved through the Remote Catalog. In
`placeholderState` the Remote Catalog has the book with a URL, and the state is
`DOWNLOADING`, not `AVAILABLE_ONLINE`. -/
theorem getBookState_placeholder_not_remote :
    getDownloadState placeholderState.downloads "X" = none ∧
    getBookById placeholderState.library "X" =
      .ok { id := "X", path := "/zims/x.zim", downloadId := "gid-1" } ∧
    getBookById placeholderState.remoteLibrary "X" =
      .ok { id := "X", url := "http://example.org/x.zim" } ∧
    ¬ getBookState placeholderState "X" = .ok .AVAILABLE_ONLINE := by
  decide

/-- C4, amended: a book without ledger entry whose Local Catalog entry has a
non-empty download-id is `DOWNLOADING`, whatever the Remote Catalog contains. -/
theorem getBookState_of_placeholder (st : State) (bookId : String) (b : Book)
    (hd : getDownloadState st.downloads bookId = none)
    (hb : getBookById st.library bookId = .ok b)
    (hne : b.downloadId ≠ "") :
    ∀ remote : BookList,
      getBookState { st with remoteLibrary := remote } bookId = .ok .DOWNLOADING := by
  intro remote
  simp [getBookState, hd, hb, hne]

/-- Witness of the amended C4 at `placeholderState`. -/
theorem getBookState_of_placeholder_witness :
    getBookState placeholderState "X" = .ok .DOWNLOADING :=
  getBookState_of_placeholder placeholderState "X"
    { id := "X", path := "/zims/x.zim", downloadId := "gid-1" }
    (by decide) (by decide) (by decide) placeholderState.remoteLibrary

/-! ## The file-stability state machine -/

/-- C5: `updateStatus` keeps the observed modification time and computes the
status by priority: `UNCHANGED_KNOWN_BAD_ZIM_FILE` when the modification times
are equal, whatever the previous status; otherwise
`DEFERRED_PROCESSING_ALREADY_PENDING` when the previous status is `PROCESS_LATER`;
otherwise `PROCESS_LATER` when the modification time is strictly later than now
minus 1000 ms; otherwise `PROCESS_NOW`, in particular for a file modified exactly
1000 ms ago. -/
theorem updateStatus_priority (this prevInfo : MonitoredZimFileInfo) (now : Int)
    (hprev : prevInfo.status ≠ .ADDED_TO_THE_LIBRARY) :
    (this.updateStatus prevInfo now).lastModified = this.lastModified ∧
    (this.lastModified = prevInfo.lastModified →
      (this.updateStatus prevInfo now).status = .UNCHANGED_KNOWN_BAD_ZIM_FILE) ∧
    (this.lastModified ≠ prevInfo.lastModified → prevInfo.status = .PROCESS_LATER →
      (this.updateStatus prevInfo now).status = .DEFERRED_PROCESSING_ALREADY_PENDING) ∧
    (this.lastModified ≠ prevInfo.lastModified → prevInfo.status ≠ .PROCESS_LATER →
      ∀ t : Int, this.lastModified = some t → now - 1000 < t →
        (this.updateStatus prevInfo now).status = .PROCESS_LATER) ∧
    (this.lastModified ≠ prevInfo.lastModified → prevInfo.status ≠ .PROCESS_LATER →
      (∀ t : Int, this.lastModified = some t → t ≤ now - 1000) →
        (this.updateStatus prevInfo now).status = .PROCESS_NOW) ∧
    (this.lastModified ≠ prevInfo.lastModified → prevInfo.status ≠ .PROCESS_LATER →
      this.lastModified = some (now - 1000) →
        (this.updateStatus prevInfo now).status = .PROCESS_NOW) := by
  have _ := hprev
  have hkeep : ∀ t : Int, this.lastModified = some t →
      (this.fileKeepsBeingModified now = true ↔ now - 1000 < t) := by
    intro t ht
    simp only [MonitoredZimFileInfo.fileKeepsBeingModified, ht, decide_eq_true_eq]
    constructor <;> intro h <;> omega
  have hlate : (∀ t : Int, this.lastModified = some t → t ≤ now - 1000) →
      this.fileKeepsBeingModified now = false := by
    intro h
    cases hm : this.lastModified with
    | none => simp [MonitoredZimFileInfo.fileKeepsBeingModified, hm]
    | some t =>
      have := h t hm
      simp only [MonitoredZimFileInfo.fileKeepsBeingModified, hm, decide_eq_false_iff_not]
      omega
  refine ⟨?_, ?_, ?_, ?_, ?_, ?_⟩
  · unfold MonitoredZimFileInfo.updateStatus
    split_ifs <;> rfl
  · intro h
    simp [MonitoredZimFileInfo.updateStatus, h]
  · intro h hp
    simp [MonitoredZimFileInfo.updateStatus, h, hp]
  · intro h hp t ht hlt
    simp [MonitoredZimFileInfo.updateStatus, h, hp, (hkeep t ht).2 hlt]
  · intro h hp hle
    simp [MonitoredZimFileInfo.updateStatus, h, hp, hlate hle]
  · intro h hp ht
    have hle : ∀ t : Int, this.lastModified = some t → t ≤ now - 1000 := by
      intro t h2
      rw [ht] at h2
      have := Option.some.inj h2
      omega
    simp [MonitoredZimFileInfo.updateStatus, h, hp, hlate hle]

/-- Witness of C5: a known bad file whose recorded modification time is 5000 and
that was modified again at 9000 is `PROCESS_NOW` when the clock says 10000
(exactly 1000 ms later) and `PROCESS_LATER` when the clock says 9999. -/
theorem updateStatus_priority_witness :
    (({ lastModified := some 9000 } : MonitoredZimFileInfo).updateStatus knownBadInfo
      10000).status = .PROCESS_NOW ∧
    (({ lastModified := some 9000 } : MonitoredZimFileInfo).updateStatus knownBadInfo
      9999).status = .PROCESS_LATER :=
  ⟨(updateStatus_priority { lastModified := some 9000 } knownBadInfo 10000
      (by decide)).2.2.2.2.2 (by decide) (by decide) (by decide),
   (updateStatus_priority { lastModified := some 9000 } knownBadInfo 9999
      (by decide)).2.2.2.1 (by decide) (by decide) 9000 (by decide) (by decide)⟩

/-! ## Handling one file of a monitored directory -/

/-- C6, as stated, fails: the archive `b.zim` of `freshFileEnv` has no watch
entry, is not owned by a download and was modified 100 ms before now, and the
immediate pass does not give it the status `PROCESS_LATER`: it is ingested at
once, by `handleZimFileInMonitoredDir` and so by `updateLibraryFromDir`. -/
theorem fresh_file_not_deferred :
    (({} : State).knownZimsInDir "d").lookup "b.zim" = none ∧
    isBeingDownloadedByUs ({} : State).library (bookPathOf "d" "b.zim") = false ∧
    freshFileEnv.lastModified (bookPathOf "d" "b.zim") = some 9900 ∧
    freshFileEnv.now - 1000 < 9900 ∧
    ¬ ((handleZimFileInMonitoredDir freshFileEnv {} "d" "b.zim").1 = .PROCESS_LATER ∧
       (handleZimFileInMonitoredDir freshFileEnv {} "d" "b.zim").2.library = []) ∧
    (handleZimFileInMonitoredDir freshFileEnv {} "d" "b.zim").1 = .ADDED_TO_THE_LIBRARY ∧
    (updateLibraryFromDir freshFileEnv {} "d").library = [freshFileBook] := by
  decide

/-- Reading the file as an archive decides the result of `addBookFromPath`. -/
theorem addBookFromPath_fst (env : Env) (lib : BookList) (path : String) :
    (addBookFromPath env lib path).1 = (env.readBookFromPath path).isSome := by
  unfold addBookFromPath
  cases env.readBookFromPath path <;> rfl

/-- The status that `handleZimFileInMonitoredDir` returns is `PROCESS_LATER` only
when `getMonitoredZimFileInfo` computed it. -/
theorem handleZimFileInMonitoredDir_later (env : Env) (st : State) (dir fileName : String)
    (h : (handleZimFileInMonitoredDir env st dir fileName).1 = .PROCESS_LATER) :
    (getMonitoredZimFileInfo env st dir fileName).status = .PROCESS_LATER := by
  unfold handleZimFileInMonitoredDir at h
  by_cases hd : isBeingDownloadedByUs st.library (bookPathOf dir fileName) = true
  · simp [hd] at h
  · by_cases h1 : (getMonitoredZimFileInfo env st dir fileName).status = .PROCESS_LATER
    · exact h1
    · by_cases h2 : (getMonitoredZimFileInfo env st dir fileName).status = .PROCESS_NOW
      · simp only [hd, h1, h2] at h
        revert h
        cases (addBookFromPath env st.library (bookPathOf dir fileName)).1 <;> simp
      · simp only [hd, h1, h2] at h
        exact absurd h h1

/-- C6, amended: an archive file that has no watch entry and is not owned by a
download is ingested by the immediate pass, whatever its modification time: the
status is `ADDED_TO_THE_LIBRARY` when the file reads as an archive and
`COULD_NOT_BE_ADDED_TO_THE_LIBRARY` otherwise, the watch entry records that
status and the modification time, and no recheck is scheduled. The status
`PROCESS_LATER` is only given to a file that has a watch entry whose status is
not `PROCESS_LATER`, whose recorded modification time differs from the current
one, and whose current modification time is within 1000 ms of now. -/
theorem handleZimFileInMonitoredDir_first_seen (env : Env) (st : State) (dir fileName : String)
    (hd : isBeingDownloadedByUs st.library (bookPathOf dir fileName) = false) :
    ((st.knownZimsInDir dir).lookup fileName = none →
      (handleZimFileInMonitoredDir env st dir fileName).1 =
        (if (env.readBookFromPath (bookPathOf dir fileName)).isSome
          then .ADDED_TO_THE_LIBRARY else .COULD_NOT_BE_ADDED_TO_THE_LIBRARY) ∧
      (handleZimFileInMonitoredDir env st dir fileName).2.library =
        (addBookFromPath env st.library (bookPathOf dir fileName)).2 ∧
      ((handleZimFileInMonitoredDir env st dir fileName).2.knownZimsInDir dir).lookup fileName =
        some { status := (handleZimFileInMonitoredDir env st dir fileName).1,
               lastModified := env.lastModified (bookPathOf dir fileName) } ∧
      (handleZimFileInMonitoredDir env st dir fileName).2.log = st.log) ∧
    ((handleZimFileInMonitoredDir env st dir fileName).1 = .PROCESS_LATER →
      ∃ prevInfo, (st.knownZimsInDir dir).lookup fileName = some prevInfo ∧
        prevInfo.status ≠ .PROCESS_LATER ∧
        env.lastModified (bookPathOf dir fileName) ≠ prevInfo.lastModified ∧
        ∃ t : Int, env.lastModified (bookPathOf dir fileName) = some t ∧ env.now - 1000 < t) := by
  constructor
  · intro hnone
    have hz : getMonitoredZimFileInfo env st dir fileName =
        { lastModified := env.lastModified (bookPathOf dir fileName) } := by
      simp [getMonitoredZimFileInfo, hnone]
    have hfst := addBookFromPath_fst env st.library (bookPathOf dir fileName)
    unfold handleZimFileInMonitoredDir
    simp only [hd, hz, Bool.false_eq_true, if_false, State.setZimsInDir]
    rw [hfst]
    cases env.readBookFromPath (bookPathOf dir fileName) <;> simp
  · intro h
    have hl := handleZimFileInMonitoredDir_later env st dir fileName h
    unfold getMonitoredZimFileInfo at hl
    cases hlook : (st.knownZimsInDir dir).lookup fileName with
    | none => simp [hlook] at hl
    | some prevInfo =>
      simp only [hlook] at hl
      refine ⟨prevInfo, rfl, ?_⟩
      unfold MonitoredZimFileInfo.updateStatus at hl
      by_cases h1 : env.lastModified (bookPathOf dir fileName) = prevInfo.lastModified
      · simp [h1] at hl
      · by_cases h2 : prevInfo.status = .PROCESS_LATER
        · simp [h1, h2] at hl
        · refine ⟨h2, h1, ?_⟩
          have hk : ({ lastModified := env.lastModified (bookPathOf dir fileName) } :
              MonitoredZimFileInfo).fileKeepsBeingModified env.now = true := by
            by_contra hk
            simp [h1, h2, hk] at hl
          unfold MonitoredZimFileInfo.fileKeepsBeingModified at hk
          cases hm : env.lastModified (bookPathOf dir fileName) with
          | none => simp [hm] at hk
          | some t =>
            simp only [hm, decide_eq_true_eq] at hk
            exact ⟨t, rfl, by omega⟩

/-- Witness of the amended C6: `b.zim` of `freshFileEnv`, modified 100 ms before
now, is added to the library at once and its watch entry says so. -/
theorem handleZimFileInMonitoredDir_first_seen_witness :
    (handleZimFileInMonitoredDir freshFileEnv {} "d" "b.zim").1 = .ADDED_TO_THE_LIBRARY ∧
    (handleZimFileInMonitoredDir freshFileEnv {} "d" "b.zim").2.library = [freshFileBook] ∧
    (handleZimFileInMonitoredDir freshFileEnv {} "d" "b.zim").2.log = [] :=
  have h := (handleZimFileInMonitoredDir_first_seen freshFileEnv {} "d" "b.zim"
    (by decide)).1 (by decide)
  ⟨h.1.trans (by decide), h.2.1.trans (by decide), h.2.2.2.trans (by decide)⟩

/-- A file whose modification time is the recorded one is an unchanged known bad
file: nothing happens. -/
theorem handleZimFileInMonitoredDir_unchanged (env : Env) (st : State) (dir fileName : String)
    (prevInfo : MonitoredZimFileInfo)
    (hd : isBeingDownloadedByUs st.library (bookPathOf dir fileName) = false)
    (hlook : (st.knownZimsInDir dir).lookup fileName = some prevInfo)
    (hm : env.lastModified (bookPathOf dir fileName) = prevInfo.lastModified) :
    handleZimFileInMonitoredDir env st dir fileName = (.UNCHANGED_KNOWN_BAD_ZIM_FILE, st) := by
  have hz : (getMonitoredZimFileInfo env st dir fileName).status =
      .UNCHANGED_KNOWN_BAD_ZIM_FILE := by
    simp [getMonitoredZimFileInfo, hlook, MonitoredZimFileInfo.updateStatus, hm]
  unfold handleZimFileInMonitoredDir
  simp [hd, hz]

/-- A changed file whose watch entry says `PROCESS_LATER` waits for the recheck
that is pending: nothing happens. -/
theorem handleZimFileInMonitoredDir_pending (env : Env) (st : State) (dir fileName : String)
    (prevInfo : MonitoredZimFileInfo)
    (hd : isBeingDownloadedByUs st.library (bookPathOf dir fileName) = false)
    (hlook : (st.knownZimsInDir dir).lookup fileName = some prevInfo)
    (hm : env.lastModified (bookPathOf dir fileName) ≠ prevInfo.lastModified)
    (hp : prevInfo.status = .PROCESS_LATER) :
    handleZimFileInMonitoredDir env st dir fileName =
      (.DEFERRED_PROCESSING_ALREADY_PENDING, st) := by
  have hz : (getMonitoredZimFileInfo env st dir fileName).status =
      .DEFERRED_PROCESSING_ALREADY_PENDING := by
    simp [getMonitoredZimFileInfo, hlook, MonitoredZimFileInfo.updateStatus, hm, hp]
  unfold handleZimFileInMonitoredDir
  simp [hd, hz]

/-- A changed file that was modified within the last 1000 ms is deferred. -/
theorem handleZimFileInMonitoredDir_deferred (env : Env) (st : State) (dir fileName : String)
    (prevInfo : MonitoredZimFileInfo) (t : Int)
    (hd : isBeingDownloadedByUs st.library (bookPathOf dir fileName) = false)
    (hlook : (st.knownZimsInDir dir).lookup fileName = some prevInfo)
    (hm : env.lastModified (bookPathOf dir fileName) ≠ prevInfo.lastModified)
    (hp : prevInfo.status ≠ .PROCESS_LATER)
    (ht : env.lastModified (bookPathOf dir fileName) = some t) (hlt : env.now - 1000 < t) :
    handleZimFileInMonitoredDir env st dir fileName =
      (.PROCESS_LATER, deferHandlingOfZimFileInMonitoredDir st dir fileName) := by
  have hk : ({ lastModified := env.lastModified (bookPathOf dir fileName) } :
      MonitoredZimFileInfo).fileKeepsBeingModified env.now = true := by
    simp only [MonitoredZimFileInfo.fileKeepsBeingModified, ht, decide_eq_true_eq]
    omega
  have hz : (getMonitoredZimFileInfo env st dir fileName).status = .PROCESS_LATER := by
    simp [getMonitoredZimFileInfo, hlook, MonitoredZimFileInfo.updateStatus, hm, hp, hk]
  unfold handleZimFileInMonitoredDir
  simp [hd, hz]

/-- A changed file that has been stable for 1000 ms is ingested, and its watch
entry records the outcome and the modification time. -/
theorem handleZimFileInMonitoredDir_processed (env : Env) (st : State) (dir fileName : String)
    (prevInfo : MonitoredZimFileInfo)
    (hd : isBeingDownloadedByUs st.library (bookPathOf dir fileName) = false)
    (hlook : (st.knownZimsInDir dir).lookup fileName = some prevInfo)
    (hm : env.lastModified (bookPathOf dir fileName) ≠ prevInfo.lastModified)
    (hp : prevInfo.status ≠ .PROCESS_LATER)
    (hs : ∀ t : Int, env.lastModified (bookPathOf dir fileName) = some t → t ≤ env.now - 1000) :
    handleZimFileInMonitoredDir env st dir fileName =
      ((if (env.readBookFromPath (bookPathOf dir fileName)).isSome
          then .ADDED_TO_THE_LIBRARY else .COULD_NOT_BE_ADDED_TO_THE_LIBRARY),
       { st with
         library := (addBookFromPath env st.library (bookPathOf dir fileName)).2
         ingestionAttempts := st.ingestionAttempts ++ [(dir, fileName)] }.setZimsInDir
          dir ((st.knownZimsInDir dir).insert fileName
            { status := (if (env.readBookFromPath (bookPathOf dir fileName)).isSome
                then .ADDED_TO_THE_LIBRARY else .COULD_NOT_BE_ADDED_TO_THE_LIBRARY),
              lastModified := env.lastModified (bookPathOf dir fileName) })) := by
  have hk : ({ lastModified := env.lastModified (bookPathOf dir fileName) } :
      MonitoredZimFileInfo).fileKeepsBeingModified env.now = false := by
    unfold MonitoredZimFileInfo.fileKeepsBeingModified
    cases hmt : env.lastModified (bookPathOf dir fileName) with
    | none => rfl
    | some t =>
      have := hs t hmt
      simp only [decide_eq_false_iff_not]
      omega
  have hz : getMonitoredZimFileInfo env st dir fileName =
      { status := .PROCESS_NOW, lastModified := env.lastModified (bookPathOf dir fileName) } := by
    simp [getMonitoredZimFileInfo, hlook, MonitoredZimFileInfo.updateStatus, hm, hp, hk]
  have hfst := addBookFromPath_fst env st.library (bookPathOf dir fileName)
  unfold handleZimFileInMonitoredDir
  simp only [hd, hz, Bool.false_eq_true, if_false]
  rw [← hfst]
  cases (addBookFromPath env st.library (bookPathOf dir fileName)).1 <;> simp

/-- The watch entry of a file after its status has been assigned. -/
theorem setStatus_lookup (st : State) (dir fname : String) (status : ZimFileStatus) :
    ((st.setStatus dir fname status).knownZimsInDir dir).lookup fname =
      some { ((st.knownZimsInDir dir).lookup fname).getD {} with status := status } := by
  simp [State.setStatus, State.setZimsInDir]

/-- C7, as stated, fails: the watch entry of `b.zim` in `pendingRecheckState`
says `PROCESS_LATER`, the file is not owned by a download and its modification
time is within 1000 ms of now, but it equals the recorded one: the deferred
recheck neither leaves the entry at `PROCESS_LATER` nor schedules a recheck. -/
theorem deferred_recheck_of_unchanged_file :
    (pendingRecheckState.knownZimsInDir "d").lookup "b.zim" =
      some { status := .PROCESS_LATER, lastModified := some 9900 } ∧
    isBeingDownloadedByUs pendingRecheckState.library (bookPathOf "d" "b.zim") = false ∧
    freshFileEnv.lastModified (bookPathOf "d" "b.zim") = some 9900 ∧
    freshFileEnv.now - 1000 < 9900 ∧
    ¬ ((((handleZimFileInMonitoredDirDeferred freshFileEnv pendingRecheckState "d"
          "b.zim").knownZimsInDir "d").lookup "b.zim").map (fun i => i.status) =
        some .PROCESS_LATER) ∧
    (handleZimFileInMonitoredDirDeferred freshFileEnv pendingRecheckState "d" "b.zim").log =
      [] := by
  decide

/-- C7, amended: the deferred recheck of a file whose watch entry says
`PROCESS_LATER` and that is not owned by a download re-runs the evaluation. If
the modification time differs from the recorded one and is not within 1000 ms of
now, ingestion is attempted; on success the entry becomes `ADDED_TO_THE_LIBRARY`,
the library is saved and `booksChanged` is emitted, on failure the entry becomes
`COULD_NOT_BE_ADDED_TO_THE_LIBRARY` and nothing is emitted. If the
modification time differs from the recorded one and is within 1000 ms of now, no
ingestion is attempted, the entry returns to `PROCESS_LATER` and one recheck is
scheduled. If the modification time equals the recorded one, no ingestion is
attempted and no recheck is scheduled. -/
theorem handleZimFileInMonitoredDirDeferred_recheck (env : Env) (st : State)
    (dir fileName : String) (recorded : QDateTime)
    (hlook : (st.knownZimsInDir dir).lookup fileName =
      some { status := .PROCESS_LATER, lastModified := recorded })
    (hd : isBeingDownloadedByUs st.library (bookPathOf dir fileName) = false) :
    (env.lastModified (bookPathOf dir fileName) ≠ recorded →
      (∀ t : Int, env.lastModified (bookPathOf dir fileName) = some t → t ≤ env.now - 1000) →
      (handleZimFileInMonitoredDirDeferred env st dir fileName).library =
        (addBookFromPath env st.library (bookPathOf dir fileName)).2 ∧
      ((handleZimFileInMonitoredDirDeferred env st dir fileName).knownZimsInDir dir).lookup
          fileName =
        some { status := (if (env.readBookFromPath (bookPathOf dir fileName)).isSome
                 then .ADDED_TO_THE_LIBRARY else .COULD_NOT_BE_ADDED_TO_THE_LIBRARY),
               lastModified := env.lastModified (bookPathOf dir fileName) } ∧
      (handleZimFileInMonitoredDirDeferred env st dir fileName).log =
        st.log ++ (if (env.readBookFromPath (bookPathOf dir fileName)).isSome
          then [.librarySaved, .booksChanged] else [])) ∧
    (env.lastModified (bookPathOf dir fileName) ≠ recorded →
      (∃ t : Int, env.lastModified (bookPathOf dir fileName) = some t ∧ env.now - 1000 < t) →
      (handleZimFileInMonitoredDirDeferred env st dir fileName).library = st.library ∧
      ((handleZimFileInMonitoredDirDeferred env st dir fileName).knownZimsInDir dir).lookup
          fileName = some { status := .PROCESS_LATER, lastModified := recorded } ∧
      (handleZimFileInMonitoredDirDeferred env st dir fileName).log =
        st.log ++ [.singleShot 1000 dir fileName]) ∧
    (env.lastModified (bookPathOf dir fileName) = recorded →
      (handleZimFileInMonitoredDirDeferred env st dir fileName).library = st.library ∧
      (handleZimFileInMonitoredDirDeferred env st dir fileName).log = st.log) := by
  have hlook1 : ((st.setStatus dir fileName .PROCESS_NOW).knownZimsInDir dir).lookup fileName =
      some { status := .PROCESS_NOW, lastModified := recorded } := by
    rw [setStatus_lookup, hlook]
    rfl
  have hd1 : isBeingDownloadedByUs (st.setStatus dir fileName .PROCESS_NOW).library
      (bookPathOf dir fileName) = false := hd
  refine ⟨?_, ?_, ?_⟩
  · intro hm hs
    have h := handleZimFileInMonitoredDir_processed env _ dir fileName _ hd1 hlook1 hm
      (by simp) hs
    simp only [handleZimFileInMonitoredDirDeferred, handleZimFileInMonitoredDirLogged, h]
    cases env.readBookFromPath (bookPathOf dir fileName) <;>
      simp [State.setZimsInDir, State.setStatus, State.emit]
  · intro hm ⟨t, ht, hlt⟩
    have h := handleZimFileInMonitoredDir_deferred env _ dir fileName _ t hd1 hlook1 hm
      (by simp) ht hlt
    simp only [handleZimFileInMonitoredDirDeferred, handleZimFileInMonitoredDirLogged, h]
    simp [deferHandlingOfZimFileInMonitoredDir, State.setZimsInDir, State.setStatus,
      State.emit, hlook]
  · intro hm
    have h := handleZimFileInMonitoredDir_unchanged env _ dir fileName _ hd1 hlook1 hm
    simp only [handleZimFileInMonitoredDirDeferred, handleZimFileInMonitoredDirLogged, h]
    simp [State.setZimsInDir, State.setStatus]

/-- Witness of the amended C7: the file `b.zim`, recorded with modification time
5000 and modified at 9900, is deferred again when rechecked at 10000 and is
ingested, with one save and one `booksChanged`, when rechecked at 12000. -/
theorem handleZimFileInMonitoredDirDeferred_recheck_witness :
    (handleZimFileInMonitoredDirDeferred freshFileEnv pendingRecheckOfChangedFileState "d"
      "b.zim").log = [.singleShot 1000 "d" "b.zim"] ∧
    (handleZimFileInMonitoredDirDeferred settledFileEnv pendingRecheckOfChangedFileState "d"
      "b.zim").library = [freshFileBook] ∧
    (handleZimFileInMonitoredDirDeferred settledFileEnv pendingRecheckOfChangedFileState "d"
      "b.zim").log = [.librarySaved, .booksChanged] :=
  have h1 := (handleZimFileInMonitoredDirDeferred_recheck freshFileEnv
    pendingRecheckOfChangedFileState "d" "b.zim" (some 5000) (by decide) (by decide)).2.1
    (by decide) ⟨9900, by decide, by decide⟩
  have h2 := (handleZimFileInMonitoredDirDeferred_recheck settledFileEnv
    pendingRecheckOfChangedFileState "d" "b.zim" (some 5000) (by decide) (by decide)).1
    (by decide) (by decide)
  ⟨h1.2.2.trans (by decide), h2.1.trans (by decide), h2.2.2.trans (by decide)⟩

/-! ## Facts about paths, libraries and watch entries -/

/-- Two files of one directory that have the same path have the same name. -/
theorem bookPathOf_injective (dir f g : String) (h : bookPathOf dir f = bookPathOf dir g) :
    f = g := by
  have h2 := congrArg String.data h
  simp only [bookPathOf, String.data_append] at h2
  exact String.ext (List.append_cancel_left h2)

/-- The book that a lookup by path finds is in the library and has that path. -/
theorem getBookByPath_ok {lib : BookList} {path : String} {b : Book}
    (h : getBookByPath lib path = .ok b) : b ∈ lib ∧ b.path = path := by
  unfold getBookByPath at h
  cases hf : lib.find? (fun b => b.path == path) with
  | none => simp [hf] at h
  | some c =>
    simp only [hf, Except.ok.injEq] at h
    subst h
    exact ⟨List.mem_of_find?_eq_some hf, by simpa using List.find?_some hf⟩

/-- A lookup by path fails exactly when no book of the library has the path. -/
theorem getBookByPath_error {lib : BookList} {path : String} {e : LookupError} :
    getBookByPath lib path = .error e ↔ ∀ b ∈ lib, b.path ≠ path := by
  unfold getBookByPath
  cases hf : lib.find? (fun b => b.path == path) with
  | none =>
    cases e
    simpa using hf
  | some c =>
    have hp : c.path = path := by simpa using List.find?_some hf
    constructor
    · intro h
      simp at h
    · intro h
      exact absurd hp (h c (List.mem_of_find?_eq_some hf))

/-- Removing another id does not change what a lookup by path finds. -/
theorem getBookByPath_removeBook {lib : BookList} {path id : String} {b : Book}
    (h : getBookByPath lib path = .ok b) (hne : b.id ≠ id) :
    getBookByPath (removeBookFromLibraryById lib id) path = .ok b := by
  induction lib with
  | nil => simp [getBookByPath] at h
  | cons c lib ih =>
    by_cases hc : c.path = path
    · have hcb : c = b := by simpa [getBookByPath, hc] using h
      subst hcb
      simp [removeBookFromLibraryById, getBookByPath, hc, hne]
    · have h2 : getBookByPath lib path = .ok b := by
        simpa [getBookByPath, hc] using h
      have ih2 := ih h2
      by_cases hid : c.id = id
      · simpa [removeBookFromLibraryById, hid] using ih2
      · simpa [removeBookFromLibraryById, hid, getBookByPath, hc] using ih2

/-- The books that are left after a removal were in the library and have another
id. -/
theorem mem_removeBookFromLibraryById {lib : BookList} {id : String} {b : Book} :
    b ∈ removeBookFromLibraryById lib id ↔ b ∈ lib ∧ b.id ≠ id := by
  simp [removeBookFromLibraryById]

/-- The books of a library after `addOrUpdateBook`: the new book, and the old
books that have another id. -/
theorem mem_addOrUpdateBook {lib : BookList} {book b : Book} :
    b ∈ addOrUpdateBook lib book ↔ b = book ∨ (b ∈ lib ∧ b.id ≠ book.id) := by
  unfold addOrUpdateBook
  by_cases hany : lib.any (fun c => c.id == book.id) = true
  · simp only [hany, if_true, List.mem_map]
    constructor
    · rintro ⟨c, hc, rfl⟩
      by_cases hid : c.id = book.id
      · left; simp [hid]
      · right; simp [hid, hc]
    · rintro (rfl | ⟨hb, hid⟩)
      · obtain ⟨c, hc, hcid⟩ := List.any_eq_true.1 hany
        have hcid2 : c.id = b.id := by simpa using hcid
        exact ⟨c, hc, by simp [hcid2]⟩
      · exact ⟨b, hb, by simp [hid]⟩
  · have hnone : ∀ c ∈ lib, c.id ≠ book.id := by
      intro c hc hid
      exact hany (List.any_eq_true.2 ⟨c, hc, by simpa using hid⟩)
    simp only [hany, Bool.false_eq_true, if_false, List.mem_append, List.mem_singleton]
    constructor
    · rintro (hb | rfl)
      · exact Or.inr ⟨hb, hnone b hb⟩
      · exact Or.inl rfl
    · rintro (rfl | ⟨hb, _⟩)
      · exact Or.inr rfl
      · exact Or.inl hb

/-- The files that `getLibraryZims` returns are those whose watch entry says
`ADDED_TO_THE_LIBRARY`. -/
theorem mem_getLibraryZims {st : State} {dir f : String} :
    f ∈ getLibraryZims st dir ↔
      ∃ info, (st.knownZimsInDir dir).lookup f = some info ∧
        info.status = .ADDED_TO_THE_LIBRARY := by
  unfold getLibraryZims
  simp only [List.mem_map, List.mem_filter, decide_eq_true_eq]
  constructor
  · rintro ⟨⟨k, info⟩, ⟨hmem, hst⟩, rfl⟩
    exact ⟨info, AList.mem_lookup_iff.2 hmem, hst⟩
  · rintro ⟨info, hl, hst⟩
    exact ⟨⟨f, info⟩, ⟨AList.mem_lookup_iff.1 hl, hst⟩, rfl⟩

/-- No file is listed twice by `getLibraryZims`. -/
theorem getLibraryZims_nodup (st : State) (dir : String) : (getLibraryZims st dir).Nodup := by
  unfold getLibraryZims
  have hsub : (List.map (fun e : Sigma (fun _ : String => MonitoredZimFileInfo) => e.1)
      ((st.knownZimsInDir dir).entries.filter
        (fun e => decide (e.2.status = .ADDED_TO_THE_LIBRARY)))).Sublist
      (st.knownZimsInDir dir).keys :=
    (List.filter_sublist _).map _
  exact hsub.nodup (st.knownZimsInDir dir).keys_nodup

/-- The disappeared files: in the library according to the watch state, and not
in the listing. -/
theorem mem_removedZims {env : Env} {st : State} {dir f : String} :
    f ∈ removedZims env st dir ↔ f ∈ getLibraryZims st dir ∧ f ∉ env.entryList dir := by
  simp [removedZims]

/-- The new files: in the listing, and not in the library according to the watch
state. -/
theorem mem_zimsNotInLib {env : Env} {st : State} {dir f : String} :
    f ∈ zimsNotInLib env st dir ↔ f ∈ env.entryList dir ∧ f ∉ getLibraryZims st dir := by
  simp [zimsNotInLib]

/-! ## One step of the two loops of a reconciliation pass -/

/-- The three outcomes of handling a disappeared file: the book is open in a tab
and nothing changes; the book is removed and the watch entry dropped; no book has
the path and the watch entry is dropped. -/
theorem handleDisappearedZimFile_cases (env : Env) (dir : String) (st : State) (f : String) :
    (∃ book, getBookByPath st.library (bookPathOf dir f) = .ok book ∧
      book.id ∈ env.tabZimIds ∧ handleDisappearedZimFile env dir st f = st) ∨
    (∃ book, getBookByPath st.library (bookPathOf dir f) = .ok book ∧
      book.id ∉ env.tabZimIds ∧
      handleDisappearedZimFile env dir st f =
        { st with library := removeBookFromLibraryById st.library book.id }.setZimsInDir dir
          ((st.knownZimsInDir dir).erase f)) ∨
    (getBookByPath st.library (bookPathOf dir f) = .error .out_of_range ∧
      handleDisappearedZimFile env dir st f =
        st.setZimsInDir dir ((st.knownZimsInDir dir).erase f)) := by
  cases hb : getBookByPath st.library (bookPathOf dir f) with
  | error e =>
    cases e
    refine Or.inr (Or.inr ⟨rfl, ?_⟩)
    simp only [handleDisappearedZimFile, hb]
  | ok book =>
    by_cases ht : book.id ∈ env.tabZimIds
    · refine Or.inl ⟨book, rfl, ht, ?_⟩
      simp [handleDisappearedZimFile, hb, handleDisappearedBook, ht]
    · refine Or.inr (Or.inl ⟨book, rfl, ht, ?_⟩)
      simp [handleDisappearedZimFile, hb, handleDisappearedBook, ht, State.setZimsInDir]

/-- The info that `getMonitoredZimFileInfo` returns carries the current
modification time of the file. -/
theorem getMonitoredZimFileInfo_lastModified (env : Env) (st : State) (dir f : String) :
    (getMonitoredZimFileInfo env st dir f).lastModified = env.lastModified (bookPathOf dir f) := by
  unfold getMonitoredZimFileInfo
  cases (st.knownZimsInDir dir).lookup f with
  | none => rfl
  | some prevInfo =>
    simp only
    unfold MonitoredZimFileInfo.updateStatus
    split_ifs <;> rfl

/-- The three outcomes of handling a file of the directory: nothing changes and
the status is neither `ADDED_TO_THE_LIBRARY` nor `PROCESS_LATER`; the file is
deferred; ingestion is attempted and the watch entry records its outcome. -/
theorem handleZimFileInMonitoredDir_cases (env : Env) (st : State) (dir f : String) :
    ((handleZimFileInMonitoredDir env st dir f).1 ≠ .ADDED_TO_THE_LIBRARY ∧
      (handleZimFileInMonitoredDir env st dir f).1 ≠ .PROCESS_LATER ∧
      (handleZimFileInMonitoredDir env st dir f).2 = st) ∨
    (handleZimFileInMonitoredDir env st dir f =
      (.PROCESS_LATER, deferHandlingOfZimFileInMonitoredDir st dir f)) ∨
    (isBeingDownloadedByUs st.library (bookPathOf dir f) = false ∧
      (getMonitoredZimFileInfo env st dir f).status = .PROCESS_NOW ∧
      handleZimFileInMonitoredDir env st dir f =
      ((if (env.readBookFromPath (bookPathOf dir f)).isSome
          then .ADDED_TO_THE_LIBRARY else .COULD_NOT_BE_ADDED_TO_THE_LIBRARY),
       { st with
         library := (addBookFromPath env st.library (bookPathOf dir f)).2
         ingestionAttempts := st.ingestionAttempts ++ [(dir, f)] }.setZimsInDir
          dir ((st.knownZimsInDir dir).insert f
            { status := (if (env.readBookFromPath (bookPathOf dir f)).isSome
                then .ADDED_TO_THE_LIBRARY else .COULD_NOT_BE_ADDED_TO_THE_LIBRARY),
              lastModified := env.lastModified (bookPathOf dir f) }))) := by
  by_cases hd : isBeingDownloadedByUs st.library (bookPathOf dir f) = true
  · left
    simp [handleZimFileInMonitoredDir, hd]
  · by_cases h1 : (getMonitoredZimFileInfo env st dir f).status = .PROCESS_LATER
    · right; left
      simp [handleZimFileInMonitoredDir, hd, h1]
    · by_cases h2 : (getMonitoredZimFileInfo env st dir f).status = .PROCESS_NOW
      · right; right
        have hfst := addBookFromPath_fst env st.library (bookPathOf dir f)
        have hlm := getMonitoredZimFileInfo_lastModified env st dir f
        refine ⟨by simpa using hd, h2, ?_⟩
        unfold handleZimFileInMonitoredDir
        simp only [hd, h1, h2, if_false, if_true, hlm]
        rw [← hfst]
        cases (addBookFromPath env st.library (bookPathOf dir f)).1 <;> simp
      · left
        have hd2 : isBeingDownloadedByUs st.library (bookPathOf dir f) = false := by
          simpa using hd
        simp only [handleZimFileInMonitoredDir, hd2, h1, h2, if_false, Bool.false_eq_true]
        refine ⟨?_, h1, trivial⟩
        intro h3
        unfold getMonitoredZimFileInfo at h3 h2
        cases hl : (st.knownZimsInDir dir).lookup f with
        | none => simp [hl] at h2
        | some prevInfo =>
          simp only [hl] at h3
          unfold MonitoredZimFileInfo.updateStatus at h3
          split_ifs at h3

/-! ## Induction over the two loops -/

/-- A property of the state that every step of `handleDisappearedZimFiles`
preserves holds after the loop. -/
theorem handleDisappearedZimFiles_induction (env : Env) (dir : String) (P : State → Prop)
    (files : List String)
    (hstep : ∀ s f, f ∈ files → P s → P (handleDisappearedZimFile env dir s f)) :
    ∀ st, P st → P (handleDisappearedZimFiles env st dir files) := by
  unfold handleDisappearedZimFiles
  induction files with
  | nil => intro st h; exact h
  | cons f files ih =>
    intro st h
    rw [List.foldl_cons]
    exact ih (fun s g hg hs => hstep s g (List.mem_cons_of_mem _ hg) hs) _
      (hstep st f (List.mem_cons_self _ _) h)

/-- A property of the state that every step of `handleNewZimFiles` preserves
holds after the loop. -/
theorem handleNewZimFiles_induction (env : Env) (dir : String) (P : State → Prop)
    (files : List String)
    (hstep : ∀ s f, f ∈ files → P s → P (handleZimFileInMonitoredDir env s dir f).2) :
    ∀ st, P st → P (handleNewZimFiles env st dir files).2 := by
  have key : ∀ (acc : Nat × State), P acc.2 →
      P (files.foldl (fun acc file =>
        let handled := handleZimFileInMonitoredDirLogged env acc.2 dir file
        (acc.1 + (if handled.1 then 1 else 0), handled.2)) acc).2 := by
    induction files with
    | nil => intro acc h; exact h
    | cons f files ih =>
      intro acc h
      rw [List.foldl_cons]
      exact ih (fun s g hg hs => hstep s g (List.mem_cons_of_mem _ hg) hs) _
        (hstep acc.2 f (List.mem_cons_self _ _) h)
  intro st h
  exact key (0, st) h

/-- When no step of `handleNewZimFiles` adds a file to the library, as long as a
property of the state holds that every step preserves, the count of added files
is 0. -/
theorem handleNewZimFiles_count_zero (env : Env) (dir : String) (P : State → Prop)
    (files : List String)
    (hstep : ∀ s f, f ∈ files → P s →
      (handleZimFileInMonitoredDir env s dir f).1 ≠ .ADDED_TO_THE_LIBRARY ∧
      P (handleZimFileInMonitoredDir env s dir f).2) :
    ∀ st, P st → (handleNewZimFiles env st dir files).1 = 0 := by
  have key : ∀ (acc : Nat × State), P acc.2 →
      (files.foldl (fun acc file =>
        let handled := handleZimFileInMonitoredDirLogged env acc.2 dir file
        (acc.1 + (if handled.1 then 1 else 0), handled.2)) acc).1 = acc.1 := by
    induction files with
    | nil => intro acc _; rfl
    | cons f files ih =>
      intro acc h
      rw [List.foldl_cons]
      have hs := hstep acc.2 f (List.mem_cons_self _ _) h
      rw [ih (fun s g hg hs => hstep s g (List.mem_cons_of_mem _ hg) hs) _ hs.2]
      simp [handleZimFileInMonitoredDirLogged, hs.1]
  intro st h
  exact key (0, st) h

/-! ## The fields of a state after the elementary updates -/

@[simp]
theorem setZimsInDir_library (st : State) (dir : String) (z : ZimsInDir) :
    (st.setZimsInDir dir z).library = st.library := rfl

@[simp]
theorem setZimsInDir_log (st : State) (dir : String) (z : ZimsInDir) :
    (st.setZimsInDir dir z).log = st.log := rfl

@[simp]
theorem setZimsInDir_known_same (st : State) (dir : String) (z : ZimsInDir) :
    (st.setZimsInDir dir z).knownZimsInDir dir = z := by
  simp [State.setZimsInDir]

@[simp]
theorem emit_library (st : State) (es : List Effect) : (st.emit es).library = st.library := rfl

@[simp]
theorem emit_known (st : State) (es : List Effect) :
    (st.emit es).knownZimsInDir = st.knownZimsInDir := rfl

@[simp]
theorem emit_log (st : State) (es : List Effect) : (st.emit es).log = st.log ++ es := rfl

@[simp]
theorem defer_library (st : State) (dir f : String) :
    (deferHandlingOfZimFileInMonitoredDir st dir f).library = st.library := rfl

@[simp]
theorem defer_log (st : State) (dir f : String) :
    (deferHandlingOfZimFileInMonitoredDir st dir f).log = st.log ++ [.singleShot 1000 dir f] :=
  rfl

/-- Deferring a file leaves the watch entries of the other files alone. -/
theorem defer_lookup_ne (st : State) (dir f g : String) (h : g ≠ f) :
    ((deferHandlingOfZimFileInMonitoredDir st dir f).knownZimsInDir dir).lookup g =
      (st.knownZimsInDir dir).lookup g := by
  simp [deferHandlingOfZimFileInMonitoredDir, State.setStatus, State.emit,
    AList.lookup_insert_ne h]

/-- Deferring a file sets the status of its watch entry to `PROCESS_LATER` and
keeps the recorded modification time. -/
theorem defer_lookup_self (st : State) (dir f : String) :
    ((deferHandlingOfZimFileInMonitoredDir st dir f).knownZimsInDir dir).lookup f =
      some { ((st.knownZimsInDir dir).lookup f).getD {} with status := .PROCESS_LATER } := by
  simp [deferHandlingOfZimFileInMonitoredDir, State.setStatus, State.emit]

/-- Handling a file of the directory leaves the watch entries of the other files
alone. -/
theorem handleZimFileInMonitoredDir_lookup_ne (env : Env) (st : State) (dir f g : String)
    (h : g ≠ f) :
    ((handleZimFileInMonitoredDir env st dir f).2.knownZimsInDir dir).lookup g =
      (st.knownZimsInDir dir).lookup g := by
  rcases handleZimFileInMonitoredDir_cases env st dir f with h1 | h2 | h3
  · rw [h1.2.2]
  · rw [h2]
    exact defer_lookup_ne st dir f g h
  · rw [h3.2.2]
    simp [AList.lookup_insert_ne h]

/-- Handling a disappeared file leaves the watch entries of the other files
alone. -/
theorem handleDisappearedZimFile_lookup_ne (env : Env) (st : State) (dir f g : String)
    (h : g ≠ f) :
    ((handleDisappearedZimFile env dir st f).knownZimsInDir dir).lookup g =
      (st.knownZimsInDir dir).lookup g := by
  rcases handleDisappearedZimFile_cases env dir st f with
    ⟨_, _, _, h1⟩ | ⟨_, _, _, h2⟩ | ⟨_, h3⟩
  · rw [h1]
  · rw [h2]
    simp [AList.lookup_erase_ne h]
  · rw [h3]
    simp [AList.lookup_erase_ne h]

/-- Handling a file of the directory either leaves the library alone or adds the
file to it. -/
theorem handleZimFileInMonitoredDir_library (env : Env) (st : State) (dir f : String) :
    (handleZimFileInMonitoredDir env st dir f).2.library = st.library ∨
    (handleZimFileInMonitoredDir env st dir f).2.library =
      (addBookFromPath env st.library (bookPathOf dir f)).2 := by
  rcases handleZimFileInMonitoredDir_cases env st dir f with h1 | h2 | h3
  · left; rw [h1.2.2]
  · left; rw [h2]; rfl
  · right; rw [h3.2.2]; rfl

/-! ## Disappeared files -/

/-- C10: when a file whose watch entry says `ADDED_TO_THE_LIBRARY` is no longer
in the listing and its book is open in a tab, `updateLibraryFromDir` leaves the
book in the Local Catalog (the record itself, unless a file of the listing that
carries the same id has replaced it), leaves the watch entry as it is, and the
file is again among the disappeared files of the next pass. -/
theorem updateLibraryFromDir_keeps_open_book (env : Env) (st : State) (dir a : String)
    (info : MonitoredZimFileInfo) (book : Book)
    (hlook : (st.knownZimsInDir dir).lookup a = some info)
    (hadded : info.status = .ADDED_TO_THE_LIBRARY)
    (hgone : a ∉ env.entryList dir)
    (hbook : getBookByPath st.library (bookPathOf dir a) = .ok book)
    (hopen : book.id ∈ env.tabZimIds) :
    (∃ b ∈ (updateLibraryFromDir env st dir).library, b.id = book.id) ∧
    (book ∈ (updateLibraryFromDir env st dir).library ∨
      ∃ f ∈ env.entryList dir, ∃ b, env.readBookFromPath (bookPathOf dir f) = some b ∧
        b.id = book.id) ∧
    ((updateLibraryFromDir env st dir).knownZimsInDir dir).lookup a = some info ∧
    a ∈ removedZims env (updateLibraryFromDir env st dir) dir := by
  -- the loop over the disappeared files
  have h1 : getBookByPath (handleDisappearedZimFiles env st dir
        (removedZims env st dir)).library (bookPathOf dir a) = .ok book ∧
      ((handleDisappearedZimFiles env st dir (removedZims env st dir)).knownZimsInDir
        dir).lookup a = some info := by
    refine handleDisappearedZimFiles_induction env dir
      (fun s => getBookByPath s.library (bookPathOf dir a) = .ok book ∧
        (s.knownZimsInDir dir).lookup a = some info) _ ?_ st ⟨hbook, hlook⟩
    intro s f _ hs
    rcases handleDisappearedZimFile_cases env dir s f with
      ⟨_, _, _, e1⟩ | ⟨z, hz, hzt, e2⟩ | ⟨he, e3⟩
    · rw [e1]; exact hs
    · have hfa : a ≠ f := by
        rintro rfl
        rw [hs.1] at hz
        cases hz
        exact hzt hopen
      have hid : book.id ≠ z.id := fun h => hzt (h ▸ hopen)
      rw [e2]
      exact ⟨getBookByPath_removeBook hs.1 hid, by simpa [AList.lookup_erase_ne hfa] using hs.2⟩
    · have hfa : a ≠ f := by
        rintro rfl
        rw [hs.1] at he
        cases he
      rw [e3]
      exact ⟨hs.1, by simpa [AList.lookup_erase_ne hfa] using hs.2⟩
  -- the loop over the new files
  have h2 := handleNewZimFiles_induction env dir
    (fun s => (∃ b ∈ s.library, b.id = book.id) ∧
      (book ∈ s.library ∨
        ∃ f ∈ env.entryList dir, ∃ b, env.readBookFromPath (bookPathOf dir f) = some b ∧
          b.id = book.id) ∧
      (s.knownZimsInDir dir).lookup a = some info) (zimsNotInLib env st dir)
    (by
      intro s f hf hs
      have hfl : f ∈ env.entryList dir := (mem_zimsNotInLib.1 hf).1
      have hfa : a ≠ f := fun h => hgone (h ▸ hfl)
      refine ⟨?_, ?_, ?_⟩
      · rcases handleZimFileInMonitoredDir_library env s dir f with e | e
        · rw [e]; exact hs.1
        · rw [e]
          unfold addBookFromPath
          cases hr : env.readBookFromPath (bookPathOf dir f) with
          | none => exact hs.1
          | some b0 =>
            obtain ⟨b, hb, hbid⟩ := hs.1
            by_cases hid : b0.id = book.id
            · exact ⟨_, mem_addOrUpdateBook.2 (Or.inl rfl), hid⟩
            · exact ⟨b, mem_addOrUpdateBook.2 (Or.inr ⟨hb, by
                simpa [hbid] using fun h => hid h.symm⟩), hbid⟩
      · rcases hs.2.1 with hin | hex
        · rcases handleZimFileInMonitoredDir_library env s dir f with e | e
          · rw [e]; exact Or.inl hin
          · rw [e]
            unfold addBookFromPath
            cases hr : env.readBookFromPath (bookPathOf dir f) with
            | none => exact Or.inl hin
            | some b0 =>
              by_cases hid : b0.id = book.id
              · exact Or.inr ⟨f, hfl, b0, hr, hid⟩
              · exact Or.inl (mem_addOrUpdateBook.2 (Or.inr ⟨hin, by
                  simpa using fun h => hid h.symm⟩))
        · exact Or.inr hex
      · rw [handleZimFileInMonitoredDir_lookup_ne env s dir f a hfa]
        exact hs.2.2)
    (handleDisappearedZimFiles env st dir (removedZims env st dir))
    ⟨⟨book, (getBookByPath_ok h1.1).1, rfl⟩, Or.inl (getBookByPath_ok h1.1).1, h1.2⟩
  have hlib : (updateLibraryFromDir env st dir).library =
      (handleNewZimFiles env (handleDisappearedZimFiles env st dir (removedZims env st dir))
        dir (zimsNotInLib env st dir)).2.library := by
    unfold updateLibraryFromDir
    simp only
    split_ifs <;> rfl
  have hknown : (updateLibraryFromDir env st dir).knownZimsInDir =
      (handleNewZimFiles env (handleDisappearedZimFiles env st dir (removedZims env st dir))
        dir (zimsNotInLib env st dir)).2.knownZimsInDir := by
    unfold updateLibraryFromDir
    simp only
    split_ifs <;> rfl
  refine ⟨hlib ▸ h2.1, ?_, ?_, ?_⟩
  · rw [hlib]; exact h2.2.1
  · rw [hknown]; exact h2.2.2
  · refine mem_removedZims.2 ⟨mem_getLibraryZims.2 ⟨info, ?_, hadded⟩, hgone⟩
    rw [hknown]; exact h2.2.2

/-- Witness of C10: the book `A` of `addedFileState` is open in a tab when its
file has disappeared; it stays in the library and the watch entry stays. -/
theorem updateLibraryFromDir_keeps_open_book_witness :
    (updateLibraryFromDir deletedFileOpenInTabEnv addedFileState "d").library =
      addedFileState.library ∧
    ((updateLibraryFromDir deletedFileOpenInTabEnv addedFileState "d").knownZimsInDir
      "d").lookup "a.zim" =
      some { status := .ADDED_TO_THE_LIBRARY, lastModified := some 5000 } ∧
    "a.zim" ∈ removedZims deletedFileOpenInTabEnv
      (updateLibraryFromDir deletedFileOpenInTabEnv addedFileState "d") "d" :=
  have h := updateLibraryFromDir_keeps_open_book deletedFileOpenInTabEnv addedFileState "d"
    "a.zim" { status := .ADDED_TO_THE_LIBRARY, lastModified := some 5000 }
    { id := "A", title := "Book A", path := "d/a.zim", pathValid := true }
    (by decide) (by decide) (by decide) (by decide) (by decide)
  ⟨by decide, h.2.2.1, h.2.2.2⟩

/-- The loop over the disappeared files has no effect on the outside. -/
theorem handleDisappearedZimFiles_log (env : Env) (st : State) (dir : String)
    (files : List String) :
    (handleDisappearedZimFiles env st dir files).log = st.log := by
  refine handleDisappearedZimFiles_induction env dir (fun s => s.log = st.log) files ?_ st rfl
  intro s f _ hs
  rcases handleDisappearedZimFile_cases env dir s f with
    ⟨_, _, _, e1⟩ | ⟨_, _, _, e2⟩ | ⟨_, e3⟩
  · rw [e1]; exact hs
  · rw [e2]; exact hs
  · rw [e3]; exact hs

/-- The only effects of the loop over the new files are timers for deferred
rechecks of files of this directory. -/
theorem handleNewZimFiles_log (env : Env) (st : State) (dir : String) (files : List String) :
    ∃ timers : List Effect, (handleNewZimFiles env st dir files).2.log = st.log ++ timers ∧
      ∀ e ∈ timers, ∃ f, e = .singleShot 1000 dir f := by
  refine handleNewZimFiles_induction env dir
    (fun s => ∃ timers : List Effect, s.log = st.log ++ timers ∧
      ∀ e ∈ timers, ∃ f, e = .singleShot 1000 dir f) files ?_ st ⟨[], by simp, by simp⟩
  rintro s f _ ⟨timers, hlog, htimers⟩
  rcases handleZimFileInMonitoredDir_cases env s dir f with h1 | h2 | h3
  · rw [h1.2.2]; exact ⟨timers, hlog, htimers⟩
  · rw [h2]
    refine ⟨timers ++ [.singleShot 1000 dir f], by simp [hlog], ?_⟩
    intro e he
    rcases List.mem_append.1 he with h | h
    · exact htimers e h
    · exact ⟨f, by simpa using h⟩
  · rw [h3.2.2]; exact ⟨timers, hlog, htimers⟩

/-- Removing a book keeps the ids of the library distinct. -/
theorem removeBookFromLibraryById_nodup {lib : BookList} (id : String)
    (h : KeyedById lib) : KeyedById (removeBookFromLibraryById lib id) :=
  ((List.filter_sublist lib).map Book.id).nodup h

/-- The state after `updateLibraryFromDir` is the state after the two loops, up
to the log. -/
theorem updateLibraryFromDir_library (env : Env) (st : State) (dir : String) :
    (updateLibraryFromDir env st dir).library =
      (handleNewZimFiles env (handleDisappearedZimFiles env st dir (removedZims env st dir))
        dir (zimsNotInLib env st dir)).2.library := by
  unfold updateLibraryFromDir
  simp only
  split_ifs <;> rfl

/-- The watch state after `updateLibraryFromDir` is the watch state after the two
loops. -/
theorem updateLibraryFromDir_known (env : Env) (st : State) (dir : String) :
    (updateLibraryFromDir env st dir).knownZimsInDir =
      (handleNewZimFiles env (handleDisappearedZimFiles env st dir (removedZims env st dir))
        dir (zimsNotInLib env st dir)).2.knownZimsInDir := by
  unfold updateLibraryFromDir
  simp only
  split_ifs <;> rfl

/-- Adding or updating a book keeps the ids of the library distinct. -/
theorem addOrUpdateBook_nodup {lib : BookList} (book : Book)
    (h : KeyedById lib) : KeyedById (addOrUpdateBook lib book) := by
  unfold KeyedById at h ⊢
  unfold addOrUpdateBook
  by_cases hany : lib.any (fun c => c.id == book.id) = true
  · rw [if_pos hany]
    have hmap : (lib.map (fun b => if b.id == book.id then book else b)).map Book.id =
        lib.map Book.id := by
      rw [List.map_map]
      apply List.map_congr_left
      intro b _
      by_cases hb : (b.id == book.id) = true
      · simp only [Function.comp, if_pos hb]
        exact (by simpa using hb : b.id = book.id).symm
      · simp only [Function.comp, if_neg hb]
    rw [hmap]
    exact h
  · rw [if_neg hany, List.map_append]
    have hnone : book.id ∉ lib.map Book.id := by
      intro hin
      obtain ⟨c, hc, hcid⟩ := List.mem_map.1 hin
      exact hany (List.any_eq_true.2 ⟨c, hc, by simpa using hcid⟩)
    refine List.Nodup.append h (by simp) ?_
    intro x hx hx2
    have : x = book.id := by simpa using hx2
    exact hnone (this ▸ hx)

/-- A reconciliation pass keeps the ids of the Local Catalog distinct: the
catalog stays keyed by id. -/
theorem updateLibraryFromDir_keyed (env : Env) (st : State) (dir : String)
    (h : KeyedById st.library) :
    KeyedById (updateLibraryFromDir env st dir).library := by
  rw [updateLibraryFromDir_library]
  refine handleNewZimFiles_induction env dir (fun s => KeyedById s.library) _ ?_ _ ?_
  · intro s f _ hs
    rcases handleZimFileInMonitoredDir_library env s dir f with e | e
    · rw [e]; exact hs
    · rw [e]
      unfold addBookFromPath
      cases env.readBookFromPath (bookPathOf dir f) with
      | none => exact hs
      | some b0 => exact addOrUpdateBook_nodup _ hs
  · refine handleDisappearedZimFiles_induction env dir
      (fun s => KeyedById s.library) _ ?_ st h
    intro s f _ hs
    rcases handleDisappearedZimFile_cases env dir s f with
      ⟨_, _, _, e1⟩ | ⟨z, _, _, e2⟩ | ⟨_, e3⟩
    · rw [e1]; exact hs
    · rw [e2]; exact removeBookFromLibraryById_nodup z.id hs
    · rw [e3]; exact hs

/-- Once the disappeared book is out of the library and its watch entry is
dropped, the rest of the loop over the disappeared files keeps it so. -/
theorem handleDisappearedZimFiles_after (env : Env) (dir a id : String) (files : List String)
    (st : State)
    (h : (∀ b ∈ st.library, b.id ≠ id) ∧ (st.knownZimsInDir dir).lookup a = none) :
    (∀ b ∈ (handleDisappearedZimFiles env st dir files).library, b.id ≠ id) ∧
    ((handleDisappearedZimFiles env st dir files).knownZimsInDir dir).lookup a = none := by
  refine handleDisappearedZimFiles_induction env dir
    (fun s => (∀ b ∈ s.library, b.id ≠ id) ∧ (s.knownZimsInDir dir).lookup a = none)
    files ?_ st h
  intro s f _ hs
  have herase : ((s.knownZimsInDir dir).erase f).lookup a = none := by
    by_cases hfa : a = f
    · rw [hfa]; exact AList.lookup_erase f _
    · rw [AList.lookup_erase_ne hfa]; exact hs.2
  rcases handleDisappearedZimFile_cases env dir s f with
    ⟨_, _, _, e1⟩ | ⟨z, _, _, e2⟩ | ⟨_, e3⟩
  · rw [e1]; exact hs
  · rw [e2]
    refine ⟨?_, by simpa using herase⟩
    intro b hb
    exact hs.1 b (mem_removeBookFromLibraryById.1 hb).1
  · rw [e3]
    exact ⟨hs.1, by simpa using herase⟩

/-- The loop over the disappeared files removes a book that is not open in a tab
when it reaches the file of the book, and drops the watch entry of the file. -/
theorem handleDisappearedZimFiles_removes (env : Env) (dir a : String) (book : Book)
    (hclosed : book.id ∉ env.tabZimIds) (files : List String) :
    ∀ st : State, KeyedById st.library →
      getBookByPath st.library (bookPathOf dir a) = .ok book → a ∈ files →
      (∀ b ∈ (handleDisappearedZimFiles env st dir files).library, b.id ≠ book.id) ∧
      ((handleDisappearedZimFiles env st dir files).knownZimsInDir dir).lookup a = none := by
  induction files with
  | nil => intro st _ _ ha; simp at ha
  | cons f files ih =>
    intro st hnd hbook ha
    have hfold : handleDisappearedZimFiles env st dir (f :: files) =
        handleDisappearedZimFiles env (handleDisappearedZimFile env dir st f) dir files := rfl
    rw [hfold]
    by_cases hfa : f = a
    · subst hfa
      apply handleDisappearedZimFiles_after
      rcases handleDisappearedZimFile_cases env dir st f with
        ⟨z, hz, hzt, _⟩ | ⟨z, hz, _, e2⟩ | ⟨he, _⟩
      · rw [hbook] at hz
        cases hz
        exact absurd hzt hclosed
      · rw [hbook] at hz
        cases hz
        rw [e2]
        refine ⟨?_, by simp⟩
        intro b hb
        exact (mem_removeBookFromLibraryById.1 hb).2
      · rw [hbook] at he
        cases he
    · have ha2 : a ∈ files := by
        rcases List.mem_cons.1 ha with h | h
        · exact absurd h.symm hfa
        · exact h
      rcases handleDisappearedZimFile_cases env dir st f with
        ⟨_, _, _, e1⟩ | ⟨z, hz, _, e2⟩ | ⟨_, e3⟩
      · rw [e1]; exact ih st hnd hbook ha2
      · rw [e2]
        have hzb : z ≠ book := by
          intro h
          have hp := (getBookByPath_ok hz).2
          rw [h, (getBookByPath_ok hbook).2] at hp
          exact hfa (bookPathOf_injective dir a f hp).symm
        have hid : book.id ≠ z.id := by
          intro h
          exact hzb (List.inj_on_of_nodup_map hnd (getBookByPath_ok hz).1
            (getBookByPath_ok hbook).1 h.symm)
        exact ih _ (removeBookFromLibraryById_nodup z.id hnd)
          (getBookByPath_removeBook hbook hid) ha2
      · rw [e3]; exact ih _ hnd hbook ha2

/-- The lookup by id fails exactly when no record of the library has the id. -/
theorem getBookById_error_iff (lib : BookList) (id : String) :
    getBookById lib id = .error .out_of_range ↔ ∀ b ∈ lib, b.id ≠ id := by
  unfold getBookById
  constructor
  · intro h b hb hid
    cases hf : lib.find? (fun b => b.id == id) with
    | some c => rw [hf] at h; cases h
    | none =>
      have := List.find?_eq_none.1 hf b hb
      simp [hid] at this
  · intro h
    have hf : lib.find? (fun b => b.id == id) = none := by
      rw [List.find?_eq_none]
      intro b hb
      simpa using h b hb
    rw [hf]

/-- C9, as stated, fails: the file `a.zim` of the book `A` of `addedFileState` has
been renamed to `a2.zim`. The watch entry of `a.zim` says `ADDED_TO_THE_LIBRARY`,
the file is no longer in the listing, its book is in the Local Catalog and not
open in a tab; the pass removes the record and ingests `a2.zim`, which carries
the same id, so the book `A` is in the Local Catalog after the pass. -/
theorem renamed_file_keeps_book_in_catalog :
    KeyedById addedFileState.library ∧
    (addedFileState.knownZimsInDir "d").lookup "a.zim" =
      some { status := .ADDED_TO_THE_LIBRARY, lastModified := some 5000 } ∧
    "a.zim" ∉ renamedFileEnv.entryList "d" ∧
    getBookByPath addedFileState.library (bookPathOf "d" "a.zim") =
      .ok { id := "A", title := "Book A", path := "d/a.zim", pathValid := true } ∧
    "A" ∉ renamedFileEnv.tabZimIds ∧
    getBookById (updateLibraryFromDir renamedFileEnv addedFileState "d").library "A" =
      .ok { id := "A", title := "Book A", path := "d/a2.zim", pathValid := true } := by
  decide

/-- C9, amended: when a file whose watch entry says `ADDED_TO_THE_LIBRARY` is no
longer in the listing and its book is in the Local Catalog (keyed by id) and not
open in a tab, one run of `updateLibraryFromDir` removes the record of the book
from the Local Catalog, drops the watch entry of the file, and saves the library
and emits `booksChanged` exactly once, at the end of the pass. After the pass the
Local Catalog has a book with the id of the removed one only if a file of the
listing carries this id (such as the renamed file, which the same pass ingests),
and that book is then located at such a file; when no file of the listing
carries the id, the lookup of the id in the Local Catalog fails. -/
theorem updateLibraryFromDir_removes_closed_book (env : Env) (st : State) (dir a : String)
    (info : MonitoredZimFileInfo) (book : Book)
    (hkeyed : KeyedById st.library)
    (hlook : (st.knownZimsInDir dir).lookup a = some info)
    (hadded : info.status = .ADDED_TO_THE_LIBRARY)
    (hgone : a ∉ env.entryList dir)
    (hbook : getBookByPath st.library (bookPathOf dir a) = .ok book)
    (hclosed : book.id ∉ env.tabZimIds) :
    book ∉ (updateLibraryFromDir env st dir).library ∧
    (∀ b ∈ (updateLibraryFromDir env st dir).library, b.id = book.id →
      ∃ f ∈ env.entryList dir, ∃ b0, env.readBookFromPath (bookPathOf dir f) = some b0 ∧
        b0.id = book.id ∧ b.path = bookPathOf dir f) ∧
    ((∀ f ∈ env.entryList dir, ∀ b0, env.readBookFromPath (bookPathOf dir f) = some b0 →
        b0.id ≠ book.id) →
      getBookById (updateLibraryFromDir env st dir).library book.id = .error .out_of_range) ∧
    ((updateLibraryFromDir env st dir).knownZimsInDir dir).lookup a = none ∧
    (∃ timers : List Effect,
      (updateLibraryFromDir env st dir).log =
        st.log ++ timers ++ [.librarySaved, .booksChanged] ∧
      ∀ e ∈ timers, ∃ f, e = .singleShot 1000 dir f) := by
  have hrem : a ∈ removedZims env st dir :=
    mem_removedZims.2 ⟨mem_getLibraryZims.2 ⟨info, hlook, hadded⟩, hgone⟩
  have h1 := handleDisappearedZimFiles_removes env dir a book hclosed (removedZims env st dir)
    st hkeyed hbook hrem
  have h2 := handleNewZimFiles_induction env dir
    (fun s => (∀ b ∈ s.library, b.id = book.id →
        ∃ f ∈ env.entryList dir, ∃ b0, env.readBookFromPath (bookPathOf dir f) = some b0 ∧
          b0.id = book.id ∧ b.path = bookPathOf dir f) ∧
      (s.knownZimsInDir dir).lookup a = none) (zimsNotInLib env st dir)
    (by
      intro s f hf hs
      have hfl : f ∈ env.entryList dir := (mem_zimsNotInLib.1 hf).1
      have hfa : a ≠ f := fun h => hgone (h ▸ hfl)
      refine ⟨?_, ?_⟩
      · rcases handleZimFileInMonitoredDir_library env s dir f with e | e
        · rw [e]; exact hs.1
        · rw [e]
          unfold addBookFromPath
          cases hr : env.readBookFromPath (bookPathOf dir f) with
          | none => exact hs.1
          | some b0 =>
            intro b hb hbid
            rcases mem_addOrUpdateBook.1 hb with rfl | ⟨hb2, _⟩
            · exact ⟨f, hfl, b0, hr, hbid, rfl⟩
            · exact hs.1 b hb2 hbid
      · rw [handleZimFileInMonitoredDir_lookup_ne env s dir f a hfa]
        exact hs.2)
    (handleDisappearedZimFiles env st dir (removedZims env st dir))
    ⟨fun b hb hbid => absurd hbid (h1.1 b hb), h1.2⟩
  have hall : ∀ b ∈ (updateLibraryFromDir env st dir).library, b.id = book.id →
      ∃ f ∈ env.entryList dir, ∃ b0, env.readBookFromPath (bookPathOf dir f) = some b0 ∧
        b0.id = book.id ∧ b.path = bookPathOf dir f := by
    rw [updateLibraryFromDir_library]; exact h2.1
  refine ⟨?_, hall, ?_, ?_, ?_⟩
  · intro hin
    obtain ⟨f, hfl, _, _, _, hpath⟩ := hall book hin rfl
    rw [(getBookByPath_ok hbook).2] at hpath
    exact hgone (bookPathOf_injective dir a f hpath ▸ hfl)
  · intro hnone
    refine (getBookById_error_iff _ _).2 (fun b hb hbid => ?_)
    obtain ⟨f, hfl, b0, hr, hid, _⟩ := hall b hb hbid
    exact hnone f hfl b0 hr hid
  · rw [updateLibraryFromDir_known]; exact h2.2
  · obtain ⟨timers, hlog, htimers⟩ := handleNewZimFiles_log env
      (handleDisappearedZimFiles env st dir (removedZims env st dir)) dir
      (zimsNotInLib env st dir)
    rw [handleDisappearedZimFiles_log] at hlog
    refine ⟨timers, ?_, htimers⟩
    have hne : (removedZims env st dir).isEmpty = false := by
      cases hr : removedZims env st dir with
      | nil => rw [hr] at hrem; simp at hrem
      | cons x xs => rfl
    unfold updateLibraryFromDir
    simp [hne, hlog]

/-- Witness of the amended C9: the file of book `A` of `addedFileState` has
disappeared and no tab shows the book; with the empty directory of
`deletedFileEnv` the pass empties the library, the lookup of `A` fails, the watch
entry is dropped, and the pass saves and notifies once. -/
theorem updateLibraryFromDir_removes_closed_book_witness :
    (updateLibraryFromDir deletedFileEnv addedFileState "d").library = [] ∧
    getBookById (updateLibraryFromDir deletedFileEnv addedFileState "d").library "A" =
      .error .out_of_range ∧
    ((updateLibraryFromDir deletedFileEnv addedFileState "d").knownZimsInDir "d").lookup
      "a.zim" = none ∧
    (updateLibraryFromDir deletedFileEnv addedFileState "d").log =
      [.librarySaved, .booksChanged] :=
  have h := updateLibraryFromDir_removes_closed_book deletedFileEnv addedFileState "d"
    "a.zim" { status := .ADDED_TO_THE_LIBRARY, lastModified := some 5000 }
    { id := "A", title := "Book A", path := "d/a.zim", pathValid := true }
    (by decide) (by decide) (by decide) (by decide) (by decide) (by decide)
  ⟨by decide, h.2.2.1 (fun f hf => absurd hf (List.not_mem_nil f)), h.2.2.2.1, by decide⟩

/-! ## Idempotence of a reconciliation pass -/

/-- C8, as stated, fails, in two ways.

In `downloadInProgressState` the file `x.zim` is being downloaded by us and the
directory also holds a copy of the same archive; the set of the new files is
iterated in the order `x.zim`, `copy.zim`. The first pass skips `x.zim` and
ingests the copy, which replaces the placeholder of the book, a record that is
owned by a download; the second pass, with the same listing, modification times,
tabs and ledger, no longer finds `x.zim` owned by a download and ingests it: its
count of added files is 1 and the Local Catalog changes.

In `twoBooksAtOnePathState` the file `a.zim` has disappeared; two records are
located at it, and the first pass keeps the file because the first of them, the
book `X`, is open in a tab. The same pass ingests `g.zim`, which replaces the
record of `X`; the second pass then finds the book `Z` at `a.zim`, which is open
in no tab, and removes it. -/
theorem second_pass_changes_catalog :
    ((updateLibraryFromDir copyOfDownloadEnv downloadInProgressState "d").downloads =
      downloadInProgressState.downloads ∧
    (updateLibraryFromDir copyOfDownloadEnv downloadInProgressState "d").library =
      [{ id := "X", title := "Book X", path := "d/copy.zim", pathValid := true }] ∧
    countOfAddedZims copyOfDownloadEnv
      (updateLibraryFromDir copyOfDownloadEnv downloadInProgressState "d") "d" = 1 ∧
    (updateLibraryFromDir copyOfDownloadEnv
      (updateLibraryFromDir copyOfDownloadEnv downloadInProgressState "d") "d").library =
      [{ id := "X", title := "Book X", path := "d/x.zim", pathValid := true }] ∧
    ¬ ((updateLibraryFromDir copyOfDownloadEnv
        (updateLibraryFromDir copyOfDownloadEnv downloadInProgressState "d") "d").library =
      (updateLibraryFromDir copyOfDownloadEnv downloadInProgressState "d").library ∧
      countOfAddedZims copyOfDownloadEnv
        (updateLibraryFromDir copyOfDownloadEnv downloadInProgressState "d") "d" = 0)) ∧
    ((updateLibraryFromDir movedOpenBookEnv twoBooksAtOnePathState "d").library =
      [{ id := "X", title := "Book X", path := "d/g.zim", pathValid := true },
       { id := "Z", title := "Book Z", path := "d/a.zim", pathValid := true }] ∧
    (updateLibraryFromDir movedOpenBookEnv
      (updateLibraryFromDir movedOpenBookEnv twoBooksAtOnePathState "d") "d").library =
      [{ id := "X", title := "Book X", path := "d/g.zim", pathValid := true }] ∧
    ¬ (updateLibraryFromDir movedOpenBookEnv
        (updateLibraryFromDir movedOpenBookEnv twoBooksAtOnePathState "d") "d").library =
      (updateLibraryFromDir movedOpenBookEnv twoBooksAtOnePathState "d").library) := by
  decide

/-- Adding or updating a book does not change what a lookup by another path
finds, as long as the records that it replaces are not at that path. -/
theorem getBookByPath_addOrUpdateBook (lib : BookList) (book : Book) (path : String)
    (hp : book.path ≠ path) (hrep : ∀ b ∈ lib, b.id = book.id → b.path ≠ path) :
    getBookByPath (addOrUpdateBook lib book) path = getBookByPath lib path := by
  have hmap : ∀ l : BookList, (∀ b ∈ l, b.id = book.id → b.path ≠ path) →
      (l.map (fun b => if b.id == book.id then book else b)).find? (fun b => b.path == path) =
        l.find? (fun b => b.path == path) := by
    intro l
    induction l with
    | nil => intro _; rfl
    | cons c l ih =>
      intro h
      have ih2 := ih (fun b hb => h b (List.mem_cons_of_mem _ hb))
      rw [List.map_cons, List.find?_cons, List.find?_cons, ih2]
      by_cases hc : (c.id == book.id) = true
      · have hcp : c.path ≠ path := h c (List.mem_cons_self _ _) (by simpa using hc)
        have e2 : (book.path == path) = false := by simpa using hp
        have e3 : (c.path == path) = false := by simpa using hcp
        rw [if_pos hc, e2, e3]
      · rw [if_neg hc]
  unfold addOrUpdateBook getBookByPath
  split_ifs
  · rw [hmap lib hrep]
  · rw [List.find?_append]
    have : List.find? (fun b => b.path == path) [book] = none := by simp [hp]
    rw [this]
    cases lib.find? (fun b => b.path == path) <;> rfl

/-- What a lookup by path finds after a removal was found before the removal, when
the book found before is not the one that is removed. -/
theorem keepsBookOf_removeBook (env : Env) (dir : String) (st : State) (a id : String)
    (z : ZimsInDir) (h : KeepsBookOf env dir st a) (hid : id ∉ env.tabZimIds) :
    KeepsBookOf env dir
      ({ st with library := removeBookFromLibraryById st.library id }.setZimsInDir dir z) a := by
  intro book hbook
  cases hb : getBookByPath st.library (bookPathOf dir a) with
  | ok x =>
    have hx := h x hb
    have hne : x.id ≠ id := fun e => hid (e ▸ hx)
    have h2 := getBookByPath_removeBook hb hne
    simp only [setZimsInDir_library] at hbook
    rw [h2] at hbook
    cases hbook
    exact hx
  | error e =>
    have hnone := getBookByPath_error.1 hb
    have hb2 := getBookByPath_ok hbook
    simp only [setZimsInDir_library] at hb2
    exact absurd hb2.2 (hnone book (mem_removeBookFromLibraryById.1 hb2.1).1)

/-- The files of the library after a disappeared file has been handled were in the
library before. -/
theorem getLibraryZims_handleDisappearedZimFile (env : Env) (dir : String) (st : State)
    (f a : String) (h : a ∈ getLibraryZims (handleDisappearedZimFile env dir st f) dir) :
    a ∈ getLibraryZims st dir := by
  by_cases hfa : a = f
  · subst hfa
    rcases handleDisappearedZimFile_cases env dir st a with
      ⟨_, _, _, e1⟩ | ⟨_, _, _, e2⟩ | ⟨_, e3⟩
    · rwa [e1] at h
    · rw [e2] at h
      obtain ⟨info, hl, _⟩ := mem_getLibraryZims.1 h
      simp [AList.lookup_erase] at hl
    · rw [e3] at h
      obtain ⟨info, hl, _⟩ := mem_getLibraryZims.1 h
      simp [AList.lookup_erase] at hl
  · obtain ⟨info, hl, hs⟩ := mem_getLibraryZims.1 h
    rw [handleDisappearedZimFile_lookup_ne env st dir f a hfa] at hl
    exact mem_getLibraryZims.2 ⟨info, hl, hs⟩

/-- After the loop over the disappeared files, the book of every disappeared file
that is still in the library (according to the watch state) is open in a tab. -/
theorem handleDisappearedZimFiles_keeps (env : Env) (dir : String) (files : List String) :
    ∀ st : State,
      (∀ a ∈ getLibraryZims st dir, a ∉ env.entryList dir →
        a ∈ files ∨ KeepsBookOf env dir st a) →
      ∀ a ∈ getLibraryZims (handleDisappearedZimFiles env st dir files) dir,
        a ∉ env.entryList dir →
        KeepsBookOf env dir (handleDisappearedZimFiles env st dir files) a := by
  induction files with
  | nil =>
    intro st h a ha hgone
    rcases h a ha hgone with h1 | h1
    · simp at h1
    · exact h1
  | cons f files ih =>
    intro st h
    have hfold : handleDisappearedZimFiles env st dir (f :: files) =
        handleDisappearedZimFiles env (handleDisappearedZimFile env dir st f) dir files := rfl
    rw [hfold]
    apply ih
    intro a ha hgone
    have ha0 := getLibraryZims_handleDisappearedZimFile env dir st f a ha
    rcases handleDisappearedZimFile_cases env dir st f with
      ⟨x, hx, hxt, e1⟩ | ⟨z, hz, hzt, e2⟩ | ⟨he, e3⟩
    · rw [e1]
      by_cases hfa : a = f
      · subst hfa
        right
        intro book hbook
        rw [hx] at hbook
        cases hbook
        exact hxt
      · rcases h a ha0 hgone with h1 | h1
        · rcases List.mem_cons.1 h1 with h2 | h2
          · exact absurd h2 hfa
          · exact Or.inl h2
        · exact Or.inr h1
    · have hfa : a ≠ f := by
        rintro rfl
        rw [e2] at ha
        obtain ⟨info, hl, _⟩ := mem_getLibraryZims.1 ha
        simp [AList.lookup_erase] at hl
      rw [e2]
      rcases h a ha0 hgone with h1 | h1
      · rcases List.mem_cons.1 h1 with h2 | h2
        · exact absurd h2 hfa
        · exact Or.inl h2
      · exact Or.inr (keepsBookOf_removeBook env dir st a z.id _ h1 hzt)
    · have hfa : a ≠ f := by
        rintro rfl
        rw [e3] at ha
        obtain ⟨info, hl, _⟩ := mem_getLibraryZims.1 ha
        simp [AList.lookup_erase] at hl
      rw [e3]
      rcases h a ha0 hgone with h1 | h1
      · rcases List.mem_cons.1 h1 with h2 | h2
        · exact absurd h2 hfa
        · exact Or.inl h2
      · exact Or.inr h1

/-- The state that the loop over the new files leaves is the state that the loop
over the rest of the files leaves after the first file has been handled. -/
theorem handleNewZimFiles_cons (env : Env) (st : State) (dir f : String)
    (files : List String) :
    (handleNewZimFiles env st dir (f :: files)).2 =
      (handleNewZimFiles env (handleZimFileInMonitoredDir env st dir f).2 dir files).2 := by
  have key : ∀ (l : List String) (acc acc2 : Nat × State), acc.2 = acc2.2 →
      (l.foldl (fun acc file =>
        let handled := handleZimFileInMonitoredDirLogged env acc.2 dir file
        (acc.1 + (if handled.1 then 1 else 0), handled.2)) acc).2 =
      (l.foldl (fun acc file =>
        let handled := handleZimFileInMonitoredDirLogged env acc.2 dir file
        (acc.1 + (if handled.1 then 1 else 0), handled.2)) acc2).2 := by
    intro l
    induction l with
    | nil => intro acc acc2 h; exact h
    | cons g l ih =>
      intro acc acc2 h
      rw [List.foldl_cons, List.foldl_cons]
      apply ih
      simp only [h]
  unfold handleNewZimFiles
  rw [List.foldl_cons]
  exact key files _ _ rfl

/-- Handling a file makes at most one ingestion attempt, of that file. -/
theorem handleZimFileInMonitoredDir_attempts (env : Env) (st : State) (dir f : String) :
    (handleZimFileInMonitoredDir env st dir f).2.ingestionAttempts = st.ingestionAttempts ∨
    (handleZimFileInMonitoredDir env st dir f).2.ingestionAttempts =
      st.ingestionAttempts ++ [(dir, f)] := by
  rcases handleZimFileInMonitoredDir_cases env st dir f with h1 | h2 | h3
  · left
    rw [h1.2.2]
  · left
    rw [h2]
    rfl
  · right
    rw [h3.2.2]
    rfl

/-- The loop over the disappeared files makes no ingestion attempt. -/
theorem handleDisappearedZimFiles_attempts (env : Env) (st : State) (dir : String)
    (files : List String) :
    (handleDisappearedZimFiles env st dir files).ingestionAttempts = st.ingestionAttempts := by
  refine handleDisappearedZimFiles_induction env dir
    (fun s => s.ingestionAttempts = st.ingestionAttempts) files ?_ st rfl
  intro s f _ hs
  rcases handleDisappearedZimFile_cases env dir s f with
    ⟨_, _, _, e1⟩ | ⟨_, _, _, e2⟩ | ⟨_, e3⟩
  · rw [e1]
    exact hs
  · rw [e2]
    exact hs
  · rw [e3]
    exact hs

/-- The ingestion attempts of a pass are those of its loop over the new files. -/
theorem updateLibraryFromDir_attempts_eq (env : Env) (st : State) (dir : String) :
    (updateLibraryFromDir env st dir).ingestionAttempts =
      (handleNewZimFiles env (handleDisappearedZimFiles env st dir (removedZims env st dir))
        dir (zimsNotInLib env st dir)).2.ingestionAttempts := by
  unfold updateLibraryFromDir
  simp only
  split_ifs <;> rfl

/-- The loop over the new files of a directory attempts ingestion of files of
that directory and of that list only. -/
theorem handleNewZimFiles_attempts (env : Env) (dir : String) (files : List String) :
    ∀ st : State, ∃ calls,
      (handleNewZimFiles env st dir files).2.ingestionAttempts =
        st.ingestionAttempts ++ calls ∧
      ∀ c ∈ calls, c.1 = dir ∧ c.2 ∈ files := by
  induction files with
  | nil =>
    intro st
    exact ⟨[], (List.append_nil _).symm, fun c hc => absurd hc (List.not_mem_nil c)⟩
  | cons g files ih =>
    intro st
    rw [handleNewZimFiles_cons]
    obtain ⟨calls, hcalls, hmem⟩ := ih (handleZimFileInMonitoredDir env st dir g).2
    rcases handleZimFileInMonitoredDir_attempts env st dir g with h | h
    · refine ⟨calls, by rw [hcalls, h], fun c hc => ?_⟩
      exact ⟨(hmem c hc).1, List.mem_cons_of_mem _ (hmem c hc).2⟩
    · refine ⟨(dir, g) :: calls, by rw [hcalls, h, List.append_assoc]; rfl, fun c hc => ?_⟩
      rcases List.mem_cons.mp hc with rfl | hc
      · exact ⟨rfl, List.mem_cons_self _ _⟩
      · exact ⟨(hmem c hc).1, List.mem_cons_of_mem _ (hmem c hc).2⟩

/-- A file without watch entry that is not being downloaded is ingested. -/
theorem handleZimFileInMonitoredDir_no_entry (env : Env) (st : State) (dir f : String)
    (hd : isBeingDownloadedByUs st.library (bookPathOf dir f) = false)
    (hnone : (st.knownZimsInDir dir).lookup f = none) :
    handleZimFileInMonitoredDir env st dir f =
      ((if (env.readBookFromPath (bookPathOf dir f)).isSome
          then .ADDED_TO_THE_LIBRARY else .COULD_NOT_BE_ADDED_TO_THE_LIBRARY),
       { st with
         library := (addBookFromPath env st.library (bookPathOf dir f)).2
         ingestionAttempts := st.ingestionAttempts ++ [(dir, f)] }.setZimsInDir
          dir ((st.knownZimsInDir dir).insert f
            { status := (if (env.readBookFromPath (bookPathOf dir f)).isSome
                then .ADDED_TO_THE_LIBRARY else .COULD_NOT_BE_ADDED_TO_THE_LIBRARY),
              lastModified := env.lastModified (bookPathOf dir f) })) := by
  have hz : getMonitoredZimFileInfo env st dir f =
      { lastModified := env.lastModified (bookPathOf dir f) } := by
    simp [getMonitoredZimFileInfo, hnone]
  have hfst := addBookFromPath_fst env st.library (bookPathOf dir f)
  unfold handleZimFileInMonitoredDir
  simp only [hd, hz, Bool.false_eq_true, if_false]
  rw [← hfst]
  cases (addBookFromPath env st.library (bookPathOf dir f)).1 <;> simp

/-- The modification time of a file is within 1000 ms of now, or it is not. -/
theorem recent_or_stable (env : Env) (path : String) :
    (∃ t : Int, env.lastModified path = some t ∧ env.now - 1000 < t) ∨
    (∀ t : Int, env.lastModified path = some t → t ≤ env.now - 1000) := by
  cases hm : env.lastModified path with
  | none => right; intro t ht; cases ht
  | some t =>
    by_cases h : env.now - 1000 < t
    · exact Or.inl ⟨t, rfl, h⟩
    · right
      intro t2 ht2
      cases ht2
      omega

/-- A file whose watch entry records the current modification time is blocked. -/
theorem blocked_of_insert (env : Env) (st : State) (dir f : String) (lib : BookList)
    (z : ZimsInDir) (status : ZimFileStatus) :
    Blocked env dir ({ st with library := lib }.setZimsInDir dir (z.insert f
      { status := status, lastModified := env.lastModified (bookPathOf dir f) })) f := by
  right
  refine ⟨(⟨status, env.lastModified (bookPathOf dir f)⟩ : MonitoredZimFileInfo), ?_,
    Or.inl rfl⟩
  simp

/-- A file that has been handled is blocked: the next pass will not ingest it. -/
theorem handleZimFileInMonitoredDir_blocks (env : Env) (st : State) (dir f : String) :
    Blocked env dir (handleZimFileInMonitoredDir env st dir f).2 f := by
  by_cases hd : isBeingDownloadedByUs st.library (bookPathOf dir f) = true
  · have e : handleZimFileInMonitoredDir env st dir f = (.BEING_DOWNLOADED_BY_US, st) := by
      simp [handleZimFileInMonitoredDir, hd]
    rw [e]
    exact Or.inl hd
  · have hd2 : isBeingDownloadedByUs st.library (bookPathOf dir f) = false := by
      simpa using hd
    cases hl : (st.knownZimsInDir dir).lookup f with
    | none =>
      have e := handleZimFileInMonitoredDir_no_entry env st dir f hd2 hl
      rw [e]
      exact blocked_of_insert env st dir f _ _ _
    | some prevInfo =>
      by_cases hm : env.lastModified (bookPathOf dir f) = prevInfo.lastModified
      · rw [handleZimFileInMonitoredDir_unchanged env st dir f prevInfo hd2 hl hm]
        exact Or.inr ⟨prevInfo, hl, Or.inl hm⟩
      · by_cases hp : prevInfo.status = .PROCESS_LATER
        · rw [handleZimFileInMonitoredDir_pending env st dir f prevInfo hd2 hl hm hp]
          exact Or.inr ⟨prevInfo, hl, Or.inr hp⟩
        · rcases recent_or_stable env (bookPathOf dir f) with ⟨t, ht, hlt⟩ | hs
          · rw [handleZimFileInMonitoredDir_deferred env st dir f prevInfo t hd2 hl hm hp ht hlt]
            exact Or.inr ⟨_, defer_lookup_self st dir f, Or.inr rfl⟩
          · have e := handleZimFileInMonitoredDir_processed env st dir f prevInfo hd2 hl hm hp hs
            rw [e]
            exact blocked_of_insert env st dir f _ _ _

/-- Handling a file does not change whether another file is in the library
according to the watch state. -/
theorem mem_getLibraryZims_handleZimFileInMonitoredDir (env : Env) (st : State)
    (dir f g : String) (hne : g ≠ f) :
    g ∈ getLibraryZims (handleZimFileInMonitoredDir env st dir f).2 dir ↔
      g ∈ getLibraryZims st dir := by
  rw [mem_getLibraryZims, mem_getLibraryZims,
    handleZimFileInMonitoredDir_lookup_ne env st dir f g hne]

/-- A lookup by path that finds a record keeps finding it after a book with
another id, located at another path, has been added or updated. -/
theorem getBookByPath_addOrUpdateBook_of_ne (lib : BookList) (book found : Book)
    (path : String) (hp : book.path ≠ path) (h : getBookByPath lib path = .ok found)
    (hid : found.id ≠ book.id) :
    getBookByPath (addOrUpdateBook lib book) path = .ok found := by
  have hfind : lib.find? (fun b => b.path == path) = some found := by
    unfold getBookByPath at h
    cases hf : lib.find? (fun b => b.path == path) with
    | none => rw [hf] at h; cases h
    | some x => rw [hf] at h; cases h; rfl
  have e2 : (book.path == path) = false := by simpa using hp
  have hmap : ∀ l : BookList, l.find? (fun b => b.path == path) = some found →
      (l.map (fun b => if b.id == book.id then book else b)).find? (fun b => b.path == path) =
        some found := by
    intro l
    induction l with
    | nil => intro h; cases h
    | cons c l ih =>
      intro h
      rw [List.find?_cons] at h
      rw [List.map_cons, List.find?_cons]
      by_cases hc : (c.path == path) = true
      · rw [hc] at h
        have hcf : c = found := Option.some.inj h
        subst hcf
        have e : ¬ (c.id == book.id) = true := by simpa using hid
        rw [if_neg e, hc]
      · have hc2 : (c.path == path) = false := by simpa using hc
        rw [hc2] at h
        by_cases hcid : (c.id == book.id) = true
        · rw [if_pos hcid, e2]
          exact ih h
        · rw [if_neg hcid, hc2]
          exact ih h
  unfold addOrUpdateBook getBookByPath
  split_ifs
  · rw [hmap lib hfind]
  · rw [List.find?_append, hfind]
    rfl

/-- What handling a file does to the library: nothing, or it calls
`addBookFromPath` for a file that reads as a book, and the book is added or
replaces the records of its id. -/
theorem handleZimFileInMonitoredDir_ingests (env : Env) (st : State) (dir f : String) :
    (handleZimFileInMonitoredDir env st dir f).2.library = st.library ∨
    ∃ b0, env.readBookFromPath (bookPathOf dir f) = some b0 ∧
      (handleZimFileInMonitoredDir env st dir f).2.ingestionAttempts =
        st.ingestionAttempts ++ [(dir, f)] ∧
      (handleZimFileInMonitoredDir env st dir f).2.library =
        addOrUpdateBook st.library
          { b0 with path := bookPathOf dir f, pathValid := true, downloadId := "" } := by
  rcases handleZimFileInMonitoredDir_cases env st dir f with h1 | h2 | h3
  · left
    rw [h1.2.2]
  · left
    rw [h2]
    rfl
  · cases hr : env.readBookFromPath (bookPathOf dir f) with
    | none =>
      left
      rw [h3.2.2]
      simp [addBookFromPath, hr]
    | some b0 =>
      right
      refine ⟨b0, rfl, ?_, ?_⟩
      · rw [h3.2.2]
        rfl
      · rw [h3.2.2]
        simp [addBookFromPath, hr]

/-- Handling a file of the listing, when the records that an ingestion replaces
are not records of downloads into files of the listing and share the path of a
disappeared file only with books that are open in tabs: the records of the
library are still those of `lib0` or ingested ones, the book found at a
disappeared file is still open in a tab, and the other files of the listing that
are being downloaded by us still are. -/
theorem handleZimFileInMonitoredDir_keeps (env : Env) (st : State) (dir f : String)
    (lib0 : BookList) (gone : List String) (hf : f ∈ env.entryList dir)
    (hrec : RecordsFrom env dir lib0 st.library)
    (hrep : (handleZimFileInMonitoredDir env st dir f).2.ingestionAttempts =
        st.ingestionAttempts ++ [(dir, f)] →
      ∀ b0, env.readBookFromPath (bookPathOf dir f) = some b0 → ∀ b ∈ lib0, b.id = b0.id →
        (b.downloadId ≠ "" → ∀ g ∈ env.entryList dir, b.path ≠ bookPathOf dir g) ∧
        (b.id ∈ env.tabZimIds → ∀ a ∈ gone, b.path = bookPathOf dir a →
          ∀ c ∈ lib0, c.path = b.path → c.id ∈ env.tabZimIds)) :
    RecordsFrom env dir lib0 (handleZimFileInMonitoredDir env st dir f).2.library ∧
    (∀ a ∈ gone, a ∉ env.entryList dir → KeepsBookOf env dir st a →
      KeepsBookOf env dir (handleZimFileInMonitoredDir env st dir f).2 a) ∧
    (∀ g ∈ env.entryList dir, g ≠ f →
      isBeingDownloadedByUs st.library (bookPathOf dir g) = true →
      isBeingDownloadedByUs (handleZimFileInMonitoredDir env st dir f).2.library
        (bookPathOf dir g) = true) := by
  rcases handleZimFileInMonitoredDir_ingests env st dir f with e | ⟨b0, hr, hatt, e⟩
  · refine ⟨by rw [e]; exact hrec, ?_, ?_⟩
    · intro a _ _ hkeep book hbook
      rw [e] at hbook
      exact hkeep book hbook
    · intro g _ _ hd
      rw [e]
      exact hd
  · have hrep2 := hrep hatt b0 hr
    have hold : ∀ a, a ∉ env.entryList dir → ∀ b ∈ st.library, b.path = bookPathOf dir a →
        b ∈ lib0 := by
      intro a ha b hb hpath
      rcases hrec b hb with h | ⟨_, g, hg, hpg⟩
      · exact h
      · rw [hpath] at hpg
        exact absurd (bookPathOf_injective dir a g hpg ▸ hg) ha
    refine ⟨?_, ?_, ?_⟩
    · intro b hb
      rw [e] at hb
      rcases mem_addOrUpdateBook.1 hb with rfl | ⟨hb2, _⟩
      · exact Or.inr ⟨rfl, f, hf, rfl⟩
      · exact hrec b hb2
    · intro a hagone ha hkeep book hbook
      rw [e] at hbook
      have hfa : bookPathOf dir f ≠ bookPathOf dir a := fun h =>
        ha (bookPathOf_injective dir f a h ▸ hf)
      obtain ⟨hmem, hpath⟩ := getBookByPath_ok hbook
      rcases mem_addOrUpdateBook.1 hmem with rfl | ⟨hb2, hne⟩
      · exact absurd hpath hfa
      · cases hx : getBookByPath st.library (bookPathOf dir a) with
        | error err => exact absurd hpath (getBookByPath_error.1 hx book hb2)
        | ok x =>
          obtain ⟨hxmem, hxpath⟩ := getBookByPath_ok hx
          by_cases hxid : x.id = b0.id
          · exact (hrep2 x (hold a ha x hxmem hxpath) hxid).2 (hkeep x hx) a hagone hxpath
              book (hold a ha book hb2 hpath) (hpath.trans hxpath.symm)
          · rw [getBookByPath_addOrUpdateBook_of_ne st.library
              { b0 with path := bookPathOf dir f, pathValid := true, downloadId := "" }
              x (bookPathOf dir a) hfa hx hxid] at hbook
            rw [← Except.ok.inj hbook]
            exact hkeep x hx
    · intro g hg hgf hd
      have hfg : bookPathOf dir f ≠ bookPathOf dir g := fun h =>
        hgf (bookPathOf_injective dir f g h).symm
      unfold isBeingDownloadedByUs at hd ⊢
      cases hx : getBookByPath st.library (bookPathOf dir g) with
      | error err =>
        rw [hx] at hd
        cases hd
      | ok x =>
        rw [hx] at hd
        have hxd : x.downloadId ≠ "" := by simpa using hd
        obtain ⟨hxmem, hxpath⟩ := getBookByPath_ok hx
        have hx0 : x ∈ lib0 := by
          rcases hrec x hxmem with h | ⟨h, _⟩
          · exact h
          · exact absurd h hxd
        have hxid : x.id ≠ b0.id := fun h => (hrep2 x hx0 h).1 hxd g hg hxpath
        rw [e, getBookByPath_addOrUpdateBook_of_ne st.library
          { b0 with path := bookPathOf dir f, pathValid := true, downloadId := "" }
          x (bookPathOf dir g) hfg hx hxid]
        exact hd

/-- The loop over the new files settles the state, when the records that its
ingestions replace are not records of downloads into files of the listing and
share the path of a disappeared file only with books that are open in tabs:
afterwards every file of the listing that is not in the library is blocked, and
the books of the disappeared files that are still in the library are still open
in tabs. -/
theorem handleNewZimFiles_settles (env : Env) (dir : String) (lib0 : BookList)
    (gone : List String) (files : List String) :
    ∀ st : State, files.Nodup →
      (∀ f ∈ files, f ∈ env.entryList dir ∧ f ∉ getLibraryZims st dir) →
      RecordsFrom env dir lib0 st.library →
      (∀ calls, (handleNewZimFiles env st dir files).2.ingestionAttempts =
          st.ingestionAttempts ++ calls →
        ∀ c ∈ calls, ∀ b0, env.readBookFromPath (bookPathOf c.1 c.2) = some b0 →
          ∀ b ∈ lib0, b.id = b0.id →
            (b.downloadId ≠ "" → ∀ g ∈ env.entryList dir, b.path ≠ bookPathOf dir g) ∧
            (b.id ∈ env.tabZimIds → ∀ a ∈ gone, b.path = bookPathOf dir a →
              ∀ c2 ∈ lib0, c2.path = b.path → c2.id ∈ env.tabZimIds)) →
      (∀ a ∈ getLibraryZims st dir, a ∉ env.entryList dir →
        a ∈ gone ∧ KeepsBookOf env dir st a) →
      (∀ f ∈ env.entryList dir, f ∉ getLibraryZims st dir →
        f ∈ files ∨ Blocked env dir st f) →
      Settled env dir (handleNewZimFiles env st dir files).2 := by
  induction files with
  | nil =>
    intro st _ _ _ _ hkeep hblock
    refine ⟨fun a ha hgone => (hkeep a ha hgone).2, ?_⟩
    intro f hf hfn
    rcases hblock f hf hfn with h | h
    · simp at h
    · exact h
  | cons f files ih =>
    intro st hnd hfiles hrec hcalls hkeep hblock
    have hf := (hfiles f (List.mem_cons_self _ _)).1
    have hfr : f ∉ files := (List.nodup_cons.1 hnd).1
    obtain ⟨rest, hrest, _⟩ :=
      handleNewZimFiles_attempts env dir files (handleZimFileInMonitoredDir env st dir f).2
    have hstep := handleZimFileInMonitoredDir_keeps env st dir f lib0 gone hf hrec (by
      intro hatt
      refine hcalls ((dir, f) :: rest) ?_ (dir, f) (List.mem_cons_self _ _)
      rw [handleNewZimFiles_cons, hrest, hatt, List.append_assoc]
      rfl)
    have hcalls2 : ∀ calls,
        (handleNewZimFiles env (handleZimFileInMonitoredDir env st dir f).2 dir
          files).2.ingestionAttempts =
          (handleZimFileInMonitoredDir env st dir f).2.ingestionAttempts ++ calls →
        ∀ c ∈ calls, ∀ b0, env.readBookFromPath (bookPathOf c.1 c.2) = some b0 →
          ∀ b ∈ lib0, b.id = b0.id →
            (b.downloadId ≠ "" → ∀ g ∈ env.entryList dir, b.path ≠ bookPathOf dir g) ∧
            (b.id ∈ env.tabZimIds → ∀ a ∈ gone, b.path = bookPathOf dir a →
              ∀ c2 ∈ lib0, c2.path = b.path → c2.id ∈ env.tabZimIds) := by
      intro calls h2 c hc
      rcases handleZimFileInMonitoredDir_attempts env st dir f with h | h
      · exact hcalls calls (by rw [handleNewZimFiles_cons, h2, h]) c hc
      · exact hcalls ((dir, f) :: calls)
          (by rw [handleNewZimFiles_cons, h2, h, List.append_assoc]; rfl) c
          (List.mem_cons_of_mem _ hc)
    rw [handleNewZimFiles_cons]
    apply ih _ (List.nodup_cons.1 hnd).2
    · intro g hg
      have hgf : g ≠ f := fun e => hfr (e ▸ hg)
      have h := hfiles g (List.mem_cons_of_mem _ hg)
      exact ⟨h.1, fun hin =>
        h.2 ((mem_getLibraryZims_handleZimFileInMonitoredDir env st dir f g hgf).1 hin)⟩
    · exact hstep.1
    · exact hcalls2
    · intro a ha hgone
      have haf : a ≠ f := fun e => hgone (e ▸ hf)
      have ha0 := (mem_getLibraryZims_handleZimFileInMonitoredDir env st dir f a haf).1 ha
      have hk := hkeep a ha0 hgone
      exact ⟨hk.1, hstep.2.1 a hk.1 hgone hk.2⟩
    · intro g hg hgn
      by_cases hgf : g = f
      · subst hgf
        exact Or.inr (handleZimFileInMonitoredDir_blocks env st dir g)
      · have hgn0 : g ∉ getLibraryZims st dir := fun hin =>
          hgn ((mem_getLibraryZims_handleZimFileInMonitoredDir env st dir f g hgf).2 hin)
        rcases hblock g hg hgn0 with h | h
        · rcases List.mem_cons.1 h with h2 | h2
          · exact absurd h2 hgf
          · exact Or.inl h2
        · right
          rcases h with h | ⟨prevInfo, hl, hp⟩
          · exact Or.inl (hstep.2.2 g hg hgf h)
          · right
            exact ⟨prevInfo, by
              rw [handleZimFileInMonitoredDir_lookup_ne env st dir f g hgf]; exact hl, hp⟩

/-- The loop over the disappeared files only erases watch entries: an entry that
is found afterwards was there before. -/
theorem handleDisappearedZimFiles_lookup_of_lookup (env : Env) (st : State) (dir : String)
    (files : List String) (f : String) (info : MonitoredZimFileInfo)
    (h : ((handleDisappearedZimFiles env st dir files).knownZimsInDir dir).lookup f =
      some info) :
    (st.knownZimsInDir dir).lookup f = some info := by
  refine handleDisappearedZimFiles_induction env dir
    (fun s => (s.knownZimsInDir dir).lookup f = some info →
      (st.knownZimsInDir dir).lookup f = some info) files ?_ st (fun h => h) h
  intro s g _ ih hl
  apply ih
  by_cases hfg : f = g
  · subst hfg
    rcases handleDisappearedZimFile_cases env dir s f with ⟨_, _, _, hs⟩ | ⟨_, _, _, hs⟩ | ⟨_, hs⟩
    · rw [hs] at hl
      exact hl
    · rw [hs] at hl
      simp [State.setZimsInDir] at hl
    · rw [hs] at hl
      simp [State.setZimsInDir] at hl
  · rw [handleDisappearedZimFile_lookup_ne env s dir g f hfg] at hl
    exact hl

/-- The loop over disappeared files, none of which is in the listing, leaves the
watch entries of the files of the listing alone and adds no book to the
library. -/
theorem handleDisappearedZimFiles_listing (env : Env) (st : State) (dir : String)
    (files : List String) (hfiles : ∀ a ∈ files, a ∉ env.entryList dir) :
    (∀ f ∈ env.entryList dir,
      ((handleDisappearedZimFiles env st dir files).knownZimsInDir dir).lookup f =
        (st.knownZimsInDir dir).lookup f) ∧
    (∀ b ∈ (handleDisappearedZimFiles env st dir files).library, b ∈ st.library) := by
  refine handleDisappearedZimFiles_induction env dir
    (fun s => (∀ f ∈ env.entryList dir,
        (s.knownZimsInDir dir).lookup f = (st.knownZimsInDir dir).lookup f) ∧
      (∀ b ∈ s.library, b ∈ st.library)) files ?_ st ⟨fun _ _ => rfl, fun _ h => h⟩
  intro s a ha hs
  refine ⟨?_, ?_⟩
  · intro f hf
    have hfa : f ≠ a := fun e => hfiles a ha (e ▸ hf)
    rw [handleDisappearedZimFile_lookup_ne env s dir a f hfa]
    exact hs.1 f hf
  · intro b hb
    rcases handleDisappearedZimFile_cases env dir s a with
      ⟨_, _, _, e1⟩ | ⟨_, _, _, e2⟩ | ⟨_, e3⟩
    · rw [e1] at hb; exact hs.2 b hb
    · rw [e2] at hb
      exact hs.2 b (mem_removeBookFromLibraryById.1 hb).1
    · rw [e3] at hb; exact hs.2 b hb

/-- A pass settles the state, when the records that its ingestions replace are
not records of downloads into files of the listing and share the path of a
disappeared file only with books that are open in tabs. -/
theorem updateLibraryFromDir_settled (env : Env) (st : State) (dir : String)
    (hrep : ∀ calls, (updateLibraryFromDir env st dir).ingestionAttempts =
        st.ingestionAttempts ++ calls →
      ∀ c ∈ calls, ∀ b0, env.readBookFromPath (bookPathOf c.1 c.2) = some b0 →
        ∀ b ∈ st.library, b.id = b0.id →
          (b.downloadId ≠ "" → ∀ g ∈ env.entryList dir, b.path ≠ bookPathOf dir g) ∧
          (b.id ∈ env.tabZimIds → ∀ a ∈ removedZims env st dir, b.path = bookPathOf dir a →
            ∀ c2 ∈ st.library, c2.path = b.path → c2.id ∈ env.tabZimIds)) :
    Settled env dir (updateLibraryFromDir env st dir) := by
  have hgone : ∀ a ∈ removedZims env st dir, a ∉ env.entryList dir :=
    fun a ha => (mem_removedZims.1 ha).2
  have h1 := handleDisappearedZimFiles_listing env st dir (removedZims env st dir) hgone
  have hmem : ∀ f ∈ env.entryList dir,
      (f ∈ getLibraryZims (handleDisappearedZimFiles env st dir (removedZims env st dir)) dir ↔
        f ∈ getLibraryZims st dir) := by
    intro f hf
    rw [mem_getLibraryZims, mem_getLibraryZims, h1.1 f hf]
  have hsub : ∀ a ∈ getLibraryZims
      (handleDisappearedZimFiles env st dir (removedZims env st dir)) dir,
      a ∈ getLibraryZims st dir := by
    intro a ha
    obtain ⟨info, hl, hs⟩ := mem_getLibraryZims.1 ha
    exact mem_getLibraryZims.2
      ⟨info, handleDisappearedZimFiles_lookup_of_lookup env st dir _ a info hl, hs⟩
  have hkeeps := handleDisappearedZimFiles_keeps env dir (removedZims env st dir) st
    (fun a ha hgone2 => Or.inl (mem_removedZims.2 ⟨ha, hgone2⟩))
  have h2 : Settled env dir (handleNewZimFiles env
      (handleDisappearedZimFiles env st dir (removedZims env st dir)) dir
      (zimsNotInLib env st dir)).2 := by
    apply handleNewZimFiles_settles env dir st.library (removedZims env st dir)
    · exact List.Nodup.filter _ (List.nodup_dedup _)
    · intro f hf
      have h := mem_zimsNotInLib.1 hf
      exact ⟨h.1, fun hin => h.2 ((hmem f h.1).1 hin)⟩
    · intro b hb
      exact Or.inl (h1.2 b hb)
    · intro calls hcalls
      rw [handleDisappearedZimFiles_attempts, ← updateLibraryFromDir_attempts_eq] at hcalls
      exact hrep calls hcalls
    · intro a ha hgone2
      exact ⟨mem_removedZims.2 ⟨hsub a ha, hgone2⟩, hkeeps a ha hgone2⟩
    · intro f hf hfn
      exact Or.inl (mem_zimsNotInLib.2 ⟨hf, fun hin => hfn ((hmem f hf).2 hin)⟩)
  unfold updateLibraryFromDir
  simp only
  split_ifs
  · exact h2
  · exact h2

/-- A file that is blocked is not ingested: handling it changes nothing and does
not report it as added. -/
theorem handleZimFileInMonitoredDir_of_blocked (env : Env) (st : State) (dir f : String)
    (h : Blocked env dir st f) :
    (handleZimFileInMonitoredDir env st dir f).2 = st ∧
    (handleZimFileInMonitoredDir env st dir f).1 ≠ .ADDED_TO_THE_LIBRARY := by
  by_cases hd : isBeingDownloadedByUs st.library (bookPathOf dir f) = true
  · have e : handleZimFileInMonitoredDir env st dir f = (.BEING_DOWNLOADED_BY_US, st) := by
      simp [handleZimFileInMonitoredDir, hd]
    rw [e]
    exact ⟨rfl, by simp⟩
  · have hd2 : isBeingDownloadedByUs st.library (bookPathOf dir f) = false := by
      simpa using hd
    rcases h with h | ⟨prevInfo, hl, hp⟩
    · exact absurd h hd
    · by_cases hm : env.lastModified (bookPathOf dir f) = prevInfo.lastModified
      · rw [handleZimFileInMonitoredDir_unchanged env st dir f prevInfo hd2 hl hm]
        exact ⟨rfl, by simp⟩
      · rcases hp with hp | hp
        · exact absurd hp hm
        · rw [handleZimFileInMonitoredDir_pending env st dir f prevInfo hd2 hl hm hp]
          exact ⟨rfl, by simp⟩

/-- A pass over a settled state adds nothing to the library and removes nothing
from it. -/
theorem updateLibraryFromDir_of_settled (env : Env) (st : State) (dir : String)
    (h : Settled env dir st) :
    (updateLibraryFromDir env st dir).library = st.library ∧
    countOfAddedZims env st dir = 0 := by
  have h1 : (handleDisappearedZimFiles env st dir (removedZims env st dir)).library =
        st.library ∧
      ∀ f ∈ env.entryList dir,
        ((handleDisappearedZimFiles env st dir (removedZims env st dir)).knownZimsInDir
          dir).lookup f = (st.knownZimsInDir dir).lookup f := by
    refine handleDisappearedZimFiles_induction env dir
      (fun s => s.library = st.library ∧ ∀ f ∈ env.entryList dir,
        (s.knownZimsInDir dir).lookup f = (st.knownZimsInDir dir).lookup f)
      (removedZims env st dir) ?_ st ⟨rfl, fun _ _ => rfl⟩
    intro s a ha hs
    have ha2 := mem_removedZims.1 ha
    have hkeep := h.1 a ha2.1 ha2.2
    have hlk : ∀ f ∈ env.entryList dir,
        ((handleDisappearedZimFile env dir s a).knownZimsInDir dir).lookup f =
          (st.knownZimsInDir dir).lookup f := by
      intro f hf
      have hfa : f ≠ a := fun e => ha2.2 (e ▸ hf)
      rw [handleDisappearedZimFile_lookup_ne env s dir a f hfa]
      exact hs.2 f hf
    refine ⟨?_, hlk⟩
    rcases handleDisappearedZimFile_cases env dir s a with
      ⟨_, _, _, e1⟩ | ⟨z, hz, hzt, _⟩ | ⟨_, e3⟩
    · rw [e1]; exact hs.1
    · rw [hs.1] at hz
      exact absurd (hkeep z hz) hzt
    · rw [e3]; exact hs.1
  have hstep : ∀ s f, f ∈ zimsNotInLib env st dir →
      (s.library = st.library ∧ ∀ g ∈ env.entryList dir,
        (s.knownZimsInDir dir).lookup g = (st.knownZimsInDir dir).lookup g) →
      (handleZimFileInMonitoredDir env s dir f).1 ≠ .ADDED_TO_THE_LIBRARY ∧
      ((handleZimFileInMonitoredDir env s dir f).2.library = st.library ∧
        ∀ g ∈ env.entryList dir,
          ((handleZimFileInMonitoredDir env s dir f).2.knownZimsInDir dir).lookup g =
            (st.knownZimsInDir dir).lookup g) := by
    intro s f hf hs
    have hf2 := mem_zimsNotInLib.1 hf
    have hb : Blocked env dir s f := by
      rcases h.2 f hf2.1 hf2.2 with hb | ⟨prevInfo, hl, hp⟩
      · left
        rw [hs.1]
        exact hb
      · right
        exact ⟨prevInfo, by rw [hs.2 f hf2.1]; exact hl, hp⟩
    have hres := handleZimFileInMonitoredDir_of_blocked env s dir f hb
    refine ⟨hres.2, ?_⟩
    rw [hres.1]
    exact hs
  have h2 := handleNewZimFiles_induction env dir
    (fun s => s.library = st.library ∧ ∀ g ∈ env.entryList dir,
      (s.knownZimsInDir dir).lookup g = (st.knownZimsInDir dir).lookup g)
    (zimsNotInLib env st dir) (fun s f hf hs => (hstep s f hf hs).2) _ h1
  have h3 := handleNewZimFiles_count_zero env dir
    (fun s => s.library = st.library ∧ ∀ g ∈ env.entryList dir,
      (s.knownZimsInDir dir).lookup g = (st.knownZimsInDir dir).lookup g)
    (zimsNotInLib env st dir) hstep _ h1
  exact ⟨(updateLibraryFromDir_library env st dir).trans h2.1, h3⟩

/-- Whether a state is settled depends on the surroundings only through the
listing, the modification times of the listed files and the open tabs. -/
theorem settled_of_same_surroundings (env1 env2 : Env) (dir : String) (st : State)
    (hlist : env2.entryList dir = env1.entryList dir)
    (hmtime : ∀ f ∈ env1.entryList dir,
      env2.lastModified (bookPathOf dir f) = env1.lastModified (bookPathOf dir f))
    (htabs : env2.tabZimIds = env1.tabZimIds)
    (h : Settled env1 dir st) : Settled env2 dir st := by
  refine ⟨?_, ?_⟩
  · intro a ha hgone book hbook
    rw [hlist] at hgone
    rw [htabs]
    exact h.1 a ha hgone book hbook
  · intro f hf hfn
    rw [hlist] at hf
    rcases h.2 f hf hfn with hb | ⟨prevInfo, hl, hp⟩
    · exact Or.inl hb
    · exact Or.inr ⟨prevInfo, hl, by rw [hmtime f hf]; exact hp⟩

/-- C8, amended: suppose that, of the records of the Local Catalog that have the id
of a book that the first run ingests (the records that the first run replaces),
none is the record of a download into a file of the directory listing, and none
that is open in a tab shares the path of a file that has disappeared from the
directory with a record that is open in no tab. Then a second run of
`updateLibraryFromDir` with the same directory listing, the same modification
times and the same open tabs (at whatever time) adds no book to and removes no
book from the Local Catalog: the catalog after the second run is the catalog
after the first run, and the count of added files of the second run is 0. -/
theorem updateLibraryFromDir_idempotent (env1 env2 : Env) (st : State) (dir : String)
    (hlist : env2.entryList dir = env1.entryList dir)
    (hmtime : ∀ f ∈ env1.entryList dir,
      env2.lastModified (bookPathOf dir f) = env1.lastModified (bookPathOf dir f))
    (htabs : env2.tabZimIds = env1.tabZimIds)
    (hreplaced : ∀ calls, (updateLibraryFromDir env1 st dir).ingestionAttempts =
        st.ingestionAttempts ++ calls →
      ∀ c ∈ calls, ∀ b0, env1.readBookFromPath (bookPathOf c.1 c.2) = some b0 →
        ∀ b ∈ st.library, b.id = b0.id →
          (b.downloadId ≠ "" → ∀ g ∈ env1.entryList dir, b.path ≠ bookPathOf dir g) ∧
          (b.id ∈ env1.tabZimIds → ∀ a ∈ removedZims env1 st dir,
            b.path = bookPathOf dir a →
            ∀ c2 ∈ st.library, c2.path = b.path → c2.id ∈ env1.tabZimIds)) :
    (updateLibraryFromDir env2 (updateLibraryFromDir env1 st dir) dir).library =
      (updateLibraryFromDir env1 st dir).library ∧
    countOfAddedZims env2 (updateLibraryFromDir env1 st dir) dir = 0 := by
  have h1 := updateLibraryFromDir_settled env1 st dir hreplaced
  exact updateLibraryFromDir_of_settled env2 _ dir
    (settled_of_same_surroundings env1 env2 dir _ hlist hmtime htabs h1)

/-- Witness of the amended C8: the file `a.zim` of the book `A` of `addedFileState`
has been renamed to `a2.zim` while the book is open in a tab. The first pass
keeps the book and ingests `a2.zim`, which replaces the record of the book by
one that is located at `a2.zim`; a second pass two seconds later adds and
removes nothing. The replaced record is owned by no download and is the only
record at its path. -/
theorem updateLibraryFromDir_idempotent_witness :
    (updateLibraryFromDir renamedOpenFileEnv addedFileState "d").ingestionAttempts =
      [("d", "a2.zim")] ∧
    (updateLibraryFromDir renamedOpenFileEnv addedFileState "d").library =
      [{ id := "A", title := "Book A", path := "d/a2.zim", pathValid := true }] ∧
    (updateLibraryFromDir { renamedOpenFileEnv with now := 12000 }
      (updateLibraryFromDir renamedOpenFileEnv addedFileState "d") "d").library =
      (updateLibraryFromDir renamedOpenFileEnv addedFileState "d").library ∧
    countOfAddedZims { renamedOpenFileEnv with now := 12000 }
      (updateLibraryFromDir renamedOpenFileEnv addedFileState "d") "d" = 0 :=
  ⟨by decide, by decide,
   updateLibraryFromDir_idempotent renamedOpenFileEnv { renamedOpenFileEnv with now := 12000 }
    addedFileState "d" rfl (fun _ _ => rfl) rfl (by
      intro calls _ c _ b0 _ b hb _
      have hb2 : b = { id := "A", title := "Book A", path := "d/a.zim", pathValid := true } := by
        simpa [addedFileState] using hb
      subst hb2
      refine ⟨fun h => absurd rfl h, ?_⟩
      intro _ a _ _ c2 hc2 _
      have hc3 : c2 = { id := "A", title := "Book A", path := "d/a.zim", pathValid := true } := by
        simpa [addedFileState] using hc2
      subst hc3
      decide)⟩

/-! ## Saving and notifying at the end of a pass -/

/-- Handling a file that is not reported as added leaves the library alone. -/
theorem handleZimFileInMonitoredDir_library_of_not_added (env : Env) (st : State)
    (dir f : String)
    (h : (handleZimFileInMonitoredDir env st dir f).1 ≠ .ADDED_TO_THE_LIBRARY) :
    (handleZimFileInMonitoredDir env st dir f).2.library = st.library := by
  rcases handleZimFileInMonitoredDir_cases env st dir f with h1 | h2 | h3
  · rw [h1.2.2]
  · rw [h2]; rfl
  · rw [h3.2.2] at h ⊢
    cases hr : env.readBookFromPath (bookPathOf dir f) with
    | none => simp [addBookFromPath, hr]
    | some b0 => simp [hr] at h

/-- When the loop over the new files counts no added file, it leaves the library
alone. -/
theorem handleNewZimFiles_library_of_count_zero (env : Env) (st : State) (dir : String)
    (files : List String) (h : (handleNewZimFiles env st dir files).1 = 0) :
    (handleNewZimFiles env st dir files).2.library = st.library := by
  have key : ∀ (l : List String) (acc : Nat × State),
      acc.1 ≤ (l.foldl (fun acc file =>
        let handled := handleZimFileInMonitoredDirLogged env acc.2 dir file
        (acc.1 + (if handled.1 then 1 else 0), handled.2)) acc).1 ∧
      ((l.foldl (fun acc file =>
        let handled := handleZimFileInMonitoredDirLogged env acc.2 dir file
        (acc.1 + (if handled.1 then 1 else 0), handled.2)) acc).1 = acc.1 →
       (l.foldl (fun acc file =>
        let handled := handleZimFileInMonitoredDirLogged env acc.2 dir file
        (acc.1 + (if handled.1 then 1 else 0), handled.2)) acc).2.library = acc.2.library) := by
    intro l
    induction l with
    | nil => intro acc; exact ⟨le_refl _, fun _ => rfl⟩
    | cons f l ih =>
      intro acc
      rw [List.foldl_cons]
      have ih2 := ih (acc.1 + (if (handleZimFileInMonitoredDirLogged env acc.2 dir f).1
        then 1 else 0), (handleZimFileInMonitoredDirLogged env acc.2 dir f).2)
      by_cases hadd : (handleZimFileInMonitoredDirLogged env acc.2 dir f).1 = true
      · simp only [hadd, eq_self_iff_true, if_true] at ih2 ⊢
        exact ⟨by omega, fun heq => by omega⟩
      · have hf : (handleZimFileInMonitoredDirLogged env acc.2 dir f).1 = false := by
          simpa using hadd
        simp only [hf, Bool.false_eq_true, if_false, Nat.add_zero] at ih2 ⊢
        refine ⟨ih2.1, fun heq => ?_⟩
        rw [ih2.2 heq]
        have hna : (handleZimFileInMonitoredDir env acc.2 dir f).1 ≠ .ADDED_TO_THE_LIBRARY := by
          simpa [handleZimFileInMonitoredDirLogged] using hadd
        exact handleZimFileInMonitoredDir_library_of_not_added env acc.2 dir f hna
  exact (key files (0, st)).2 h

/-- The log at the end of a pass: the log at its start, the timers that the loop
over the new files armed, and one save and one `booksChanged` when a file of the
library has disappeared or a file was added. -/
theorem updateLibraryFromDir_log (env : Env) (st : State) (dir : String) :
    ∃ timers : List Effect, (∀ e ∈ timers, ∃ f, e = .singleShot 1000 dir f) ∧
      (updateLibraryFromDir env st dir).log =
        st.log ++ timers ++
          (if removedZims env st dir ≠ [] ∨ countOfAddedZims env st dir ≠ 0
            then [.librarySaved, .booksChanged] else []) := by
  obtain ⟨timers, hlog, htimers⟩ := handleNewZimFiles_log env
    (handleDisappearedZimFiles env st dir (removedZims env st dir)) dir
    (zimsNotInLib env st dir)
  rw [handleDisappearedZimFiles_log] at hlog
  refine ⟨timers, htimers, ?_⟩
  unfold updateLibraryFromDir countOfAddedZims
  simp only
  by_cases hc : removedZims env st dir ≠ [] ∨
      (handleNewZimFiles env (handleDisappearedZimFiles env st dir (removedZims env st dir))
        dir (zimsNotInLib env st dir)).1 ≠ 0
  · rw [if_pos hc]
    have hb : (!(removedZims env st dir).isEmpty ||
        (handleNewZimFiles env (handleDisappearedZimFiles env st dir (removedZims env st dir))
          dir (zimsNotInLib env st dir)).1 != 0) = true := by
      rcases hc with hc | hc
      · cases hr : removedZims env st dir with
        | nil => exact absurd hr hc
        | cons x xs => simp
      · simp [hc]
    rw [if_pos hb]
    simp [hlog]
  · rw [if_neg hc]
    have hb : ¬ (!(removedZims env st dir).isEmpty ||
        (handleNewZimFiles env (handleDisappearedZimFiles env st dir (removedZims env st dir))
          dir (zimsNotInLib env st dir)).1 != 0) = true := by
      simp only [not_or, not_not] at hc
      rw [hc.2]
      simp [hc.1]
    rw [if_neg hb]
    simp [hlog]

/-- C11, as stated, fails: in `addedFileState` the only disappeared file belongs to
a book that is open in a tab. The pass keeps the book and adds no file, so the
Local Catalog is the same before and after, but the pass saves the library and
emits `booksChanged`. -/
theorem pass_saves_although_book_is_kept :
    (updateLibraryFromDir deletedFileOpenInTabEnv addedFileState "d").library =
      addedFileState.library ∧
    countOfAddedZims deletedFileOpenInTabEnv addedFileState "d" = 0 ∧
    addedFileState.log = [] ∧
    (updateLibraryFromDir deletedFileOpenInTabEnv addedFileState "d").log =
      [.librarySaved, .booksChanged] ∧
    ¬ (updateLibraryFromDir deletedFileOpenInTabEnv addedFileState "d").log =
      addedFileState.log := by
  decide

/-- C11, amended: one run of `updateLibraryFromDir` ends with exactly one save of
the library followed by exactly one `booksChanged` (all its other effects are
timers) if a book was inserted into or removed from the Local Catalog (the count
of added files is not 0, or the catalog after the pass differs from the catalog
before it); it also does so when a file of the library has disappeared from the
listing, whether or not its book is kept; it neither saves nor emits, and leaves
the catalog as it is, if no file was added and no file of the library has
disappeared from the listing. -/
theorem updateLibraryFromDir_saves_once (env : Env) (st : State) (dir : String) :
    ((countOfAddedZims env st dir ≠ 0 ∨ (updateLibraryFromDir env st dir).library ≠ st.library) →
      ∃ timers : List Effect, (∀ e ∈ timers, ∃ f, e = .singleShot 1000 dir f) ∧
        (updateLibraryFromDir env st dir).log =
          st.log ++ timers ++ [.librarySaved, .booksChanged]) ∧
    (removedZims env st dir ≠ [] →
      ∃ timers : List Effect, (∀ e ∈ timers, ∃ f, e = .singleShot 1000 dir f) ∧
        (updateLibraryFromDir env st dir).log =
          st.log ++ timers ++ [.librarySaved, .booksChanged]) ∧
    ((countOfAddedZims env st dir = 0 ∧ removedZims env st dir = []) →
      (∃ timers : List Effect, (∀ e ∈ timers, ∃ f, e = .singleShot 1000 dir f) ∧
        (updateLibraryFromDir env st dir).log = st.log ++ timers) ∧
      (updateLibraryFromDir env st dir).library = st.library) := by
  obtain ⟨timers, htimers, hlog⟩ := updateLibraryFromDir_log env st dir
  have hsame : countOfAddedZims env st dir = 0 → removedZims env st dir = [] →
      (updateLibraryFromDir env st dir).library = st.library := by
    intro hz hr
    rw [updateLibraryFromDir_library, hr]
    unfold countOfAddedZims at hz
    rw [hr] at hz
    exact handleNewZimFiles_library_of_count_zero env _ dir _ hz
  refine ⟨?_, ?_, ?_⟩
  · intro h
    have hc : removedZims env st dir ≠ [] ∨ countOfAddedZims env st dir ≠ 0 := by
      by_contra hn
      simp only [not_or, not_not] at hn
      rcases h with h | h
      · exact h hn.2
      · exact h (hsame hn.2 hn.1)
    rw [if_pos hc] at hlog
    exact ⟨timers, htimers, hlog⟩
  · intro h
    rw [if_pos (Or.inl h)] at hlog
    exact ⟨timers, htimers, hlog⟩
  · intro h
    have hc : ¬ (removedZims env st dir ≠ [] ∨ countOfAddedZims env st dir ≠ 0) := by
      simp [h.1, h.2]
    rw [if_neg hc] at hlog
    exact ⟨⟨timers, htimers, by simpa using hlog⟩, hsame h.1 h.2⟩

/-- Witness of the amended C11: the pass over the directory of `twoFilesEnv` adds
one file to the library of `addedFileState` and ends with one save and one
`booksChanged`; the pass of `deletedFileOpenInTabEnv`, in which the file of the
library has disappeared and its book is kept, does so too; a pass over an empty
directory from the empty state neither saves nor emits. -/
theorem updateLibraryFromDir_saves_once_witness :
    (∃ timers : List Effect, (∀ e ∈ timers, ∃ f, e = .singleShot 1000 "d" f) ∧
      (updateLibraryFromDir twoFilesEnv addedFileState "d").log =
        addedFileState.log ++ timers ++ [.librarySaved, .booksChanged]) ∧
    (∃ timers : List Effect, (∀ e ∈ timers, ∃ f, e = .singleShot 1000 "d" f) ∧
      (updateLibraryFromDir deletedFileOpenInTabEnv addedFileState "d").log =
        addedFileState.log ++ timers ++ [.librarySaved, .booksChanged]) ∧
    (∃ timers : List Effect, (∀ e ∈ timers, ∃ f, e = .singleShot 1000 "d" f) ∧
      (updateLibraryFromDir deletedFileEnv {} "d").log = ({} : State).log ++ timers) ∧
    (updateLibraryFromDir deletedFileEnv {} "d").library = ({} : State).library :=
  ⟨(updateLibraryFromDir_saves_once twoFilesEnv addedFileState "d").1 (Or.inl (by decide)),
   (updateLibraryFromDir_saves_once deletedFileOpenInTabEnv addedFileState "d").2.1 (by decide),
   (updateLibraryFromDir_saves_once deletedFileEnv {} "d").2.2 ⟨by decide, by decide⟩⟩

/-! ## Files that are being downloaded by us -/

/-- C13: for a file whose path is being downloaded by us,
`handleZimFileInMonitoredDir` returns `BEING_DOWNLOADED_BY_US` and leaves the whole
state as it is (no ingestion, no timer, same watch state, same Local Catalog),
whatever the watch entry of the file, its modification time and the clock. -/
theorem handleZimFileInMonitoredDir_being_downloaded (env : Env) (st : State)
    (dir fileName : String)
    (h : isBeingDownloadedByUs st.library (bookPathOf dir fileName) = true) :
    handleZimFileInMonitoredDir env st dir fileName = (.BEING_DOWNLOADED_BY_US, st) ∧
    attemptsIngestion env st dir fileName = false := by
  simp [handleZimFileInMonitoredDir, attemptsIngestion, h]

/-- Witness of C13: the file `x.zim` of `downloadInProgressState` is skipped
although it has no watch entry and reads as an archive. -/
theorem handleZimFileInMonitoredDir_being_downloaded_witness :
    (handleZimFileInMonitoredDir copyOfDownloadEnv downloadInProgressState "d" "x.zim").1 =
      .BEING_DOWNLOADED_BY_US ∧
    (handleZimFileInMonitoredDir copyOfDownloadEnv downloadInProgressState "d" "x.zim").2.library
      = downloadInProgressState.library ∧
    (handleZimFileInMonitoredDir copyOfDownloadEnv downloadInProgressState "d" "x.zim").2.log
      = [] :=
  have h := (handleZimFileInMonitoredDir_being_downloaded copyOfDownloadEnv
    downloadInProgressState "d" "x.zim" (by decide)).1
  ⟨by rw [h], by rw [h], by rw [h]; rfl⟩

/-! ## No second ingestion attempt for an unchanged file -/

/-- The watch entries of another directory are not touched when the entries of a
directory are replaced. -/
theorem setZimsInDir_known_other (st : State) (d dir : String) (z : ZimsInDir)
    (h : dir ≠ d) : (st.setZimsInDir d z).knownZimsInDir dir = st.knownZimsInDir dir := by
  simp [State.setZimsInDir, Function.update_noteq h]

/-- Handling a file of a directory leaves the watch entries of the other
directories alone. -/
theorem handleZimFileInMonitoredDir_known_other (env : Env) (st : State) (d g dir : String)
    (h : dir ≠ d) :
    (handleZimFileInMonitoredDir env st d g).2.knownZimsInDir dir = st.knownZimsInDir dir := by
  rcases handleZimFileInMonitoredDir_cases env st d g with h1 | h2 | h3
  · rw [h1.2.2]
  · rw [h2]
    simp [deferHandlingOfZimFileInMonitoredDir, State.setStatus, State.emit,
      State.setZimsInDir, Function.update_noteq h]
  · rw [h3.2.2]
    simp [State.setZimsInDir, Function.update_noteq h]

/-- Handling a disappeared file of a directory leaves the watch entries of the
other directories alone. -/
theorem handleDisappearedZimFile_known_other (env : Env) (st : State) (d g dir : String)
    (h : dir ≠ d) :
    (handleDisappearedZimFile env d st g).knownZimsInDir dir = st.knownZimsInDir dir := by
  rcases handleDisappearedZimFile_cases env d st g with
    ⟨_, _, _, e1⟩ | ⟨_, _, _, e2⟩ | ⟨_, e3⟩
  · rw [e1]
  · rw [e2]; simp [State.setZimsInDir, Function.update_noteq h]
  · rw [e3]; simp [State.setZimsInDir, Function.update_noteq h]

/-- A pass over a directory leaves the watch entries of the other directories
alone. -/
theorem updateLibraryFromDir_known_other (env : Env) (st : State) (d dir : String)
    (h : dir ≠ d) :
    (updateLibraryFromDir env st d).knownZimsInDir dir = st.knownZimsInDir dir := by
  rw [updateLibraryFromDir_known]
  refine handleNewZimFiles_induction env d
    (fun s => s.knownZimsInDir dir = st.knownZimsInDir dir) _ ?_ _ ?_
  · intro s g _ hs
    rw [handleZimFileInMonitoredDir_known_other env s d g dir h]
    exact hs
  · refine handleDisappearedZimFiles_induction env d
      (fun s => s.knownZimsInDir dir = st.knownZimsInDir dir) _ ?_ st rfl
    intro s g _ hs
    rw [handleDisappearedZimFile_known_other env s d g dir h]
    exact hs

/-- A file whose watch entry records the current modification time is not
ingested, and handling it changes nothing. -/
theorem handleZimFileInMonitoredDir_of_recorded (env : Env) (st : State) (dir f : String)
    (info : MonitoredZimFileInfo)
    (hl : (st.knownZimsInDir dir).lookup f = some info)
    (hm : env.lastModified (bookPathOf dir f) = info.lastModified) :
    attemptsIngestion env st dir f = false ∧
    (handleZimFileInMonitoredDir env st dir f).2 = st ∧
    (handleZimFileInMonitoredDir env st dir f).1 ≠ .ADDED_TO_THE_LIBRARY := by
  have hb : Blocked env dir st f := Or.inr ⟨info, hl, Or.inl hm⟩
  have h2 := handleZimFileInMonitoredDir_of_blocked env st dir f hb
  refine ⟨?_, h2.1, h2.2⟩
  have hz : (getMonitoredZimFileInfo env st dir f).status = .UNCHANGED_KNOWN_BAD_ZIM_FILE := by
    simp [getMonitoredZimFileInfo, hl, MonitoredZimFileInfo.updateStatus, hm]
  simp [attemptsIngestion, hz]

/-- A deferred recheck of a file leaves the watch entries of the other files
alone. -/
theorem handleZimFileInMonitoredDirDeferred_lookup_ne (env : Env) (st : State)
    (d g dir f : String) (h : ¬ (d = dir ∧ g = f)) :
    ((handleZimFileInMonitoredDirDeferred env st d g).knownZimsInDir dir).lookup f =
      (st.knownZimsInDir dir).lookup f := by
  have hknown : (handleZimFileInMonitoredDirDeferred env st d g).knownZimsInDir =
      (handleZimFileInMonitoredDir env (st.setStatus d g .PROCESS_NOW) d g).2.knownZimsInDir := by
    simp only [handleZimFileInMonitoredDirDeferred, handleZimFileInMonitoredDirLogged]
    split_ifs <;> rfl
  rw [hknown]
  by_cases hd : dir = d
  · subst hd
    have hgf : f ≠ g := fun e => h ⟨rfl, e.symm⟩
    rw [handleZimFileInMonitoredDir_lookup_ne env _ dir g f hgf]
    simp [State.setStatus, AList.lookup_insert_ne hgf]
  · rw [handleZimFileInMonitoredDir_known_other env _ d g dir hd]
    simp [State.setStatus, State.setZimsInDir, Function.update_noteq hd]

/-- What an ingestion attempt leaves: the status by the outcome of
`addBookFromPath`, the library that `addBookFromPath` leaves, and a watch entry
with that status and the current modification time. -/
theorem handleZimFileInMonitoredDir_of_attempt (env : Env) (st : State) (dir f : String)
    (h : attemptsIngestion env st dir f = true) :
    handleZimFileInMonitoredDir env st dir f =
      ((if (addBookFromPath env st.library (bookPathOf dir f)).1
          then .ADDED_TO_THE_LIBRARY else .COULD_NOT_BE_ADDED_TO_THE_LIBRARY),
       { st with
         library := (addBookFromPath env st.library (bookPathOf dir f)).2
         ingestionAttempts := st.ingestionAttempts ++ [(dir, f)] }.setZimsInDir
          dir ((st.knownZimsInDir dir).insert f
            { status := (if (addBookFromPath env st.library (bookPathOf dir f)).1
                then .ADDED_TO_THE_LIBRARY else .COULD_NOT_BE_ADDED_TO_THE_LIBRARY),
              lastModified := env.lastModified (bookPathOf dir f) })) := by
  simp only [attemptsIngestion, Bool.and_eq_true, Bool.not_eq_true', decide_eq_true_eq] at h
  have hlm := getMonitoredZimFileInfo_lastModified env st dir f
  unfold handleZimFileInMonitoredDir
  simp only [h.1, h.2, Bool.false_eq_true, if_false, if_true, hlm]
  cases (addBookFromPath env st.library (bookPathOf dir f)).1 <;> simp

/-- Without an ingestion attempt the library stays as it is and the file is not
reported as added. -/
theorem handleZimFileInMonitoredDir_of_no_attempt (env : Env) (st : State) (dir f : String)
    (h : attemptsIngestion env st dir f = false) :
    (handleZimFileInMonitoredDir env st dir f).2.library = st.library ∧
    (handleZimFileInMonitoredDir env st dir f).1 ≠ .ADDED_TO_THE_LIBRARY := by
  rcases handleZimFileInMonitoredDir_cases env st dir f with h1 | h2 | h3
  · exact ⟨by rw [h1.2.2], h1.1⟩
  · rw [h2]
    exact ⟨rfl, by simp⟩
  · have : attemptsIngestion env st dir f = true := by
      simp [attemptsIngestion, h3.1, h3.2.1]
    rw [h] at this
    cases this

/-- The predicate `attemptsIngestion` tells whether `handleZimFileInMonitoredDir`
records an ingestion attempt. -/
theorem attemptsIngestion_iff (env : Env) (st : State) (dir f : String) :
    attemptsIngestion env st dir f = true ↔
      (handleZimFileInMonitoredDir env st dir f).2.ingestionAttempts =
        st.ingestionAttempts ++ [(dir, f)] := by
  constructor
  · intro h
    rw [handleZimFileInMonitoredDir_of_attempt env st dir f h]
    rfl
  · intro h
    by_contra hn
    have hf : attemptsIngestion env st dir f = false := by simpa using hn
    rcases handleZimFileInMonitoredDir_cases env st dir f with h1 | h2 | h3
    · rw [h1.2.2] at h
      simp at h
    · rw [h2] at h
      have h4 : st.ingestionAttempts = st.ingestionAttempts ++ [(dir, f)] := h
      simp at h4
    · have : attemptsIngestion env st dir f = true := by
        simp [attemptsIngestion, h3.1, h3.2.1]
      rw [hf] at this
      cases this

/-- A pass over a directory attempts ingestion of files of that directory only. -/
theorem updateLibraryFromDir_attempts (env : Env) (st : State) (dir : String) :
    ∃ calls, (updateLibraryFromDir env st dir).ingestionAttempts =
        st.ingestionAttempts ++ calls ∧
      ∀ c ∈ calls, c.1 = dir ∧ c.2 ∈ zimsNotInLib env st dir := by
  obtain ⟨calls, hcalls, hmem⟩ := handleNewZimFiles_attempts env dir (zimsNotInLib env st dir)
    (handleDisappearedZimFiles env st dir (removedZims env st dir))
  rw [handleDisappearedZimFiles_attempts] at hcalls
  exact ⟨calls, by rw [updateLibraryFromDir_attempts_eq, hcalls], hmem⟩

/-- The loop over the new files does not attempt ingestion of a file whose watch
entry records the current modification time, and leaves that entry as it is. -/
theorem handleNewZimFiles_of_recorded (env : Env) (dir f : String)
    (info : MonitoredZimFileInfo)
    (hm : env.lastModified (bookPathOf dir f) = info.lastModified)
    (files : List String) :
    ∀ st : State, (st.knownZimsInDir dir).lookup f = some info →
      (∃ calls, (handleNewZimFiles env st dir files).2.ingestionAttempts =
          st.ingestionAttempts ++ calls ∧ (dir, f) ∉ calls) ∧
      ((handleNewZimFiles env st dir files).2.knownZimsInDir dir).lookup f = some info := by
  induction files with
  | nil =>
    intro st hl
    exact ⟨⟨[], (List.append_nil _).symm, List.not_mem_nil _⟩, hl⟩
  | cons g files ih =>
    intro st hl
    rw [handleNewZimFiles_cons]
    by_cases hgf : g = f
    · subst hgf
      rw [(handleZimFileInMonitoredDir_of_recorded env st dir g info hl hm).2.1]
      exact ih st hl
    · have hl2 : ((handleZimFileInMonitoredDir env st dir g).2.knownZimsInDir dir).lookup f =
          some info := by
        rw [handleZimFileInMonitoredDir_lookup_ne env st dir g f (fun e => hgf e.symm)]
        exact hl
      obtain ⟨⟨calls, hcalls, hnot⟩, hl3⟩ := ih _ hl2
      refine ⟨?_, hl3⟩
      rcases handleZimFileInMonitoredDir_attempts env st dir g with h | h
      · exact ⟨calls, by rw [hcalls, h], hnot⟩
      · refine ⟨(dir, g) :: calls, by rw [hcalls, h, List.append_assoc]; rfl, ?_⟩
        intro hin
        rcases List.mem_cons.mp hin with h2 | h2
        · exact hgf (Prod.ext_iff.mp h2).2.symm
        · exact hnot h2

/-- A pass does not attempt ingestion of a file whose watch entry records the
current modification time and does not say `ADDED_TO_THE_LIBRARY`, and leaves
that entry as it is. -/
theorem updateLibraryFromDir_of_recorded (env : Env) (st : State) (dir f : String)
    (info : MonitoredZimFileInfo)
    (hl : (st.knownZimsInDir dir).lookup f = some info)
    (hs : info.status ≠ .ADDED_TO_THE_LIBRARY)
    (hm : env.lastModified (bookPathOf dir f) = info.lastModified) :
    (∃ calls, (updateLibraryFromDir env st dir).ingestionAttempts =
        st.ingestionAttempts ++ calls ∧ (dir, f) ∉ calls) ∧
    ((updateLibraryFromDir env st dir).knownZimsInDir dir).lookup f = some info := by
  have h1 : ((handleDisappearedZimFiles env st dir (removedZims env st dir)).knownZimsInDir
      dir).lookup f = some info := by
    refine handleDisappearedZimFiles_induction env dir
      (fun s => (s.knownZimsInDir dir).lookup f = some info) _ ?_ st hl
    intro s g hg hsl
    have hgf : f ≠ g := by
      rintro rfl
      obtain ⟨info2, hl2, hs2⟩ := mem_getLibraryZims.1 (mem_removedZims.1 hg).1
      rw [hl] at hl2
      cases hl2
      exact hs hs2
    rw [handleDisappearedZimFile_lookup_ne env s dir g f hgf]
    exact hsl
  obtain ⟨⟨calls, hcalls, hnot⟩, hl2⟩ :=
    handleNewZimFiles_of_recorded env dir f info hm (zimsNotInLib env st dir) _ h1
  rw [handleDisappearedZimFiles_attempts] at hcalls
  exact ⟨⟨calls, by rw [updateLibraryFromDir_attempts_eq, hcalls], hnot⟩,
    by rw [updateLibraryFromDir_known]; exact hl2⟩

/-- The ingestion attempts and the watch entries of a deferred recheck are those
of handling the file after the status `PROCESS_NOW` has been assigned. -/
theorem handleZimFileInMonitoredDirDeferred_fields (env : Env) (st : State) (d g : String) :
    (handleZimFileInMonitoredDirDeferred env st d g).ingestionAttempts =
      (handleZimFileInMonitoredDir env (st.setStatus d g .PROCESS_NOW) d g).2.ingestionAttempts ∧
    (handleZimFileInMonitoredDirDeferred env st d g).knownZimsInDir =
      (handleZimFileInMonitoredDir env (st.setStatus d g .PROCESS_NOW) d g).2.knownZimsInDir := by
  simp only [handleZimFileInMonitoredDirDeferred, handleZimFileInMonitoredDirLogged]
  split_ifs <;> exact ⟨rfl, rfl⟩

/-- A deferred recheck makes at most one ingestion attempt, of its file. -/
theorem handleZimFileInMonitoredDirDeferred_attempts (env : Env) (st : State) (d g : String) :
    (handleZimFileInMonitoredDirDeferred env st d g).ingestionAttempts =
      st.ingestionAttempts ∨
    (handleZimFileInMonitoredDirDeferred env st d g).ingestionAttempts =
      st.ingestionAttempts ++ [(d, g)] := by
  rw [(handleZimFileInMonitoredDirDeferred_fields env st d g).1]
  exact handleZimFileInMonitoredDir_attempts env (st.setStatus d g .PROCESS_NOW) d g

/-- A deferred recheck of a file whose watch entry records the current
modification time does not attempt ingestion; it leaves the recorded modification
time and assigns the status `PROCESS_NOW`. -/
theorem handleZimFileInMonitoredDirDeferred_of_recorded (env : Env) (st : State)
    (dir f : String) (info : MonitoredZimFileInfo)
    (hl : (st.knownZimsInDir dir).lookup f = some info)
    (hm : env.lastModified (bookPathOf dir f) = info.lastModified) :
    (handleZimFileInMonitoredDirDeferred env st dir f).ingestionAttempts =
      st.ingestionAttempts ∧
    ((handleZimFileInMonitoredDirDeferred env st dir f).knownZimsInDir dir).lookup f =
      some { info with status := .PROCESS_NOW } := by
  have hl1 : ((st.setStatus dir f .PROCESS_NOW).knownZimsInDir dir).lookup f =
      some { info with status := .PROCESS_NOW } := by
    rw [setStatus_lookup, hl]
    rfl
  have h := handleZimFileInMonitoredDir_of_recorded env _ dir f _ hl1 hm
  have hf := handleZimFileInMonitoredDirDeferred_fields env st dir f
  rw [hf.1, hf.2, h.2.1]
  exact ⟨rfl, hl1⟩

/-- As long as the modification time of a file is the one that its watch entry
records, and the entry does not say `ADDED_TO_THE_LIBRARY`, no pass and no
deferred recheck attempts ingestion of the file. -/
theorem runSteps_of_recorded (dir f : String) (m : QDateTime)
    (steps : List MonitoringStep) :
    ∀ st : State,
      (∃ info, (st.knownZimsInDir dir).lookup f = some info ∧ info.lastModified = m ∧
        info.status ≠ .ADDED_TO_THE_LIBRARY) →
      (∀ step ∈ steps, step.env.lastModified (bookPathOf dir f) = m) →
      ∃ calls, (runSteps steps st).ingestionAttempts = st.ingestionAttempts ++ calls ∧
        (dir, f) ∉ calls := by
  induction steps with
  | nil =>
    intro st _ _
    exact ⟨[], (List.append_nil _).symm, List.not_mem_nil _⟩
  | cons step steps ih =>
    rintro st ⟨info, hl, hm, hs⟩ henv
    have hstep := henv step (List.mem_cons_self _ _)
    have hrest : ∀ s ∈ steps, s.env.lastModified (bookPathOf dir f) = m :=
      fun s hs => henv s (List.mem_cons_of_mem _ hs)
    have hcombine : ∀ (s1 : State) (calls1 : List (String × String)),
        s1.ingestionAttempts = st.ingestionAttempts ++ calls1 → (dir, f) ∉ calls1 →
        (∃ calls2, (runSteps steps s1).ingestionAttempts = s1.ingestionAttempts ++ calls2 ∧
          (dir, f) ∉ calls2) →
        ∃ calls, (runSteps steps s1).ingestionAttempts = st.ingestionAttempts ++ calls ∧
          (dir, f) ∉ calls := by
      rintro s1 calls1 h1 hn1 ⟨calls2, h2, hn2⟩
      refine ⟨calls1 ++ calls2, by rw [h2, h1, List.append_assoc], ?_⟩
      intro hin
      rcases List.mem_append.mp hin with h | h
      · exact hn1 h
      · exact hn2 h
    unfold runSteps
    cases step with
    | pass env d =>
      simp only [MonitoringStep.env] at hstep
      simp only [MonitoringStep.run]
      by_cases hd : d = dir
      · subst hd
        obtain ⟨⟨calls1, h1, hn1⟩, hl2⟩ :=
          updateLibraryFromDir_of_recorded env st d f info hl hs (hstep.trans hm.symm)
        exact hcombine _ calls1 h1 hn1 (ih _ ⟨info, hl2, hm, hs⟩ hrest)
      · obtain ⟨calls1, h1, hmem⟩ := updateLibraryFromDir_attempts env st d
        have hn1 : (dir, f) ∉ calls1 := fun hin => hd (hmem _ hin).1.symm
        refine hcombine _ calls1 h1 hn1 (ih _ ⟨info, ?_, hm, hs⟩ hrest)
        rw [updateLibraryFromDir_known_other env st d dir (fun e => hd e.symm)]
        exact hl
    | recheck env d g =>
      simp only [MonitoringStep.env] at hstep
      simp only [MonitoringStep.run]
      by_cases hdg : d = dir ∧ g = f
      · obtain ⟨rfl, rfl⟩ := hdg
        have h := handleZimFileInMonitoredDirDeferred_of_recorded env st d g info hl
          (hstep.trans hm.symm)
        exact hcombine _ [] (by rw [h.1, List.append_nil]) (List.not_mem_nil _)
          (ih _ ⟨{ info with status := .PROCESS_NOW }, h.2, hm, by simp⟩ hrest)
      · have hl2 : ((handleZimFileInMonitoredDirDeferred env st d g).knownZimsInDir dir).lookup
            f = some info := by
          rw [handleZimFileInMonitoredDirDeferred_lookup_ne env st d g dir f hdg]
          exact hl
        rcases handleZimFileInMonitoredDirDeferred_attempts env st d g with h | h
        · exact hcombine _ [] (by rw [h, List.append_nil]) (List.not_mem_nil _)
            (ih _ ⟨info, hl2, hm, hs⟩ hrest)
        · refine hcombine _ [(d, g)] h ?_ (ih _ ⟨info, hl2, hm, hs⟩ hrest)
          intro hin
          have h2 : (dir, f) = (d, g) := by simpa using hin
          exact hdg ⟨(Prod.ext_iff.mp h2).1.symm, (Prod.ext_iff.mp h2).2.symm⟩

/-- C12, as stated, fails: in `knownBadFileState` the file `b.zim` could not be
added when its modification time was 9900, and in `freshFileEnv` its
modification time is still 9900. After `setMonitoredDirectories`, which clears
the watch entry and queues a pass over the directory, that pass attempts
ingestion of the file again. -/
theorem retry_after_setMonitoredDirectories :
    (knownBadFileState.knownZimsInDir "d").lookup "b.zim" =
      some { status := .COULD_NOT_BE_ADDED_TO_THE_LIBRARY, lastModified := some 9900 } ∧
    freshFileEnv.lastModified (bookPathOf "d" "b.zim") = some 9900 ∧
    knownBadFileState.ingestionAttempts = [] ∧
    (setMonitoredDirectories freshFileEnv knownBadFileState ["d"]).ingestionAttempts = [] ∧
    (setMonitoredDirectories freshFileEnv knownBadFileState ["d"]).log =
      [.asyncUpdateLibraryFromDir "d"] ∧
    (updateLibraryFromDir freshFileEnv
      (setMonitoredDirectories freshFileEnv knownBadFileState ["d"]) "d").ingestionAttempts =
      [("d", "b.zim")] := by
  decide

/-- C12, amended: when `handleZimFileInMonitoredDir` attempts ingestion of a file
(it calls `addBookFromPath`), it attempts it once, the status is
`ADDED_TO_THE_LIBRARY` on success and `COULD_NOT_BE_ADDED_TO_THE_LIBRARY` on
failure, and the watch entry of the file has that status and the modification
time of the file. From a state in which the watch entry of a file says
`COULD_NOT_BE_ADDED_TO_THE_LIBRARY` with the recorded modification time `m`, no
sequence of reconciliation passes (over any directories) and deferred rechecks
(of any files) attempts ingestion of the file, as long as its modification time
is `m` at each of these steps; calls of `setMonitoredDirectories` are not among
the steps. -/
theorem ingestion_marks_and_is_not_retried (env : Env) (st : State) (dir fileName : String) :
    ((handleZimFileInMonitoredDir env st dir fileName).2.ingestionAttempts ≠
        st.ingestionAttempts →
      (handleZimFileInMonitoredDir env st dir fileName).2.ingestionAttempts =
        st.ingestionAttempts ++ [(dir, fileName)] ∧
      (handleZimFileInMonitoredDir env st dir fileName).1 =
        (if (addBookFromPath env st.library (bookPathOf dir fileName)).1
          then .ADDED_TO_THE_LIBRARY else .COULD_NOT_BE_ADDED_TO_THE_LIBRARY) ∧
      (handleZimFileInMonitoredDir env st dir fileName).2.library =
        (addBookFromPath env st.library (bookPathOf dir fileName)).2 ∧
      ((handleZimFileInMonitoredDir env st dir fileName).2.knownZimsInDir dir).lookup fileName =
        some { status := (handleZimFileInMonitoredDir env st dir fileName).1,
               lastModified := env.lastModified (bookPathOf dir fileName) }) ∧
    (∀ (steps : List MonitoringStep) (m : QDateTime),
      (st.knownZimsInDir dir).lookup fileName =
        some { status := .COULD_NOT_BE_ADDED_TO_THE_LIBRARY, lastModified := m } →
      (∀ step ∈ steps, step.env.lastModified (bookPathOf dir fileName) = m) →
      ∃ calls, (runSteps steps st).ingestionAttempts = st.ingestionAttempts ++ calls ∧
        (dir, fileName) ∉ calls) := by
  constructor
  · intro h
    have hatt : attemptsIngestion env st dir fileName = true := by
      rcases handleZimFileInMonitoredDir_attempts env st dir fileName with h1 | h1
      · exact absurd h1 h
      · exact (attemptsIngestion_iff env st dir fileName).mpr h1
    rw [handleZimFileInMonitoredDir_of_attempt env st dir fileName hatt]
    refine ⟨rfl, rfl, rfl, ?_⟩
    simp
  · intro steps m hl henv
    exact runSteps_of_recorded dir fileName m steps st ⟨_, hl, rfl, by simp⟩ henv

/-- Witness of the amended C12: `b.zim` of `freshFileEnv` is ingested when it is
first seen; and from `knownBadFileState`, where it is recorded as a bad file with
the modification time that it still has, neither a pass, nor a recheck two
seconds later, nor another pass attempts ingestion, although the file now reads
as an archive. -/
theorem ingestion_marks_and_is_not_retried_witness :
    ((handleZimFileInMonitoredDir freshFileEnv {} "d" "b.zim").2.knownZimsInDir "d").lookup
      "b.zim" = some { status := .ADDED_TO_THE_LIBRARY, lastModified := some 9900 } ∧
    freshFileEnv.readBookFromPath (bookPathOf "d" "b.zim") =
      some { id := "B", title := "Book B" } ∧
    (runSteps
      [.pass freshFileEnv "d", .recheck settledFileEnv "d" "b.zim", .pass settledFileEnv "d"]
      knownBadFileState).ingestionAttempts = [] ∧
    (∃ calls, (runSteps
        [.pass freshFileEnv "d", .recheck settledFileEnv "d" "b.zim",
          .pass settledFileEnv "d"]
        knownBadFileState).ingestionAttempts = knownBadFileState.ingestionAttempts ++ calls ∧
      ("d", "b.zim") ∉ calls) :=
  ⟨((ingestion_marks_and_is_not_retried freshFileEnv {} "d" "b.zim").1
      (by decide)).2.2.2.trans (by decide),
   by decide,
   by decide,
   (ingestion_marks_and_is_not_retried freshFileEnv knownBadFileState "d" "b.zim").2
      [.pass freshFileEnv "d", .recheck settledFileEnv "d" "b.zim", .pass settledFileEnv "d"]
      (some 9900) (by decide) (by
        intro step hstep
        simp only [List.mem_cons, List.mem_singleton, List.not_mem_nil, or_false] at hstep
        rcases hstep with rfl | rfl | rfl <;> decide)⟩

/-! ## Setting a filter to the value in effect -/

/-- The method `setCategories` leaves `m_local`, the language filter and the
category filter as they are. -/
theorem setCategories_filters (env : Env) (st : State) :
    (setCategories env st).m_local = st.m_local ∧
    (setCategories env st).m_currentLanguage = st.m_currentLanguage ∧
    (setCategories env st).m_categoryFilter = st.m_categoryFilter := by
  unfold setCategories State.emit
  split <;> simp

/-- The method `setLanguages` leaves `m_local`, the language filter and the
category filter as they are. -/
theorem setLanguages_filters (env : Env) (st : State) :
    (setLanguages env st).m_local = st.m_local ∧
    (setLanguages env st).m_currentLanguage = st.m_currentLanguage ∧
    (setLanguages env st).m_categoryFilter = st.m_categoryFilter := by
  unfold setLanguages State.emit
  split <;> simp

/-- After `setLocal`, the member `m_local` has the value that was passed. -/
theorem setLocal_m_local (env : Env) (st : State) (newLocal : Bool) :
    (setLocal env st newLocal).m_local = newLocal := by
  unfold setLocal
  by_cases h : newLocal = st.m_local
  · rw [if_pos h, h]
  · rw [if_neg h, (setLanguages_filters env _).1, (setCategories_filters env _).1]
    rfl

/-- After `setCurrentLanguage`, the member `m_currentLanguage` is the string of
the list that was passed. -/
theorem setCurrentLanguage_m_currentLanguage (env : Env) (st : State)
    (langPairList : FilterList) :
    (setCurrentLanguage env st langPairList).m_currentLanguage =
      newLanguageOf env langPairList := by
  unfold setCurrentLanguage
  by_cases h : st.m_currentLanguage = newLanguageOf env langPairList
  · simp only [if_pos h]
    exact h
  · simp only [if_neg h]
    rfl

/-- After `setCurrentCategoryFilter`, the member `m_categoryFilter` is the string
of the list that was passed. -/
theorem setCurrentCategoryFilter_m_categoryFilter (st : State) (categoryList : List String) :
    (setCurrentCategoryFilter st categoryList).m_categoryFilter =
      QStringList.join (QStringList.sort categoryList) "," := by
  unfold setCurrentCategoryFilter
  by_cases h : st.m_categoryFilter = QStringList.join (QStringList.sort categoryList) ","
  · simp only [if_pos h]
    exact h
  · simp only [if_neg h]
    rfl

/-- C14: `setLocal`, `setCurrentLanguage` and `setCurrentCategoryFilter` are
idempotent. Called with the value that is in effect (the flag `m_local`; a list
of languages, respectively of categories, whose sorted, comma-joined string is
the filter in effect) each of them returns the state it was given: no field
has changed and the log of emitted notifications is the same. Hence the second
of two successive calls with the same argument changes nothing. -/
theorem filter_setters_idempotent (env : Env) (st : State) (newLocal : Bool)
    (langPairList : FilterList) (categoryList : List String) :
    (newLocal = st.m_local → setLocal env st newLocal = st) ∧
    (newLanguageOf env langPairList = st.m_currentLanguage →
      setCurrentLanguage env st langPairList = st) ∧
    (QStringList.join (QStringList.sort categoryList) "," = st.m_categoryFilter →
      setCurrentCategoryFilter st categoryList = st) ∧
    setLocal env (setLocal env st newLocal) newLocal = setLocal env st newLocal ∧
    setCurrentLanguage env (setCurrentLanguage env st langPairList) langPairList =
      setCurrentLanguage env st langPairList ∧
    setCurrentCategoryFilter (setCurrentCategoryFilter st categoryList) categoryList =
      setCurrentCategoryFilter st categoryList := by
  have hLocal : ∀ (s : State) (v : Bool), v = s.m_local → setLocal env s v = s := by
    intro s v h
    unfold setLocal
    rw [if_pos h]
  have hLang : ∀ (s : State) (l : FilterList), newLanguageOf env l = s.m_currentLanguage →
      setCurrentLanguage env s l = s := by
    intro s l h
    unfold setCurrentLanguage
    simp only [if_pos h.symm]
  have hCat : ∀ (s : State) (l : List String),
      QStringList.join (QStringList.sort l) "," = s.m_categoryFilter →
      setCurrentCategoryFilter s l = s := by
    intro s l h
    unfold setCurrentCategoryFilter
    simp only [if_pos h.symm]
  exact ⟨hLocal st newLocal, hLang st langPairList, hCat st categoryList,
    hLocal _ _ (setLocal_m_local env st newLocal).symm,
    hLang _ _ (setCurrentLanguage_m_currentLanguage env st langPairList).symm,
    hCat _ _ (setCurrentCategoryFilter_m_categoryFilter st categoryList).symm⟩

/-- Witness of C14 at `filteredState`: showing the Local Catalog again, choosing
French and English again (given in another order and by their two-letter
codes) and choosing the two categories again (in another order) change
nothing. -/
theorem filter_setters_idempotent_witness :
    setLocal twoLanguagesEnv filteredState true = filteredState ∧
    setCurrentLanguage twoLanguagesEnv filteredState
      [("Français", "fr"), ("English", "en")] = filteredState ∧
    setCurrentCategoryFilter filteredState ["wiktionary", "wikipedia"] = filteredState :=
  ⟨(filter_setters_idempotent twoLanguagesEnv filteredState true
      [("Français", "fr"), ("English", "en")] ["wiktionary", "wikipedia"]).1 (by decide),
   (filter_setters_idempotent twoLanguagesEnv filteredState true
      [("Français", "fr"), ("English", "en")] ["wiktionary", "wikipedia"]).2.1 (by decide),
   (filter_setters_idempotent twoLanguagesEnv filteredState true
      [("Français", "fr"), ("English", "en")] ["wiktionary", "wikipedia"]).2.2.1 (by decide)⟩

/-! ## Setting the search text, the sort order or the content types again -/

/-- Every call of `setSearch` emits `booksChanged`. -/
theorem setSearch_log (st : State) (search : String) :
    (setSearch st search).log = st.log ++ [.booksChanged] := rfl

/-- Every call of `setSortBy` emits `booksChanged`. -/
theorem setSortBy_log (st : State) (sortBy : String) (sortOrderAsc : Bool) :
    (setSortBy st sortBy sortOrderAsc).log = st.log ++ [.booksChanged] := rfl

/-- Every call of `setCurrentContentTypeFilter` stores the list in the settings
and emits `filterParamsChanged`. -/
theorem setCurrentContentTypeFilter_log (st : State) (pairs : FilterList) :
    (setCurrentContentTypeFilter st pairs).log =
      st.log ++ [.settingsSetContentType pairs, .filterParamsChanged] := rfl

/-- C15 does not hold of the code: `setSearch` and `setSortBy` compare nothing. In
`filteredState` the search text is `wiki` and the books are sorted by title in
ascending order; setting the same search text, or the same sort key and
direction, leaves these members as they are and emits `booksChanged`, and two
identical successive calls from the initial state emit it twice. -/
theorem setSearch_setSortBy_notify_again :
    filteredState.log = [] ∧
    (setSearch filteredState "wiki").m_searchQuery = filteredState.m_searchQuery ∧
    (setSearch filteredState "wiki").log = [.booksChanged] ∧
    (setSearch (setSearch {} "wiki") "wiki").log = [.booksChanged, .booksChanged] ∧
    (setSortBy filteredState "title" true).m_sortBy = filteredState.m_sortBy ∧
    (setSortBy filteredState "title" true).m_sortOrderAsc = filteredState.m_sortOrderAsc ∧
    (setSortBy filteredState "title" true).log = [.booksChanged] ∧
    (setSortBy (setSortBy {} "title" true) "title" true).log =
      [.booksChanged, .booksChanged] := by
  decide

/-- C16 does not hold of the code: `setCurrentContentTypeFilter` compares nothing.
In `filteredState` the content-type filter is `_videos:yes`; setting the same
list leaves the member as it is and emits `filterParamsChanged`, and two
identical successive calls from the initial state emit it twice. -/
theorem setCurrentContentTypeFilter_notifies_again :
    filteredState.log = [] ∧
    (setCurrentContentTypeFilter filteredState [("Videos", "_videos:yes")]).m_contentTypeFilters =
      filteredState.m_contentTypeFilters ∧
    (setCurrentContentTypeFilter filteredState [("Videos", "_videos:yes")]).log =
      [.settingsSetContentType [("Videos", "_videos:yes")], .filterParamsChanged] ∧
    ((setCurrentContentTypeFilter
        (setCurrentContentTypeFilter {} [("Videos", "_videos:yes")])
        [("Videos", "_videos:yes")]).log.filter (fun e => e = .filterParamsChanged)) =
      [.filterParamsChanged, .filterParamsChanged] := by
  decide

/-! ## The end of a download -/

/-- After `DownloadManager::removeDownload` the ledger has no entry of the
book. -/
theorem getDownloadState_removeDownload_self (downloads : Downloads) (bookId : String) :
    getDownloadState (DownloadManager.removeDownload downloads bookId) bookId = none := by
  unfold getDownloadState DownloadManager.removeDownload
  induction downloads with
  | nil => rfl
  | cons e es ih =>
    simp only [List.filter_cons]
    by_cases h : e.1 = bookId
    · have hb1 : (e.1 == bookId) = true := by simpa using h
      simp only [hb1, Bool.not_true, Bool.false_eq_true, if_false]
      exact ih
    · have hb1 : (e.1 == bookId) = false := by simpa using h
      simp only [hb1, Bool.not_false, if_true, List.find?_cons]
      exact ih

/-- The book found under an id has that id. -/
theorem getBookById_ok_id {lib : BookList} {id : String} {b : Book}
    (h : getBookById lib id = .ok b) : b.id = id := by
  unfold getBookById at h
  cases hf : lib.find? (fun b => b.id == id) with
  | none => rw [hf] at h; cases h
  | some c =>
    rw [hf] at h
    cases h
    simpa using List.find?_some hf

/-- After `addOrUpdateBook`, the lookup of the id of the book gives the book. -/
theorem getBookById_addOrUpdateBook_self (lib : BookList) (book : Book) :
    getBookById (addOrUpdateBook lib book) book.id = .ok book := by
  unfold addOrUpdateBook getBookById
  by_cases hany : lib.any (fun b => b.id == book.id) = true
  · rw [if_pos hany]
    have hfind : (lib.map (fun b => if b.id == book.id then book else b)).find?
        (fun b => b.id == book.id) = some book := by
      induction lib with
      | nil => simp at hany
      | cons c cs ih =>
        by_cases hc : c.id = book.id
        · simp [List.find?_cons, hc]
        · have hany2 : cs.any (fun b => b.id == book.id) = true := by
            simpa [List.any_cons, hc] using hany
          simpa [List.find?_cons, hc] using ih hany2
    rw [hfind]
  · rw [if_neg hany]
    have hnone : ∀ c ∈ lib, ¬ c.id = book.id := by
      intro c hc hid
      apply hany
      simp only [List.any_eq_true]
      exact ⟨c, hc, by simp [hid]⟩
    have hfind : (lib ++ [book]).find? (fun b => b.id == book.id) = some book := by
      induction lib with
      | nil => simp [List.find?_cons]
      | cons c cs ih =>
        have hc : ¬ c.id = book.id := hnone c (List.mem_cons_self _ _)
        have ih2 := ih (fun hany2 => hany (by simp [List.any_cons, hany2]))
          (fun d hd => hnone d (List.mem_cons_of_mem _ hd))
        simpa [List.find?_cons, hc] using ih2
    rw [hfind]

/-- C17: for every book id that has a download-ledger entry and a record in the
Local Catalog (in particular a placeholder), `updateDownload` with the status
`completed` returns, and in the state it leaves the ledger has no entry of the
id, the Local Catalog record of the id is the former record with the path of
the completed file, an empty download-id, a valid path and an empty URL, and
`getBookState` of the id is `AVAILABLE_LOCALLY_AND_HEALTHY`. -/
theorem updateDownload_completed (env : Env) (st : State) (bookId : String)
    (downloadInfo : DownloadInfo) (downloadState : DownloadState) (placeholder : Book)
    (hledger : getDownloadState st.downloads bookId = some downloadState)
    (hbook : getBookById st.library bookId = .ok placeholder)
    (hstatus : downloadInfo.status = "completed") :
    ∃ st2 : State, updateDownload env st bookId downloadInfo = .ok st2 ∧
      getDownloadState st2.downloads bookId = none ∧
      getBookById st2.library bookId = .ok { placeholder with
        path := downloadInfo.path, downloadId := "", pathValid := true, url := "" } ∧
      getBookState st2 bookId = .ok .AVAILABLE_LOCALLY_AND_HEALTHY := by
  have hid : placeholder.id = bookId := getBookById_ok_id hbook
  subst hid
  have hlookup : getBookById
      (addOrUpdateBook st.library { placeholder with
        path := downloadInfo.path, downloadId := "", pathValid := true, url := "" })
      placeholder.id =
      .ok { placeholder with
        path := downloadInfo.path, downloadId := "", pathValid := true, url := "" } :=
    getBookById_addOrUpdateBook_self st.library { placeholder with
      path := downloadInfo.path, downloadId := "", pathValid := true, url := "" }
  refine ⟨{ (removeDownload st placeholder.id) with
      library := addOrUpdateBook st.library { placeholder with
        path := downloadInfo.path, downloadId := "", pathValid := true, url := "" } }.emit
      [.librarySaved, .bookmarksChanged,
        if !st.m_local then .oneBookChanged placeholder.id else .libraryBooksChanged],
      ?_, ?_, ?_, ?_⟩
  · unfold updateDownload
    rw [hledger]
    simp only [if_pos hstatus]
    unfold downloadCompleted
    simp only [removeDownload, hbook]
  · exact getDownloadState_removeDownload_self st.downloads placeholder.id
  · exact hlookup
  · unfold getBookState
    have hnone : getDownloadState
        ({ (removeDownload st placeholder.id) with
          library := addOrUpdateBook st.library { placeholder with
            path := downloadInfo.path, downloadId := "", pathValid := true, url := "" } }.emit
          [.librarySaved, .bookmarksChanged,
            if !st.m_local then .oneBookChanged placeholder.id
            else .libraryBooksChanged]).downloads
        placeholder.id = none :=
      getDownloadState_removeDownload_self st.downloads placeholder.id
    rw [hnone]
    simp only [State.emit, hlookup]
    simp [getStateOfLocalBook]

/-- Witness of C17: the download of book `X` of `downloadInProgressState` is
reported as completed at `d/x.zim`. -/
theorem updateDownload_completed_witness :
    ∃ st2 : State,
      updateDownload {} downloadInProgressState "X"
        { status := "completed", path := "d/x.zim" } = .ok st2 ∧
      getDownloadState st2.downloads "X" = none ∧
      getBookById st2.library "X" = .ok
        { id := "X", title := "Book X", path := "d/x.zim", pathValid := true } ∧
      getBookState st2 "X" = .ok .AVAILABLE_LOCALLY_AND_HEALTHY :=
  updateDownload_completed {} downloadInProgressState "X"
    { status := "completed", path := "d/x.zim" } { status := .DOWNLOADING, path := "d/x.zim" }
    { id := "X", title := "Book X", path := "d/x.zim", downloadId := "gid-1" }
    (by decide) (by decide) (by decide)

/-- C19: when the precheck `checkThatBookCanBeDownloaded` fails for the book of
the id, `downloadBook` returns the state it was given with the error box as its
only effect, and `startDownload` returns the state it was given with the signal
`error` as its only effect: the Local Catalog, the download ledger and the
request queue are unchanged (no placeholder, no START request), the library is
not saved and no download is started. -/
theorem precheck_failure_creates_no_state (env : Env) (st : State) (id : String) (book : Book)
    (err : KiwixAppError)
    (hbook : getRemoteOrLocalBook st id = .ok book)
    (hcheck : env.checkThatBookCanBeDownloaded book env.downloadDir = some err) :
    downloadBook env st id = .ok (st.emit [.showErrorBox err.summary err.details]) ∧
    startDownload env st id = .ok (st.emit [.error err.summary err.details]) ∧
    (st.emit [.showErrorBox err.summary err.details]).library = st.library ∧
    (st.emit [.showErrorBox err.summary err.details]).downloads = st.downloads ∧
    (st.emit [.showErrorBox err.summary err.details]).requests = st.requests ∧
    (st.emit [.error err.summary err.details]).library = st.library ∧
    (st.emit [.error err.summary err.details]).downloads = st.downloads ∧
    (st.emit [.error err.summary err.details]).requests = st.requests := by
  refine ⟨?_, ?_, rfl, rfl, rfl, rfl, rfl, rfl⟩
  · unfold downloadBook
    simp only [hbook, hcheck]
  · unfold startDownload
    simp only [hbook, hcheck]

/-- Witness of C19: the book `X` of `remoteBookState` cannot be downloaded because
the disk is full. -/
theorem precheck_failure_creates_no_state_witness :
    downloadBook fullDiskEnv remoteBookState "X" =
      .ok (remoteBookState.emit [.showErrorBox "Not enough storage" "The disk is full."]) ∧
    startDownload fullDiskEnv remoteBookState "X" =
      .ok (remoteBookState.emit [.error "Not enough storage" "The disk is full."]) :=
  ⟨(precheck_failure_creates_no_state fullDiskEnv remoteBookState "X"
      { id := "X", url := "http://example.org/x.zim" }
      { summary := "Not enough storage", details := "The disk is full." }
      (by decide) (by decide)).1,
   (precheck_failure_creates_no_state fullDiskEnv remoteBookState "X"
      { id := "X", url := "http://example.org/x.zim" }
      { summary := "Not enough storage", details := "The disk is full." }
      (by decide) (by decide)).2.1⟩

/-! ## The attributes of a book that is being downloaded -/

/-- For a placeholder of the Local Catalog, the attributes are read from the
Remote Catalog record of the id, and from no book when the Remote Catalog does
not have the id: the placeholder is not used. -/
theorem bookOfInfos_of_placeholder (st : State) (id : String) (b : Book)
    (hb : getBookById st.library id = .ok b) (hdl : b.downloadId ≠ "") :
    bookOfInfos st id = (getBookById st.remoteLibrary id).toOption := by
  unfold bookOfInfos
  simp only [hb, if_pos hdl]
  cases getBookById st.remoteLibrary id <;> rfl

/-- When the attribute of every key can be evaluated, the loop of `getBookInfos`
returns a map that has the value of each requested key and, for the other keys,
what the map had before. -/
theorem insertBookAttributes_ok (b : Option Book) (keys : List String) :
    ∀ values : BookInfo, (∀ key ∈ keys, ∃ v, attributeOrEmpty b key = .ok v) →
      ∃ result, insertBookAttributes b values keys = .ok result ∧
        ∀ k, result.lookup k =
          if k ∈ keys then (attributeOrEmpty b k).toOption else values.lookup k := by
  induction keys with
  | nil =>
    intro values _
    exact ⟨values, rfl, fun k => by simp⟩
  | cons key rest ih =>
    intro values h
    obtain ⟨v, hv⟩ := h key (List.mem_cons_self _ _)
    obtain ⟨result, hres, hlook⟩ :=
      ih (values.insert key v) (fun k hk => h k (List.mem_cons_of_mem _ hk))
    refine ⟨result, ?_, ?_⟩
    · unfold insertBookAttributes
      rw [hv]
      exact hres
    · intro k
      rw [hlook k]
      by_cases hk : k ∈ rest
      · rw [if_pos hk, if_pos (List.mem_cons_of_mem _ hk)]
      · rw [if_neg hk]
        by_cases hkey : k = key
        · rw [if_pos (by rw [hkey]; exact List.mem_cons_self _ _), hkey,
            AList.lookup_insert, hv]
          rfl
        · rw [if_neg (by simp [hkey, hk]), AList.lookup_insert_ne hkey]

/-- When the attribute of one of the keys cannot be evaluated, the loop of
`getBookInfos` returns no map. -/
theorem insertBookAttributes_error (b : Option Book) (keys : List String) :
    ∀ values : BookInfo, (∃ key ∈ keys, ∃ e, attributeOrEmpty b key = .error e) →
      ∃ e, insertBookAttributes b values keys = .error e := by
  induction keys with
  | nil =>
    intro values h
    obtain ⟨key, hkey, _⟩ := h
    cases hkey
  | cons key rest ih =>
    intro values h
    unfold insertBookAttributes
    cases hv : attributeOrEmpty b key with
    | error e => exact ⟨e, rfl⟩
    | ok v =>
      obtain ⟨k, hk, e, he⟩ := h
      rcases List.mem_cons.mp hk with hk | hk
      · rw [hk, hv] at he
        cases he
      · exact ih (values.insert key v) ⟨k, hk, e, he⟩

/-- Every attribute except `tags` can be evaluated for every book. -/
theorem getBookAttribute_ok_of_ne_tags (b : Book) (a : String) (ha : a ≠ "tags") :
    ∃ v, getBookAttribute b a = .ok v := by
  unfold getBookAttribute
  simp only [if_neg ha]
  repeat' split
  all_goals exact ⟨_, rfl⟩

/-- The attributes of a placeholder of the Local Catalog: `getBookInfos` runs its
loop with the Remote Catalog record of the id, or with no book when the Remote
Catalog does not have the id. In the latter case it returns a map with exactly
the requested keys, each with the empty string. In the former case it returns a
map exactly when the attribute of every requested key can be evaluated for the
remote record, which is so when `tags` is not requested; the map then has
exactly the requested keys, each with the attribute of the remote record. -/
theorem getBookInfos_of_placeholder (st : State) (id : String) (keys : List String) (b : Book)
    (hb : getBookById st.library id = .ok b) (hdl : b.downloadId ≠ "") :
    getBookInfos st id keys =
      insertBookAttributes (getBookById st.remoteLibrary id).toOption ∅ keys ∧
    (∀ e, getBookById st.remoteLibrary id = .error e →
      ∃ values, getBookInfos st id keys = .ok values ∧
        ∀ k, values.lookup k = if k ∈ keys then some (.string "") else none) ∧
    (∀ r, getBookById st.remoteLibrary id = .ok r →
      ((∀ key ∈ keys, ∃ v, getBookAttribute r key = .ok v) →
        ∃ values, getBookInfos st id keys = .ok values ∧
          ∀ k, values.lookup k =
            if k ∈ keys then (getBookAttribute r k).toOption else none) ∧
      ((∃ key ∈ keys, ∃ e, getBookAttribute r key = .error e) →
        ∃ e, getBookInfos st id keys = .error e) ∧
      ("tags" ∉ keys → ∃ values, getBookInfos st id keys = .ok values)) := by
  have hinfos : getBookInfos st id keys =
      insertBookAttributes (getBookById st.remoteLibrary id).toOption ∅ keys := by
    unfold getBookInfos
    rw [bookOfInfos_of_placeholder st id b hb hdl]
  refine ⟨hinfos, ?_, ?_⟩
  · intro e he
    rw [hinfos, he]
    obtain ⟨values, hv, hlook⟩ := insertBookAttributes_ok none keys ∅
      (fun key _ => ⟨.string "", rfl⟩)
    exact ⟨values, hv, fun k => by rw [hlook k]; rfl⟩
  · intro r hr
    rw [hinfos, hr]
    refine ⟨?_, ?_, ?_⟩
    · intro h
      obtain ⟨values, hv, hlook⟩ := insertBookAttributes_ok (some r) keys ∅ h
      exact ⟨values, hv, fun k => by rw [hlook k]; rfl⟩
    · intro h
      exact insertBookAttributes_error (some r) keys ∅ h
    · intro h
      obtain ⟨values, hv, _⟩ := insertBookAttributes_ok (some r) keys ∅
        (fun key hkey => getBookAttribute_ok_of_ne_tags r key
          (fun hk => h (by rw [← hk]; exact hkey)))
      exact ⟨values, hv⟩

/-- C20 does not hold of the code for every list of keys. In
`placeholderOfFlaggedBookState` the Local Catalog record of `X` is a placeholder
and the Remote Catalog record of `X` has the tag `_ftindex`, which starts with an
underscore and has no colon. For the keys `title` and `tags`, `getBookInfos`
returns no map: `getBookTags` takes the second part of the split tag, which
does not exist. Without the key `tags` the map has the title of the remote
record. -/
theorem getBookInfos_fails_on_tag_without_value :
    getBookById placeholderOfFlaggedBookState.library "X" =
      .ok { id := "X", title := "Placeholder", path := "d/x.zim", downloadId := "gid-1" } ∧
    getBookById placeholderOfFlaggedBookState.remoteLibrary "X" =
      .ok { id := "X", title := "Book X", url := "http://example.org/x.zim",
            tags := "wikipedia;_ftindex" } ∧
    getBookInfos placeholderOfFlaggedBookState "X" ["title", "tags"] =
      .error .listIndexOutOfRange ∧
    (getBookInfos placeholderOfFlaggedBookState "X" ["title"]).map
        (fun values => values.entries) =
      .ok [⟨"title", .string "Book X"⟩] := by
  decide

/-! ## The assertion of `updateStatus` holds -/

/-- With a previous status `ADDED_TO_THE_LIBRARY` the assertion of `updateStatus`
fails. -/
theorem debug_updateStatus_fails (this prevInfo : MonitoredZimFileInfo) (now : Int)
    (h : prevInfo.status = .ADDED_TO_THE_LIBRARY) :
    Debug.updateStatus this prevInfo now =
      .error (.Q_ASSERT "prevInfo.status != ADDED_TO_THE_LIBRARY") := by
  unfold Debug.updateStatus
  rw [if_neg (not_not.mpr h)]

/-- The assertion can fail: it does when `handleZimFileInMonitoredDir` is called
for the file `a.zim` of `addedFileState`, whose watch entry says
`ADDED_TO_THE_LIBRARY`; the run of `updateLibraryFromDir` and the recheck of the
same file in the same state meet no failed assertion. -/
theorem assertion_fails_for_added_file :
    Debug.getMonitoredZimFileInfo twoFilesEnv addedFileState "d" "a.zim" =
      .error (.Q_ASSERT "prevInfo.status != ADDED_TO_THE_LIBRARY") ∧
    (Debug.handleZimFileInMonitoredDir twoFilesEnv addedFileState "d" "a.zim").isOk = false ∧
    (Debug.updateLibraryFromDir twoFilesEnv addedFileState "d").isOk = true ∧
    (Debug.handleZimFileInMonitoredDirDeferred twoFilesEnv addedFileState "d" "a.zim").isOk =
      true := by
  decide

/-- The rechecks scheduled by two lists of effects, one after the other. -/
theorem scheduledRechecks_append (a b : List Effect) :
    scheduledRechecks (a ++ b) = scheduledRechecks a ++ scheduledRechecks b := by
  induction a with
  | nil => rfl
  | cons e es ih => cases e <;> simp [scheduledRechecks, ih]

/-- Deferring a file of a directory leaves the watch entries of the other
directories alone. -/
theorem defer_known_other (st : State) (dir f d : String) (h : d ≠ dir) :
    (deferHandlingOfZimFileInMonitoredDir st dir f).knownZimsInDir d = st.knownZimsInDir d := by
  simp [deferHandlingOfZimFileInMonitoredDir, State.emit, State.setStatus, State.setZimsInDir,
    Function.update_noteq h]

/-- Assigning a status to the watch entry of a file leaves the watch entries of
the other files alone. -/
theorem setStatus_lookup_of_ne (st : State) (dir f : String) (status : ZimFileStatus)
    (d g : String) (h : ¬ (d = dir ∧ g = f)) :
    ((st.setStatus dir f status).knownZimsInDir d).lookup g = (st.knownZimsInDir d).lookup g := by
  by_cases hd : d = dir
  · subst hd
    have hg : g ≠ f := fun e => h ⟨rfl, e⟩
    simp [State.setStatus, State.setZimsInDir, AList.lookup_insert_ne hg]
  · simp [State.setStatus, State.setZimsInDir, Function.update_noteq hd]

/-- The status that `getMonitoredZimFileInfo` computes for a file whose watch
entry says `PROCESS_LATER` is neither `PROCESS_LATER` nor `PROCESS_NOW`. -/
theorem getMonitoredZimFileInfo_of_later (env : Env) (st : State) (dir f : String)
    (info : MonitoredZimFileInfo)
    (hl : (st.knownZimsInDir dir).lookup f = some info) (hs : info.status = .PROCESS_LATER) :
    (getMonitoredZimFileInfo env st dir f).status ≠ .PROCESS_LATER ∧
    (getMonitoredZimFileInfo env st dir f).status ≠ .PROCESS_NOW := by
  unfold getMonitoredZimFileInfo
  simp only [hl, MonitoredZimFileInfo.updateStatus, hs, if_true]
  split_ifs <;> simp

/-- Handling a file whose watch entry says `PROCESS_LATER` changes nothing: no
recheck is scheduled, no ingestion is attempted. -/
theorem handleZimFileInMonitoredDir_of_later (env : Env) (st : State) (dir f : String)
    (info : MonitoredZimFileInfo)
    (hl : (st.knownZimsInDir dir).lookup f = some info) (hs : info.status = .PROCESS_LATER) :
    (handleZimFileInMonitoredDir env st dir f).2 = st := by
  have h := getMonitoredZimFileInfo_of_later env st dir f info hl hs
  unfold handleZimFileInMonitoredDir
  by_cases hd : isBeingDownloadedByUs st.library (bookPathOf dir f) = true
  · simp only [hd, if_true]
  · simp only [hd, Bool.false_eq_true, if_false, if_neg h.1, if_neg h.2]

/-- Handling a file either schedules nothing and leaves every watch entry that
says `PROCESS_LATER` as it is, or defers the file, whose watch entry then did
not say `PROCESS_LATER` before. -/
theorem handleZimFileInMonitoredDir_schedules (env : Env) (st : State) (dir f : String) :
    ((handleZimFileInMonitoredDir env st dir f).2.log = st.log ∧
      ∀ d g info, (st.knownZimsInDir d).lookup g = some info →
        info.status = .PROCESS_LATER →
        ((handleZimFileInMonitoredDir env st dir f).2.knownZimsInDir d).lookup g =
          some info) ∨
    ((handleZimFileInMonitoredDir env st dir f).2 =
        deferHandlingOfZimFileInMonitoredDir st dir f ∧
      ∃ prev, (st.knownZimsInDir dir).lookup f = some prev ∧
        prev.status ≠ .PROCESS_LATER) := by
  rcases handleZimFileInMonitoredDir_cases env st dir f with h1 | h2 | h3
  · left
    rw [h1.2.2]
    exact ⟨rfl, fun _ _ _ hl _ => hl⟩
  · right
    refine ⟨by rw [h2], ?_⟩
    have hz := handleZimFileInMonitoredDir_later env st dir f (by rw [h2])
    cases hl : (st.knownZimsInDir dir).lookup f with
    | none =>
      unfold getMonitoredZimFileInfo at hz
      simp [hl] at hz
    | some prev =>
      exact ⟨prev, rfl, fun hp => (getMonitoredZimFileInfo_of_later env st dir f prev hl hp).1 hz⟩
  · left
    obtain ⟨_, hnow, heq⟩ := h3
    rw [heq]
    refine ⟨rfl, ?_⟩
    intro d g info hl hs
    by_cases hd2 : d = dir
    · subst hd2
      by_cases hg : g = f
      · subst hg
        exact absurd hnow (getMonitoredZimFileInfo_of_later env st d g info hl hs).2
      · simp [State.setZimsInDir, AList.lookup_insert_ne hg, hl]
    · simp [State.setZimsInDir, Function.update_noteq hd2, hl]

/-- Handling a file keeps the outstanding rechecks recorded, the rechecks that it
schedules included. -/
theorem handleZimFileInMonitoredDir_tracks (env : Env) (st0 : State)
    (out0 : List (String × String)) (s : State) (dir f : String)
    (h : ∃ extra, s.log = st0.log ++ extra ∧
      RechecksRecorded s (out0 ++ scheduledRechecks extra)) :
    ∃ extra, (handleZimFileInMonitoredDir env s dir f).2.log = st0.log ++ extra ∧
      RechecksRecorded (handleZimFileInMonitoredDir env s dir f).2
        (out0 ++ scheduledRechecks extra) := by
  obtain ⟨extra, hlog, hnodup, hrec⟩ := h
  rcases handleZimFileInMonitoredDir_schedules env s dir f with
    ⟨hl, hkeep⟩ | ⟨hdefer, prev, hprev, hnot⟩
  · refine ⟨extra, by rw [hl, hlog], hnodup, ?_⟩
    intro p hp
    obtain ⟨info, hi, hs⟩ := hrec p hp
    exact ⟨info, hkeep p.1 p.2 info hi hs, hs⟩
  · have hnotin : (dir, f) ∉ out0 ++ scheduledRechecks extra := by
      intro hin
      obtain ⟨info, hi, hs⟩ := hrec _ hin
      rw [hprev] at hi
      cases hi
      exact hnot hs
    have hsched : out0 ++ scheduledRechecks (extra ++ [.singleShot 1000 dir f]) =
        (out0 ++ scheduledRechecks extra) ++ [(dir, f)] := by
      rw [scheduledRechecks_append, List.append_assoc]
      rfl
    rw [hdefer]
    refine ⟨extra ++ [.singleShot 1000 dir f], ?_, ?_, ?_⟩
    · rw [defer_log, hlog, List.append_assoc]
    · rw [hsched]
      exact List.nodup_append.mpr
        ⟨hnodup, List.nodup_singleton _, by simpa using hnotin⟩
    · rw [hsched]
      rintro ⟨d, g⟩ hp
      rcases List.mem_append.mp hp with hold | hnew
      · obtain ⟨info, hi, hs⟩ := hrec (d, g) hold
        refine ⟨info, ?_, hs⟩
        show ((deferHandlingOfZimFileInMonitoredDir s dir f).knownZimsInDir d).lookup g =
          some info
        by_cases hd : d = dir
        · subst hd
          have hg : g ≠ f := fun e => hnotin (e ▸ hold)
          rw [defer_lookup_ne s d f g hg]
          exact hi
        · rw [defer_known_other s dir f d hd]
          exact hi
      · have hp2 : (d, g) = (dir, f) := by simpa using hnew
        cases hp2
        exact ⟨_, defer_lookup_self s dir f, rfl⟩

/-- The loop over the disappeared files of a pass leaves every watch entry that
says `PROCESS_LATER` as it is. -/
theorem handleDisappearedZimFiles_keeps_later (env : Env) (st : State) (dir d g : String)
    (info : MonitoredZimFileInfo)
    (hl : (st.knownZimsInDir d).lookup g = some info) (hs : info.status = .PROCESS_LATER) :
    ((handleDisappearedZimFiles env st dir (removedZims env st dir)).knownZimsInDir d).lookup g =
      some info := by
  refine handleDisappearedZimFiles_induction env dir
    (fun s => (s.knownZimsInDir d).lookup g = some info) _ ?_ st hl
  intro s f hf hP
  by_cases hd : d = dir
  · subst hd
    have hgf : g ≠ f := by
      rintro rfl
      obtain ⟨info2, hl2, hs2⟩ := mem_getLibraryZims.1 (mem_removedZims.1 hf).1
      rw [hl] at hl2
      cases hl2
      rw [hs] at hs2
      cases hs2
    rw [handleDisappearedZimFile_lookup_ne env s d f g hgf]
    exact hP
  · rw [handleDisappearedZimFile_known_other env s dir f d hd]
    exact hP

/-- A reconciliation pass keeps the outstanding rechecks recorded, the rechecks
that it schedules included. -/
theorem updateLibraryFromDir_recorded (env : Env) (st : State) (dir : String)
    (out : List (String × String)) (h : RechecksRecorded st out) :
    RechecksRecorded (updateLibraryFromDir env st dir)
      (out ++ scheduledRechecks ((updateLibraryFromDir env st dir).log.drop st.log.length)) := by
  have h1 : ∃ extra,
      (handleDisappearedZimFiles env st dir (removedZims env st dir)).log = st.log ++ extra ∧
      RechecksRecorded (handleDisappearedZimFiles env st dir (removedZims env st dir))
        (out ++ scheduledRechecks extra) := by
    refine ⟨[], by rw [handleDisappearedZimFiles_log, List.append_nil], ?_⟩
    simp only [scheduledRechecks, List.append_nil]
    refine ⟨h.1, fun p hp => ?_⟩
    obtain ⟨info, hi, hs⟩ := h.2 p hp
    exact ⟨info, handleDisappearedZimFiles_keeps_later env st dir p.1 p.2 info hi hs, hs⟩
  obtain ⟨extra, hlog, hrec⟩ := handleNewZimFiles_induction env dir
    (fun s => ∃ extra, s.log = st.log ++ extra ∧
      RechecksRecorded s (out ++ scheduledRechecks extra))
    (zimsNotInLib env st dir)
    (fun s f _ hs => handleZimFileInMonitoredDir_tracks env st out s dir f hs) _ h1
  have hknown := updateLibraryFromDir_known env st dir
  have hfinal : ∃ tail, (updateLibraryFromDir env st dir).log =
      (handleNewZimFiles env (handleDisappearedZimFiles env st dir (removedZims env st dir))
        dir (zimsNotInLib env st dir)).2.log ++ tail ∧ scheduledRechecks tail = [] := by
    unfold updateLibraryFromDir
    simp only
    split_ifs
    · exact ⟨[.librarySaved, .booksChanged], rfl, rfl⟩
    · exact ⟨[], by rw [List.append_nil], rfl⟩
  obtain ⟨tail, htail, hnone⟩ := hfinal
  have hdrop : (updateLibraryFromDir env st dir).log.drop st.log.length = extra ++ tail := by
    rw [htail, hlog, List.append_assoc, List.drop_left]
  rw [hdrop, scheduledRechecks_append, hnone, List.append_nil]
  refine ⟨hrec.1, fun p hp => ?_⟩
  obtain ⟨info, hi, hs⟩ := hrec.2 p hp
  exact ⟨info, by rw [hknown]; exact hi, hs⟩

/-- The firing of the timer of a file keeps the other outstanding rechecks
recorded, and the recheck that it schedules. -/
theorem handleZimFileInMonitoredDirDeferred_recorded (env : Env) (st : State) (dir f : String)
    (out : List (String × String)) (h : RechecksRecorded st out) :
    RechecksRecorded (handleZimFileInMonitoredDirDeferred env st dir f)
      (out.erase (dir, f) ++ scheduledRechecks
        ((handleZimFileInMonitoredDirDeferred env st dir f).log.drop st.log.length)) := by
  have h1 : ∃ extra, (st.setStatus dir f .PROCESS_NOW).log = st.log ++ extra ∧
      RechecksRecorded (st.setStatus dir f .PROCESS_NOW)
        (out.erase (dir, f) ++ scheduledRechecks extra) := by
    refine ⟨[], (List.append_nil _).symm, ?_⟩
    simp only [scheduledRechecks, List.append_nil]
    refine ⟨h.1.erase _, ?_⟩
    rintro ⟨d, g⟩ hp
    have hp2 := (List.Nodup.mem_erase_iff h.1).mp hp
    obtain ⟨info, hi, hs⟩ := h.2 (d, g) hp2.2
    refine ⟨info, ?_, hs⟩
    show ((st.setStatus dir f .PROCESS_NOW).knownZimsInDir d).lookup g = some info
    rw [setStatus_lookup_of_ne st dir f .PROCESS_NOW d g
      (fun e => hp2.1 (Prod.ext e.1 e.2))]
    exact hi
  obtain ⟨extra, hlog, hrec⟩ :=
    handleZimFileInMonitoredDir_tracks env st (out.erase (dir, f))
      (st.setStatus dir f .PROCESS_NOW) dir f h1
  have hfinal : ∃ tail, (handleZimFileInMonitoredDirDeferred env st dir f).log =
      (handleZimFileInMonitoredDir env (st.setStatus dir f .PROCESS_NOW) dir f).2.log ++ tail ∧
      scheduledRechecks tail = [] ∧
      (handleZimFileInMonitoredDirDeferred env st dir f).knownZimsInDir =
        (handleZimFileInMonitoredDir env (st.setStatus dir f .PROCESS_NOW) dir
          f).2.knownZimsInDir := by
    unfold handleZimFileInMonitoredDirDeferred handleZimFileInMonitoredDirLogged
    simp only
    split_ifs
    · exact ⟨[.librarySaved, .booksChanged], rfl, rfl, rfl⟩
    · exact ⟨[], by rw [List.append_nil], rfl, rfl⟩
  obtain ⟨tail, htail, hnone, hknown⟩ := hfinal
  have hdrop : (handleZimFileInMonitoredDirDeferred env st dir f).log.drop st.log.length =
      extra ++ tail := by
    rw [htail, hlog, List.append_assoc, List.drop_left]
  rw [hdrop, scheduledRechecks_append, hnone, List.append_nil]
  refine ⟨hrec.1, fun p hp => ?_⟩
  obtain ⟨info, hi, hs⟩ := hrec.2 p hp
  exact ⟨info, by rw [hknown]; exact hi, hs⟩

/-- The effects of `setMonitoredDirectories` schedule no recheck. -/
theorem setMonitoredDirectories_log (env : Env) (st : State) (dirList : List String) :
    ∃ extra, (setMonitoredDirectories env st dirList).log = st.log ++ extra ∧
      scheduledRechecks extra = [] := by
  unfold setMonitoredDirectories
  have hfold : ∀ (dirs : List String) (s : State),
      ∃ extra, (dirs.foldl (setMonitoredDirectory env) s).log = s.log ++ extra ∧
        scheduledRechecks extra = [] := by
    intro dirs
    induction dirs with
    | nil => intro s; exact ⟨[], (List.append_nil _).symm, rfl⟩
    | cons dir dirs ih =>
      intro s
      obtain ⟨extra, hlog, hnone⟩ := ih (setMonitoredDirectory env s dir)
      have hone : ∃ e1, (setMonitoredDirectory env s dir).log = s.log ++ e1 ∧
          scheduledRechecks e1 = [] := by
        unfold setMonitoredDirectory
        by_cases hdir : dir ≠ ""
        · rw [if_pos hdir]
          exact ⟨[.asyncUpdateLibraryFromDir dir], rfl, rfl⟩
        · rw [if_neg hdir]
          exact ⟨[], (List.append_nil _).symm, rfl⟩
      obtain ⟨e1, hlog1, hnone1⟩ := hone
      refine ⟨e1 ++ extra, ?_, ?_⟩
      · rw [List.foldl_cons, hlog, hlog1, List.append_assoc]
      · rw [scheduledRechecks_append, hnone1, hnone, List.append_nil]
  exact hfold dirList _

/-- Along passes, firings of timers and calls of `setMonitoredDirectories` that
are made while no recheck is outstanding, the outstanding rechecks stay
recorded. -/
theorem runEvents_recorded (events : List MonitorEvent) :
    ∀ m m2 : Monitor, resetsWhileIdle events m = true →
      RechecksRecorded m.state m.outstanding →
      runEvents events m = some m2 → RechecksRecorded m2.state m2.outstanding := by
  induction events with
  | nil =>
    intro m m2 _ h hrun
    simp only [runEvents, Option.some.injEq] at hrun
    rw [← hrun]
    exact h
  | cons event events ih =>
    intro m m2 hidle h hrun
    unfold runEvents at hrun
    unfold resetsWhileIdle at hidle
    rw [Bool.and_eq_true] at hidle
    cases hev : event.run m with
    | none => rw [hev] at hrun; cases hrun
    | some m1 =>
      rw [hev] at hrun
      have hidle2 : resetsWhileIdle events m1 = true := by
        have := hidle.2
        rw [hev] at this
        exact this
      refine ih m1 m2 hidle2 ?_ hrun
      cases event with
      | pass env dir =>
        simp only [MonitorEvent.run, Option.some.injEq] at hev
        rw [← hev]
        exact updateLibraryFromDir_recorded env m.state dir m.outstanding h
      | fire env dir fileName =>
        simp only [MonitorEvent.run] at hev
        split_ifs at hev
        simp only [Option.some.injEq] at hev
        rw [← hev]
        exact handleZimFileInMonitoredDirDeferred_recorded env m.state dir fileName
          m.outstanding h
      | setMonitoredDirectories env dirList =>
        have hempty : m.outstanding = [] := by
          have := hidle.1
          simpa [MonitorEvent.isSetMonitoredDirectories] using this
        simp only [MonitorEvent.run, Option.some.injEq] at hev
        obtain ⟨extra, hlog, hnone⟩ := setMonitoredDirectories_log env m.state dirList
        rw [← hev]
        simp only [Monitor.advance, hempty, hlog, List.drop_left, hnone, List.append_nil]
        exact ⟨List.nodup_nil, fun p hp => absurd hp (List.not_mem_nil p)⟩

/-- A list without duplicates has at most one element that is equal to a given
one. -/
theorem length_filter_eq_le_one {α : Type} [DecidableEq α] (l : List α) (h : l.Nodup) (a : α) :
    (l.filter (fun p => decide (p = a))).length ≤ 1 := by
  induction l with
  | nil => simp
  | cons x xs ih =>
    have hx := List.nodup_cons.mp h
    simp only [List.filter_cons]
    by_cases hxa : x = a
    · subst hxa
      have hnil : xs.filter (fun p => decide (p = x)) = [] := by
        rw [List.filter_eq_nil_iff]
        intro p hp
        simp only [decide_eq_true_eq]
        rintro rfl
        exact hx.1 hp
      simp [hnil]
    · simp only [hxa, decide_False, Bool.false_eq_true, if_false]
      exact ih hx.2

/-- C21, as stated, fails: along `resetWhileRecheckIsOutstanding` the monitored
directories are chosen again while the recheck of `b.zim` is outstanding, the
watch entry that recorded the recheck is cleared, and half a second after the
first recheck was scheduled a second recheck of the same file is scheduled: two
rechecks of `b.zim` are outstanding. -/
theorem second_recheck_after_setMonitoredDirectories :
    (runEvents resetWhileRecheckIsOutstanding { state := {}, outstanding := [] }).map
      (fun m => m.outstanding) = some [("d", "b.zim"), ("d", "b.zim")] ∧
    (runEvents resetWhileRecheckIsOutstanding { state := {}, outstanding := [] }).map
      (fun m => m.outstandingCount "d" "b.zim") = some 2 := by
  decide

/-- C21, amended: in every state reached from an initial state with no scheduled
rechecks through reconciliation passes, firings of scheduled rechecks and calls
of `setMonitoredDirectories` that are made while no recheck is outstanding,
each directory and file name has at most one scheduled recheck outstanding, and
the watch entry of a file with an outstanding recheck says `PROCESS_LATER`.
Handling a file whose watch entry says `PROCESS_LATER` leaves the state as it
is: it schedules no recheck. -/
theorem at_most_one_outstanding_recheck (events : List MonitorEvent) (st0 : State)
    (m : Monitor)
    (hidle : resetsWhileIdle events { state := st0, outstanding := [] } = true)
    (hrun : runEvents events { state := st0, outstanding := [] } = some m) :
    (∀ dir fileName, m.outstandingCount dir fileName ≤ 1) ∧
    (∀ dir fileName, (dir, fileName) ∈ m.outstanding →
      ∃ info, (m.state.knownZimsInDir dir).lookup fileName = some info ∧
        info.status = .PROCESS_LATER) ∧
    (∀ (env : Env) (st : State) (dir fileName : String) (info : MonitoredZimFileInfo),
      (st.knownZimsInDir dir).lookup fileName = some info →
      info.status = .PROCESS_LATER →
      (handleZimFileInMonitoredDir env st dir fileName).2 = st) := by
  have h := runEvents_recorded events { state := st0, outstanding := [] } m hidle
    ⟨List.nodup_nil, fun p hp => absurd hp (List.not_mem_nil p)⟩ hrun
  refine ⟨fun dir fileName => length_filter_eq_le_one m.outstanding h.1 (dir, fileName),
    fun dir fileName hp => h.2 (dir, fileName) hp, ?_⟩
  intro env st dir fileName info hl hs
  exact handleZimFileInMonitoredDir_of_later env st dir fileName info hl hs

/-- Witness of the amended C21: along `recheckOfFileThatIsWritten` one recheck of
`b.zim` is outstanding at the end, the one that the firing of the first has
scheduled; and handling `b.zim` in `pendingRecheckState` changes nothing. -/
theorem at_most_one_outstanding_recheck_witness :
    (runEvents recheckOfFileThatIsWritten { state := {}, outstanding := [] }).map
      (fun m => m.outstanding) = some [("d", "b.zim")] ∧
    (∀ dir fileName,
      ((runEvents recheckOfFileThatIsWritten { state := {}, outstanding := [] }).get
        (by decide)).outstandingCount dir fileName ≤ 1) ∧
    (handleZimFileInMonitoredDir freshFileEnv pendingRecheckState "d" "b.zim").2 =
      pendingRecheckState :=
  have hsome :
      (runEvents recheckOfFileThatIsWritten { state := {}, outstanding := [] }).isSome = true := by
    decide
  have h := at_most_one_outstanding_recheck recheckOfFileThatIsWritten {}
    ((runEvents recheckOfFileThatIsWritten { state := {}, outstanding := [] }).get hsome)
    (by decide) (Option.some_get hsome).symm
  ⟨by decide, h.1,
   h.2.2 freshFileEnv pendingRecheckState "d" "b.zim"
     { status := .PROCESS_LATER, lastModified := some 9900 } (by decide) rfl⟩

/-! ## The files that are erased with a book -/

/-- When the last element of the path of the book is empty,
`eraseBookFilesFromComputer` does nothing. -/
theorem eraseBookFilesFromComputer_of_empty_name (env : Env) (st : State) (bookPath : String)
    (moveToTrash : Bool) (h : env.getLastPathElement bookPath = "") :
    eraseBookFilesFromComputer env st bookPath moveToTrash = st := by
  unfold eraseBookFilesFromComputer
  have hglob : env.getLastPathElement bookPath ++ "*" = "*" := by
    rw [h]
    rfl
  simp only [hglob, if_true]

/-- Every file that `eraseBookFilesFromComputer` removes or moves to trash is an
entry of the directory of the book that matches one of the name filters made
from the file name of the book followed by `*`. -/
theorem eraseBookFilesFromComputer_effects (env : Env) (st : State) (bookPath : String)
    (moveToTrash : Bool) :
    ∃ files : List String,
      (eraseBookFilesFromComputer env st bookPath moveToTrash).log =
        st.log ++ files.map (fun file =>
          if moveToTrash then .fileMovedToTrash (env.removeLastPathElement bookPath) file
          else .fileRemoved (env.removeLastPathElement bookPath) file) ∧
      ∀ file ∈ files, file ∈ env.dirEntries (env.removeLastPathElement bookPath) ∧
        ∃ filter ∈ QDir.nameFiltersFromString (env.getLastPathElement bookPath ++ "*"),
          env.wildcardMatch filter file = true := by
  unfold eraseBookFilesFromComputer
  by_cases hglob : env.getLastPathElement bookPath ++ "*" = "*"
  · simp only [hglob, if_true]
    exact ⟨[], by simp, fun file hfile => absurd hfile (List.not_mem_nil file)⟩
  · simp only [if_neg hglob]
    refine ⟨QDir.entryList env (env.removeLastPathElement bookPath)
      (env.getLastPathElement bookPath ++ "*"), rfl, ?_⟩
    intro file hfile
    unfold QDir.entryList at hfile
    rw [List.mem_filter, List.any_eq_true] at hfile
    exact hfile

/-- C23 does not hold of the code: the file name of the book is used as a name
filter of a `QDir`. For the book `/zims/my book.zim` the filter `my book.zim*`
is split at the space into the filters `my` and `book.zim*`:
`eraseBookFilesFromComputer` removes the files `book.zim` and `my`, neither of
which starts with `my book.zim`, and leaves `my book.zim`. For the book
`/zims/what?.zim` the question mark is a wildcard: the file `whats.zim` is moved
to trash, which does not start with `what?.zim`. -/
theorem eraseBookFilesFromComputer_erases_other_files :
    QDir.nameFiltersFromString "my book.zim*" = ["my", "book.zim*"] ∧
    (eraseBookFilesFromComputer zimsDirEnv {} "/zims/my book.zim" false).log =
      [.fileRemoved "/zims" "book.zim", .fileRemoved "/zims" "my"] ∧
    List.isPrefixOf "my book.zim".data "book.zim".data = false ∧
    List.isPrefixOf "my book.zim".data "my".data = false ∧
    (eraseBookFilesFromComputer zimsDirEnv {} "/zims/what?.zim" true).log =
      [.fileMovedToTrash "/zims" "what?.zim", .fileMovedToTrash "/zims" "whats.zim"] ∧
    List.isPrefixOf "what?.zim".data "whats.zim".data = false := by
  decide

/-! ## The tags that are displayed for a book -/

/-- C24 does not hold of the code: `getBookTags` indexes out of range. For the
empty tags string, and for a tags string with an empty tag between semicolons,
`tag[0]` is taken of an empty string; for a tag that starts with an underscore
and has no colon, `splitTag[1]` is taken of a list of one element. For tags of
the form that the code expects the display string is returned, with
`Introduction only` when `_details` is not set to `yes`. -/
theorem getBookTags_indexes_out_of_range :
    getBookTags { tags := "" } = .error .stringIndexOutOfRange ∧
    getBookTags { tags := "wikipedia;;nopic" } = .error .stringIndexOutOfRange ∧
    getBookTags { tags := "wikipedia;_ftindex" } = .error .listIndexOutOfRange ∧
    getBookTags { tags := "wikipedia;_videos:yes;_details:no" } =
      .ok "Videos, Introduction only" ∧
    getBookTags { tags := "wikipedia;_pictures:yes;_details:yes" } = .ok "Pictures" := by
  decide

end ContentManager
